import Mathlib

/-!
Verification development for the OpenClaw swarm observatory backend
(`src/app.py`).  The definitions below are a shallow embedding of the
pure logic of the backend: Python dictionaries become structures whose
`Option` fields model key absence, Python numbers become `ℚ` (exact
rationals standing for the float values the code manipulates), and the
impure inputs of a function (wall-clock time, local-time formatting,
module-level state) become explicit parameters.  Field and function
names follow the Python source.
-/

namespace Observatory

/-! ### Python string/truthiness helpers -/

/-- Python truthiness of an optional string: `None` (absent) and `""` are falsy. -/
def truthyStr : Option String → Bool
  | none => false
  | some s => !(s == "")

/-- Python `a or b` where `a` is an optional string (absent or empty counts as
falsy and selects `b`). -/
def pyOrStr (a : Option String) (b : String) : String :=
  match a with
  | some s => if s == "" then b else s
  | none => b

/-- Python `str.strip()` whitespace (the ASCII whitespace characters). -/
def pyWs (c : Char) : Bool :=
  c = ' ' || c = '\t' || c = '\n' || c = '\r' || c = '\x0b' || c = '\x0c'

/-- Python `str.strip()`, kernel-computable (Lean's `String.trim` does not
reduce inside `decide`). -/
def pyStrip (s : String) : String :=
  String.mk (((s.data.dropWhile pyWs).reverse.dropWhile pyWs).reverse)

/-- ASCII decimal digit test. -/
def isDigitCh (c : Char) : Bool := '0' ≤ c && c ≤ '9'

/-- Numeric value of a list of decimal digits. -/
def digitsVal (l : List Char) : ℕ :=
  l.foldl (fun a c => a * 10 + (c.toNat - '0'.toNat)) 0

/-! ### Time normalisation (`parse_any_ts`, `app.py` lines 702-733) -/

/-- A timestamp-like Python value: a number (int or float, both modelled as an
exact rational), a string, or anything else (`None`, lists, ...). -/
inductive TsVal where
  | num (q : ℚ)
  | str (s : String)
  | nul
  deriving DecidableEq, Repr

/-- The inner `normalize_epoch` of `parse_any_ts`: non-positive values collapse
to `0.0`, and the magnitude thresholds `1e18`/`1e15`/`1e12` select the
nanosecond/microsecond/millisecond scale. -/
def normalize_epoch (q : ℚ) : ℚ :=
  if q ≤ 0 then 0
  else if q > 1000000000000000000 then q / 1000000000
  else if q > 1000000000000000 then q / 1000000
  else if q > 1000000000000 then q / 1000
  else q

/-- Split an optional leading sign, returning (isNegative, rest). -/
def splitSign : List Char → (Bool × List Char)
  | '-' :: r => (true, r)
  | '+' :: r => (false, r)
  | l => (false, l)

/-- Does an (unsigned) character list match `\d+(\.\d+)?` completely? -/
def matchesNumericCore (l : List Char) : Bool :=
  let ds := l.takeWhile isDigitCh
  let rest := l.dropWhile isDigitCh
  !ds.isEmpty &&
    (rest.isEmpty ||
      (match rest with
       | '.' :: fs => !fs.isEmpty && fs.all isDigitCh
       | _ => false))

/-- Full match of the numeric-timestamp regex `[-+]?\d+(?:\.\d+)?`. -/
def matchesNumeric (s : String) : Bool :=
  matchesNumericCore (splitSign s.data).2

/-- Exact value of an (unsigned) decimal-literal character list. -/
def decValCore (l : List Char) : ℚ :=
  let ds := l.takeWhile isDigitCh
  let rest := l.dropWhile isDigitCh
  match rest with
  | '.' :: fs => (digitsVal ds : ℚ) + (digitsVal fs : ℚ) / ((10 : ℚ) ^ fs.length)
  | _ => (digitsVal ds : ℚ)

/-- Exact value of a signed decimal literal (the mathematical value that
Python's `float(text)` rounds; the sign of the value is preserved exactly,
which is all `normalize_epoch`'s `<= 0` test observes). -/
def decVal (s : String) : ℚ :=
  let (neg, l) := splitSign s.data
  (if neg then -1 else 1) * decValCore l

/-- Number of days in a month of the proleptic Gregorian calendar. -/
def daysInMonth (y m : ℤ) : ℤ :=
  if m = 2 then (if (y % 4 = 0 ∧ y % 100 ≠ 0) ∨ y % 400 = 0 then 29 else 28)
  else if m = 4 ∨ m = 6 ∨ m = 9 ∨ m = 11 then 30 else 31

/-- Days from the civil date `(y, m, d)` to 1970-01-01 (Howard Hinnant's
`days_from_civil` algorithm, the arithmetic underlying epoch conversion). -/
def daysFromCivil (y m d : ℤ) : ℤ :=
  let y2 := if m ≤ 2 then y - 1 else y
  let era := Int.fdiv y2 400
  let yoe := y2 - era * 400
  let mp := if m > 2 then m - 3 else m + 9
  let doy := Int.fdiv (153 * mp + 2) 5 + d - 1
  let doe := yoe * 365 + Int.fdiv yoe 4 - Int.fdiv yoe 100 + doy
  era * 146097 + doe - 719468

/-- Value of a two-digit field, when both characters are digits. -/
def d2 (a b : Char) : Option ℤ :=
  if isDigitCh a && isDigitCh b then
    some (((a.toNat - 48) * 10 + (b.toNat - 48) : ℕ) : ℤ)
  else none

/-- Value of a four-digit field, when all characters are digits. -/
def d4 (a b c d : Char) : Option ℤ :=
  match d2 a b, d2 c d with
  | some hi, some lo => some (hi * 100 + lo)
  | _, _ => none

/-- The `Z`-suffix rewrite of `parse_any_ts`: a trailing `Z` becomes `+00:00`. -/
def zFix (l : List Char) : List Char :=
  if l.getLast? = some 'Z' then l.dropLast ++ ('+' :: '0' :: '0' :: ':' :: '0' :: '0' :: []) else l

/-- The `datetime.fromisoformat(text).timestamp()` branch of `parse_any_ts`,
modelled for the offset-explicit grammar
`YYYY-MM-DD[T or space]HH:MM:SS±HH:MM` (which is what the `Z`-rewrite above
produces from the `...Z` timestamps this system emits).  Other shapes are
treated as unparsable, matching the function's `except: return 0.0`
fallback. -/
def isoParse (l : List Char) : Option ℚ :=
  match l with
  | [y1, y2, y3, y4, c1, m1, m2, c2, dd1, dd2, sep, h1, h2, c3,
     mi1, mi2, c4, s1, s2, sg, o1, o2, c5, o3, o4] =>
    if c1 = '-' ∧ c2 = '-' ∧ c3 = ':' ∧ c4 = ':' ∧ c5 = ':' ∧
       (sep = 'T' ∨ sep = ' ') ∧ (sg = '+' ∨ sg = '-') then
      match d4 y1 y2 y3 y4, d2 m1 m2, d2 dd1 dd2, d2 h1 h2, d2 mi1 mi2,
            d2 s1 s2, d2 o1 o2, d2 o3 o4 with
      | some y, some mo, some dd, some hh, some mi, some ss, some oh, some om =>
        if 1 ≤ y ∧ 1 ≤ mo ∧ mo ≤ 12 ∧ 1 ≤ dd ∧ dd ≤ daysInMonth y mo ∧
           hh ≤ 23 ∧ mi ≤ 59 ∧ ss ≤ 59 ∧ oh ≤ 23 ∧ om ≤ 59 then
          some (((daysFromCivil y mo dd * 86400 + hh * 3600 + mi * 60 + ss
                  - (if sg = '-' then -1 else 1) * (oh * 3600 + om * 60) : ℤ) : ℚ))
        else none
      | _, _, _, _, _, _, _, _ => none
    else none
  | _ => none

/-- `parse_any_ts` (`app.py` 702-733): numbers go through `normalize_epoch`;
strings are stripped, matched against the numeric regex, else handed to the
ISO parser; anything unparsable resolves to `0.0`. -/
def parse_any_ts : TsVal → ℚ
  | .num q => normalize_epoch q
  | .nul => 0
  | .str s =>
    let t := pyStrip s
    if t = "" then 0
    else if matchesNumeric t then normalize_epoch (decVal t)
    else
      match isoParse (zFix t.data) with
      | some q => q
      | none => 0

/-! ### Event filtering and normalisation (`should_skip_event`,
`normalize_event`; `app.py` 495-523) -/

/-- A raw bus event: a JSON object whose keys may be absent.  `srcFrom` and
`srcType` stand for the Python keys `from` and `type`. -/
structure RawEvent where
  agent : Option String := none
  source : Option String := none
  status : Option String := none
  task : Option String := none
  ts : Option String := none
  time : Option String := none
  cron_jobs : Option Int := none
  active_missions : Option (List String) := none
  cpu : Option String := none
  mem : Option String := none
  recent_messages : Option (List String) := none
  recent_thoughts : Option (List String) := none
  current_thought : Option String := none
  real_time : Option Bool := none
  srcFrom : Option String := none
  srcType : Option String := none
  deriving DecidableEq, Repr

/-- `should_skip_event`: system/announcement events and events naming neither
an agent nor a source are skipped. -/
def should_skip_event (e : RawEvent) : Bool :=
  (e.srcFrom == some "system") || (e.srcType == some "announcement")
    || (e.agent == none && e.source == none)

/-- The canonical normalized event produced by `normalize_event`.  Fields that
the function leaves as `None` when the raw key is missing stay `Option`. -/
structure NormalizedEvent where
  agent : String
  status : String
  task : String
  last_seen : String
  cron_jobs : Option Int
  active_missions : Option (List String)
  cpu : Option String
  mem : Option String
  recent_messages : Option (List String)
  recent_thoughts : Option (List String)
  current_thought : Option String
  real_time : Bool
  raw : RawEvent
  deriving DecidableEq, Repr

/-- `normalize_event` (`app.py` 506-523).  `now` is the value of
`time.strftime('%Y-%m-%dT%H:%M:%SZ', time.gmtime())` at the moment of the
call — the function reads the wall clock when the event has no truthy
`ts`/`time`. -/
def normalize_event (now : String) (e : RawEvent) : NormalizedEvent where
  agent := pyOrStr e.agent (pyOrStr e.source "unknown")
  status := e.status.getD "unknown"
  task := e.task.getD ""
  last_seen := pyOrStr e.ts (pyOrStr e.time now)
  cron_jobs := e.cron_jobs
  active_missions := e.active_missions
  cpu := e.cpu
  mem := e.mem
  recent_messages := e.recent_messages
  recent_thoughts := e.recent_thoughts
  current_thought := e.current_thought
  real_time := e.real_time.getD true
  raw := e

/-! ### Agent snapshots and the tailer's merge (`tail_bus`, `app.py`
2293-2376) -/

/-- One persisted history line (`{type, ts, text}`); the `type` is given by
which history list the entry lives in. -/
structure HistEntry where
  ts : String
  text : String
  deriving DecidableEq, Repr

/-- A recent cron run inside a snapshot's `cron_details` entry.  `ts` is the
epoch-millisecond number when the stored value is numeric (`None` models both
an absent key and a non-numeric value, which the consumers treat alike). -/
structure CronRunRec where
  ts : Option ℚ := none
  action : Option String := none
  status : Option String := none
  summary : Option String := none
  durationMs : Option ℚ := none
  nextRunAtMs : Option ℚ := none
  deriving DecidableEq, Repr

/-- One `cron_details` entry of a snapshot. -/
structure CronDetail where
  name : Option String := none
  summary : Option String := none
  last_run_at : Option String := none
  recent_runs : Option (List CronRunRec) := none
  deriving DecidableEq, Repr

/-- An agent snapshot as stored in `agent_state`: a dictionary whose keys may
be absent (`none`). -/
structure Snapshot where
  agent : Option String := none
  status : Option String := none
  task : Option String := none
  last_seen : Option String := none
  cron_jobs : Option Int := none
  active_missions : Option (List String) := none
  cpu : Option String := none
  mem : Option String := none
  recent_messages : Option (List String) := none
  recent_thoughts : Option (List String) := none
  current_thought : Option String := none
  real_time : Option Bool := none
  raw : Option RawEvent := none
  message_history : Option (List HistEntry) := none
  thought_history : Option (List HistEntry) := none
  interrupted_task : Option String := none
  cron_details : Option (List CronDetail) := none
  deriving DecidableEq, Repr

/-- Appending one realtime message/thought to a history list: the entry is
skipped when its stripped text is non-empty and duplicates the stripped text
of one of the 40 most recent entries (`tail_bus`, lines 2300-2326). -/
def pushHist (entryTs : String) (h : List HistEntry) (m : String) : List HistEntry :=
  let t := pyStrip m
  if t != "" && (h.drop (h.length - 40)).any (fun e => pyStrip e.text == t) then h
  else h ++ [{ ts := entryTs, text := m }]

/-- The merge performed by `tail_bus` for one accepted event (`app.py`
2293-2376), as a pure function of the stored snapshot, the raw event and the
receive time `now`.  Always-present normalized fields overwrite
unconditionally; the `None`-marked optional fields overwrite only when
present and otherwise keep the stored value (defaulting only a missing key). -/
def merge_bus_event (now : String) (prev : Snapshot) (e : RawEvent) : Snapshot :=
  let n := normalize_event now e
  let eTs := pyOrStr e.ts now
  let mh0 := (e.recent_messages.getD []).foldl (pushHist eTs) (prev.message_history.getD [])
  let th0 := (e.recent_thoughts.getD []).foldl (pushHist eTs) (prev.thought_history.getD [])
  let mh := mh0.drop (mh0.length - 200)
  let th := th0.drop (th0.length - 200)
  { prev with
    agent := some n.agent
    status := some n.status
    task := some n.task
    last_seen := some n.last_seen
    cron_jobs := some (n.cron_jobs.getD (prev.cron_jobs.getD 0))
    active_missions := some (n.active_missions.getD (prev.active_missions.getD []))
    cpu := some (n.cpu.getD (prev.cpu.getD ""))
    mem := some (n.mem.getD (prev.mem.getD ""))
    recent_messages := some (n.recent_messages.getD (prev.recent_messages.getD []))
    recent_thoughts := some (n.recent_thoughts.getD (prev.recent_thoughts.getD []))
    current_thought := some (n.current_thought.getD (prev.current_thought.getD ""))
    real_time := some n.real_time
    raw := some e
    message_history := some mh
    thought_history := some th
    interrupted_task :=
      if truthyStr prev.task && (prev.task != some n.task) then prev.task
      else prev.interrupted_task
    cron_details := some (prev.cron_details.getD []) }

/-! ### More Python string helpers -/

/-- First `n` characters of a string (Python `s[:n]`). -/
def strTake (s : String) (n : Nat) : String := String.mk (s.data.take n)

/-- Drop the first `n` characters of a string (Python `s[n:]`). -/
def strDrop (s : String) (n : Nat) : String := String.mk (s.data.drop n)

/-- Python `str.lower()` restricted to the alphabet this code matches on:
ASCII letters plus the six accented vowels of the token regex. -/
def pyLowerCh (c : Char) : Char :=
  if 'A' ≤ c ∧ c ≤ 'Z' then Char.ofNat (c.toNat + 32)
  else if c = 'À' then 'à' else if c = 'È' then 'è' else if c = 'É' then 'é'
  else if c = 'Ì' then 'ì' else if c = 'Ò' then 'ò' else if c = 'Ù' then 'ù'
  else c

/-- Lower-case an entire string. -/
def pyLowerStr (s : String) : String := String.mk (s.data.map pyLowerCh)

/-- Python `str.capitalize()`: first character upper-cased, rest lower-cased. -/
def pyCapitalize (s : String) : String :=
  match s.data with
  | [] => ""
  | c :: r =>
    String.mk ((if 'a' ≤ c ∧ c ≤ 'z' then Char.ofNat (c.toNat - 32) else c) :: r.map pyLowerCh)

/-- Does `pat` occur at the very start of the list? -/
def listStarts : List Char → List Char → Bool
  | [], _ => true
  | _ :: _, [] => false
  | a :: ar, b :: br => a == b && listStarts ar br

/-- Does `pat` occur anywhere inside the list (Python `pat in s`)? -/
def listHasSub (pat : List Char) : List Char → Bool
  | [] => pat.isEmpty
  | c :: cs => listStarts pat (c :: cs) || listHasSub pat cs

/-- Python `s.startswith(pat)`. -/
def strStarts (pat s : String) : Bool := listStarts pat.data s.data

/-- Python `pat in s` on strings. -/
def hasSub (pat s : String) : Bool := listHasSub pat.data s.data

/-- `normalize_agent_name` (`app.py` 531-533): `str(name or '').strip().lower()`. -/
def normalize_agent_name (name : Option String) : String :=
  pyLowerStr (pyStrip (pyOrStr name ""))

/-- Python `enumerate` starting from `n`. -/
def withIdx (n : Nat) : List α → List (Nat × α)
  | [] => []
  | a :: r => (n, a) :: withIdx (n + 1) r

/-! ### Token and anchor matching (`tokenize_text`, `best_anchor_matches`;
`app.py` 562-601) -/

/-- Characters of the token regex class `[a-zA-Z0-9àèéìòù_-]`, as they occur
after lower-casing. -/
def allowedTokCh (c : Char) : Bool :=
  ('a' ≤ c && c ≤ 'z') || ('A' ≤ c && c ≤ 'Z') || ('0' ≤ c && c ≤ '9') ||
    c = 'à' || c = 'è' || c = 'é' || c = 'ì' || c = 'ò' || c = 'ù' ||
    c = '_' || c = '-'

/-- Maximal runs of token characters (the matches of the greedy regex
`[...]{4,}` before the length filter). -/
def tokenRuns : List Char → List Char → List (List Char)
  | [], acc => if acc.isEmpty then [] else [acc.reverse]
  | c :: cs, acc =>
    if allowedTokCh c then tokenRuns cs (c :: acc)
    else if acc.isEmpty then tokenRuns cs [] else acc.reverse :: tokenRuns cs []

/-- `tokenize_text` (`app.py` 562-566): the set of maximal token runs of
length at least 4 in the lower-cased text, modelled as a deduplicated list. -/
def tokenize_text (s : String) : List String :=
  (((tokenRuns (pyLowerStr s).data []).filter (fun l => 4 ≤ l.length)).map
    (fun l => String.mk l)).dedup

/-- Size of the intersection of two token sets. -/
def tokenOverlap (tokens ref : List String) : Nat :=
  (tokens.filter (fun t => t ∈ ref)).length

/-- `best_anchor_matches` (`app.py` 589-601): anchors with a non-empty token
set and positive overlap with the reference text, sorted by overlap
descending (stable), truncated to `max_items`. -/
def best_anchor_matches (anchors : List String) (reference_text : String)
    (max_items : Nat) : List String :=
  let refTokens := tokenize_text reference_text
  let scored := anchors.filterMap (fun anchor =>
    let tokens := tokenize_text anchor
    if tokens.isEmpty then none
    else
      let overlap := tokenOverlap tokens refTokens
      if 0 < overlap then some (overlap, anchor) else none)
  ((scored.insertionSort (fun x y => y.1 ≤ x.1)).take max_items).map (fun x => x.2)

/-! ### Timeline entries and the decision-trace inferencer
(`infer_decision_trace`, `app.py` 878-955) -/

/-- One unified timeline entry (`{ts, source, type, text}`). -/
structure TEntry where
  ts : TsVal := .str ""
  source : String := ""
  type : String := ""
  text : String := ""
  deriving DecidableEq, Repr

/-- One discovered workspace context-root document. -/
structure ContextRoot where
  file : String := ""
  anchors : List String := []
  matched_anchors : List String := []
  deriving DecidableEq, Repr

/-- A root-cause reference attached to a decision. -/
structure RootCause where
  file : String := ""
  anchors : List String := []
  deriving DecidableEq, Repr

/-- An inferred decision record. -/
structure Decision where
  ts : TsVal := .str ""
  agent : String := ""
  decision : String := ""
  why : List String := []
  evidence : List String := []
  confidence : String := ""
  source : String := ""
  type : String := ""
  root_causes : List RootCause := []
  deriving DecidableEq, Repr

/-- The literal reason text attached when workspace documents match. -/
def constraintsReason : String :=
  "Constraints/goals derived from workspace documents (SOUL/OPERATIONS/...)"

/-- Is a timeline row a decision candidate (`app.py` 892-898)? -/
def decisionCandidate (row : TEntry) : Bool :=
  let entry_type := pyLowerStr row.type
  strStarts "recent_assistant" entry_type
    || entry_type == "message"
    || entry_type == "user_interaction"
    || entry_type == "assistant_interaction"
    || hasSub "cron_finished_ok" entry_type
    || hasSub "cron_last_run" entry_type

/-- Scan the next older entries for the first causal evidence hit
(`app.py` 902-920); returns the reason and the clipped evidence text. -/
def scanEvidence : List TEntry → Option (String × String)
  | [] => none
  | p :: rest =>
    let pt := pyLowerStr p.type
    let ptext := pyStrip p.text
    if ptext = "" then scanEvidence rest
    else if hasSub "recent_user" pt || hasSub "user_interaction" pt then
      some ("Recent user request", strTake ptext 260)
    else if hasSub "cron_" pt then
      some ("Triggered by cron execution", strTake ptext 260)
    else if hasSub "thought" pt then
      some ("Recent reasoning chain", strTake ptext 260)
    else scanEvidence rest

/-- The root-cause references of one decision text (`app.py` 925-934). -/
def decisionRootCauses (context_roots : List ContextRoot) (text : String) :
    List RootCause :=
  context_roots.filterMap (fun root =>
    let hits := best_anchor_matches root.anchors text 3
    if hits.isEmpty then none
    else some { file := root.file, anchors := hits })

/-- Build one decision record from a candidate row, the up-to-9 older entries
and the context roots (`app.py` 902-950). -/
def mkDecision (agent_name : String) (context_roots : List ContextRoot)
    (row : TEntry) (older : List TEntry) : Decision :=
  let text := pyStrip row.text
  let hit := scanEvidence (older.take 9)
  let reasons := match hit with
    | some (r, _) => [r]
    | none => ["Continuous operational context"]
  let evidence := match hit with
    | some (_, e) => [e]
    | none => []
  let root_causes := decisionRootCauses context_roots text
  { ts := row.ts
    agent := pyCapitalize agent_name
    decision := strTake text 320
    why := reasons ++ (if root_causes.isEmpty then [] else [constraintsReason])
    evidence := evidence
    confidence := if evidence.isEmpty then "medium" else "high"
    source := row.source
    type := row.type
    root_causes := root_causes }

/-- The enumeration loop of `infer_decision_trace`, carrying the number of
decisions produced so far (processing stops once 25 are accumulated). -/
def inferGo (agent_name : String) (context_roots : List ContextRoot) :
    Nat → List TEntry → List Decision
  | _, [] => []
  | cnt, row :: rest =>
    if decisionCandidate row ∧ pyStrip row.text ≠ "" then
      let d := mkDecision agent_name context_roots row rest
      if 25 ≤ cnt + 1 then [d] else d :: inferGo agent_name context_roots (cnt + 1) rest
    else inferGo agent_name context_roots cnt rest

/-- `infer_decision_trace` (`app.py` 878-955). -/
def infer_decision_trace (agent_name : String) (timeline : List TEntry)
    (context_roots : List ContextRoot) : List Decision :=
  inferGo agent_name context_roots 0 (timeline.take 220)

/-! ### The timeline builder (`build_agent_timeline`, `app.py` 736-836) -/

/-- A row of the global `recent_user_agent` interaction buffer. -/
structure InterRow where
  agent : Option String := none
  actor : Option String := none
  text : Option String := none
  ts : Option String := none
  deriving DecidableEq, Repr

/-- `parse_message_actor` (`app.py` 1489-1501). -/
def parse_message_actor (message : String) : String × String :=
  let clean := pyStrip message
  let low := pyLowerStr clean
  if strStarts "user:" low then ("user", pyStrip (strDrop clean 5))
  else if strStarts "assistant:" low then ("assistant", pyStrip (strDrop clean 10))
  else if strStarts "toolresult:" low then ("tool", pyStrip (strDrop clean 11))
  else ("system", clean)

/-- Collect the raw (pre-dedup, pre-sort) timeline rows from the five
sources.  `fmt` is the environment's `fmt_ts_ms` local-time formatter and
`recentUA` the global `recent_user_agent` buffer. -/
def collect_timeline (fmt : ℚ → String) (recentUA : List InterRow)
    (snapshot : Snapshot) : List TEntry :=
  let agent := snapshot.agent.getD "unknown"
  let mh := snapshot.message_history.getD []
  let th := snapshot.thought_history.getD []
  let rm := snapshot.recent_messages.getD []
  let rt := snapshot.recent_thoughts.getD []
  let cron := snapshot.cron_details.getD []
  ((mh.drop (mh.length - 120)).map (fun row =>
      { ts := .str row.ts, source := "session", type := "message",
        text := strTake row.text 500 }))
  ++ ((th.drop (th.length - 120)).map (fun row =>
      { ts := .str row.ts, source := "session", type := "thought",
        text := strTake row.text 500 }))
  ++ ((rm.drop (rm.length - 8)).map (fun text =>
      let ac := parse_message_actor text
      { ts := .str (snapshot.last_seen.getD ""), source := "realtime",
        type := "recent_" ++ ac.1, text := strTake ac.2 500 }))
  ++ ((rt.drop (rt.length - 8)).map (fun text =>
      { ts := .str (snapshot.last_seen.getD ""), source := "realtime",
        type := "recent_thought", text := strTake text 500 }))
  ++ (cron.flatMap (fun job =>
      let name := job.name.getD "cron"
      let summary := pyOrStr job.summary ""
      let runs := job.recent_runs.getD []
      ({ ts := .str (pyOrStr job.last_run_at ""), source := "cron",
         type := "cron_last_run",
         text := strTake (name ++ ": " ++ summary) 500 } : TEntry)
      :: (runs.drop (runs.length - 6)).map (fun run =>
          { ts := .str (match run.ts with | some q => fmt q | none => ""),
            source := "cron-run",
            type := "cron_" ++ run.action.getD "run" ++ "_" ++ run.status.getD "unknown",
            text := strTake (pyOrStr run.summary "") 500 })))
  ++ (recentUA.filterMap (fun row =>
      if normalize_agent_name row.agent == normalize_agent_name (some agent) then
        some { ts := .str (row.ts.getD ""), source := "interaction",
               type := row.actor.getD "unknown" ++ "_interaction",
               text := strTake (row.text.getD "") 500 }
      else none))

/-- The dedup key `(source, type, text)`, each stripped and lower-cased. -/
def timelineKey (e : TEntry) : String × String × String :=
  (pyLowerStr (pyStrip e.source), pyLowerStr (pyStrip e.type), pyLowerStr (pyStrip e.text))

/-- First-occurrence dedup over `timelineKey` (`app.py` 821-833). -/
def dedupGo (seen : List (String × String × String)) :
    List TEntry → List TEntry
  | [] => []
  | e :: rest =>
    let k := timelineKey e
    if k ∈ seen then dedupGo seen rest else e :: dedupGo (k :: seen) rest

/-- Timeline deduplication. -/
def dedup_timeline (l : List TEntry) : List TEntry := dedupGo [] l

/-- Sort order of the timeline: resolved timestamp descending.  (Python's
`list.sort(key=..., reverse=True)` is a stable sort; `insertionSort` with
this relation is extensionally the same stable sort.) -/
def tsGE (a b : TEntry) : Prop := parse_any_ts b.ts ≤ parse_any_ts a.ts

instance : DecidableRel tsGE := fun a b =>
  inferInstanceAs (Decidable (parse_any_ts b.ts ≤ parse_any_ts a.ts))

/-- `build_agent_timeline` (`app.py` 736-836): collect, dedup, sort. -/
def build_agent_timeline (fmt : ℚ → String) (recentUA : List InterRow)
    (snapshot : Snapshot) : List TEntry :=
  (dedup_timeline (collect_timeline fmt recentUA snapshot)).insertionSort tsGE

/-! ### The interaction dedup cache (`remember_interaction_key`,
`app.py` 44-47 and 1504-1517) -/

/-- The pair of module-level containers: the FIFO `deque(maxlen=4000)`
(`order`, oldest first) and the membership `set` (`seen`, modelled as a
duplicate-free list). -/
structure DedupCache where
  order : List String := []
  seen : List String := []
  deriving DecidableEq, Repr

/-- `remember_interaction_key` (`app.py` 1504-1517): falsy or already-seen
keys are rejected; a fresh key evicts the oldest entry when the deque is at
capacity, then is appended and remembered. -/
def remember_interaction_key (key : String) (c : DedupCache) : Bool × DedupCache :=
  if key = "" then (false, c)
  else if key ∈ c.seen then (false, c)
  else
    let c2 :=
      if 4000 ≤ c.order.length then
        match c.order with
        | [] => c
        | o :: rest => { order := rest, seen := c.seen.erase o }
      else c
    (true, { order := c2.order ++ [key], seen := key :: c2.seen })

/-- Run a whole sequence of insertions from the empty cache. -/
def runKeys (keys : List String) : DedupCache :=
  keys.foldl (fun c k => (remember_interaction_key k c).2) {}

/-! ### The JSON stream decoder (`decode_json_stream`, `app.py` 1450-1469) -/

/-- A decoded JSON value.  Numbers are modelled as integers: the fractional
and exponent forms are outside the subset exercised here and make the parser
fail, as does a string escape. -/
inductive JVal where
  | jnull
  | jbool (b : Bool)
  | jnum (n : ℤ)
  | jstr (s : String)
  | jarr (items : List JVal)
  | jobj (fields : List (String × JVal))

/-- JSON whitespace (the four characters Python's decoder skips). -/
def jsonWs (c : Char) : Bool := c = ' ' || c = '\t' || c = '\n' || c = '\r'

/-- Skip JSON whitespace. -/
def wsSkip (l : List Char) : List Char := l.dropWhile jsonWs

/-- Body of a JSON string after the opening quote, without escapes. -/
def strChars : List Char → Option (List Char × List Char)
  | [] => none
  | '"' :: rest => some ([], rest)
  | '\\' :: _ => none
  | c :: rest =>
    match strChars rest with
    | some (s, r) => some (c :: s, r)
    | none => none

/-- Maximal-munch unsigned JSON integer (`0|[1-9]\d*`), failing on the
fraction/exponent continuations this model does not cover. -/
def parseUInt : List Char → Option (ℕ × List Char)
  | '0' :: r =>
    (match r with
     | '.' :: _ => none
     | 'e' :: _ => none
     | 'E' :: _ => none
     | _ => some (0, r))
  | c :: r =>
    if isDigitCh c ∧ c ≠ '0' then
      let ds := r.takeWhile isDigitCh
      let rest := r.dropWhile isDigitCh
      match rest with
      | '.' :: _ => none
      | 'e' :: _ => none
      | 'E' :: _ => none
      | _ => some (digitsVal (c :: ds), rest)
    else none
  | [] => none

mutual

/-- One JSON value at the head of the input (the `scan_once` of
`json.JSONDecoder.raw_decode`, over the modelled subset). -/
def parseVal : Nat → List Char → Option (JVal × List Char)
  | 0, _ => none
  | Nat.succ fuel, l =>
    match l with
    | 'n' :: 'u' :: 'l' :: 'l' :: r => some (.jnull, r)
    | 't' :: 'r' :: 'u' :: 'e' :: r => some (.jbool true, r)
    | 'f' :: 'a' :: 'l' :: 's' :: 'e' :: r => some (.jbool false, r)
    | '"' :: r =>
      (strChars r).map (fun p => (.jstr (String.mk p.1), p.2))
    | '[' :: r =>
      (match wsSkip r with
       | ']' :: rr => some (.jarr [], rr)
       | r2 =>
         (parseArrItems fuel r2).map (fun p => (.jarr p.1, p.2)))
    | '\x7b' :: r =>
      (match wsSkip r with
       | '\x7d' :: rr => some (.jobj [], rr)
       | r2 =>
         (parseObjItems fuel r2).map (fun p => (.jobj p.1, p.2)))
    | '-' :: r =>
      (parseUInt r).map (fun p => (.jnum (-(p.1 : ℤ)), p.2))
    | _ =>
      (parseUInt l).map (fun p => (.jnum (p.1 : ℤ), p.2))

/-- Comma-separated array items up to the closing bracket. -/
def parseArrItems : Nat → List Char → Option (List JVal × List Char)
  | 0, _ => none
  | Nat.succ fuel, l =>
    match parseVal fuel l with
    | none => none
    | some (v, rest) =>
      match wsSkip rest with
      | ',' :: r2 =>
        (parseArrItems fuel (wsSkip r2)).map (fun p => (v :: p.1, p.2))
      | ']' :: r2 => some ([v], r2)
      | _ => none

/-- Comma-separated `"key": value` pairs up to the closing brace. -/
def parseObjItems : Nat → List Char → Option (List (String × JVal) × List Char)
  | 0, _ => none
  | Nat.succ fuel, l =>
    match l with
    | '"' :: r =>
      (match strChars r with
       | none => none
       | some (k, r2) =>
         match wsSkip r2 with
         | ':' :: r3 =>
           (match parseVal fuel (wsSkip r3) with
            | none => none
            | some (v, r4) =>
              match wsSkip r4 with
              | ',' :: r5 =>
                (parseObjItems fuel (wsSkip r5)).map
                  (fun p => ((String.mk k, v) :: p.1, p.2))
              | '\x7d' :: r5 => some ([(String.mk k, v)], r5)
              | _ => none)
         | _ => none)
    | _ => none

end

/-- The scanning loop of `decode_json_stream`: skip whitespace, try to decode
one value, on failure advance a single character. -/
def decodeLoop : Nat → List Char → List JVal
  | 0, _ => []
  | Nat.succ fuel, l =>
    match wsSkip l with
    | [] => []
    | l2 =>
      match parseVal (l2.length + 1) l2 with
      | some (v, rest) => v :: decodeLoop fuel rest
      | none => decodeLoop fuel (l2.drop 1)

/-- `decode_json_stream` (`app.py` 1450-1469). -/
def decode_json_stream (s : String) : List JVal :=
  decodeLoop (s.data.length + 1) s.data

/-! ### The causal graph builder (`build_causal_graph`, `app.py` 966-1429)

Node identifiers.  The Python code keys nodes by the strings `f'agent:{name}'`,
`f'root:{i}'`, `f'activation:{i}'`, `f'decision:{i}'`, `f'reason:{i}:{j}'`,
`f'signal:{i}'`, `f'action:{i}'`, `f'outcome:{i}'`.  These eight formats are
pairwise non-overlapping (each has a distinct literal head) and each is an
injective function of its parameters, so the identifier space is faithfully
modelled by an inductive type with one constructor per format. -/

/-- A graph node identifier. -/
inductive NodeId where
  | agent (name : String)
  | root (i : Nat)
  | activation (i : Nat)
  | decision (i : Nat)
  | reason (i j : Nat)
  | signal (i : Nat)
  | action (i : Nat)
  | outcome (i : Nat)
  deriving DecidableEq, Repr

/-- A graph node with the meta fields the claims are about (`weight`, the
post-hoc `live` flag and the unique `trigger_source` mark). -/
structure GNode where
  id : NodeId
  label : String
  group : String
  weight : ℚ
  live : Bool := false
  trigger_source : Bool := false
  deriving DecidableEq, Repr

/-- A graph edge; `source`/`target` reference node identifiers by value. -/
structure GEdge where
  source : NodeId
  target : NodeId
  label : String
  weight : ℚ
  live : Bool := false
  deriving DecidableEq, Repr

/-- The mutable `nodes`/`edges` accumulators of `build_causal_graph`. -/
structure GBState where
  nodes : List GNode := []
  edges : List GEdge := []
  deriving DecidableEq, Repr

/-- `clamp_weight` (`app.py` 979-988): clamp into `[0.1, 1.9]`. -/
def clamp_weight (value : ℚ) : ℚ :=
  if value < 0.1 then 0.1 else if value > 1.9 then 1.9 else value

/-- `clip_text` (`app.py` 958-963). -/
def clip_text (value : String) (max_len : Nat) : String :=
  let text := String.mk ((pyStrip value).data.map (fun c => if c = '\n' then ' ' else c))
  if text.data.length ≤ max_len then text
  else String.mk (text.data.take (max_len - 1)) ++ "…"

/-- `add_node` (`app.py` 990-1002): duplicate identifiers are skipped, the
weight is clamped on admission. -/
def add_node (st : GBState) (id : NodeId) (label group : String) (weight : ℚ) : GBState :=
  if st.nodes.any (fun n => n.id == id) then st
  else
    { st with nodes := st.nodes ++
        [{ id := id, label := clip_text label 120, group := group,
           weight := clamp_weight weight }] }

/-- `add_edge` (`app.py` 1004-1012): appended unconditionally, weight
clamped. -/
def add_edge (st : GBState) (source target : NodeId) (label : String) (weight : ℚ) : GBState :=
  { st with edges := st.edges ++
      [{ source := source, target := target, label := clip_text label 72,
         weight := clamp_weight weight }] }

/-- The `(node_by_id.get(x) or {}).get('meta', {}).get('weight', dflt)`
lookups. -/
def node_weight (st : GBState) (id : NodeId) (dflt : ℚ) : ℚ :=
  match st.nodes.find? (fun n => n.id == id) with
  | some n => n.weight
  | none => dflt

/-- A cron-timeline row as consumed by the graph builder. -/
structure CronTRow where
  ts : Option String := none
  kind : Option String := none
  job : Option String := none
  status : Option String := none
  summary : Option String := none
  duration_ms : Option ℚ := none
  deriving DecidableEq, Repr

/-- View an optional string as a timestamp-like value (`None` when absent). -/
def optTs (o : Option String) : TsVal :=
  match o with
  | some s => .str s
  | none => .nul

/-- The confidence→base-weight table with its `0.44` default. -/
def confidence_weight (c : String) : ℚ :=
  if c = "high" then 0.68 else if c = "medium" then 0.48
  else if c = "low" then 0.34 else 0.44

/-- `os.path.basename` for POSIX paths. -/
def pyBasename (p : String) : String :=
  String.mk ((p.data.reverse.takeWhile (fun c => c ≠ '/')).reverse)

/-- The label of the `idx`-th root node. -/
def root_label (file : String) (idx : Nat) : String :=
  if file = "" then "root-" ++ toString (idx + 1) else pyBasename file

/-- Root-node phase (`app.py` 1022-1038): up to six context roots, each with a
`context` edge to the agent; the file→node map keeps the last writer. -/
def phase_roots (st : GBState) (agentId : NodeId) (roots : List ContextRoot) :
    GBState × List (String × NodeId) :=
  (withIdx 0 (roots.take 6)).foldl (fun acc p =>
    let file := p.2.file
    let nid := NodeId.root p.1
    let w := clamp_weight (0.56 + ((min p.2.matched_anchors.length 4 : Nat) : ℚ) * 0.1)
    let st2 := add_node acc.1 nid (root_label file p.1) "root" w
    let st3 := add_edge st2 nid agentId "context" 0.62
    (st3, acc.2 ++ [(file, nid)])) (st, [])

/-- Last-writer-wins lookup in the root file map. -/
def lookup_root (assoc : List (String × NodeId)) (file : String) : Option NodeId :=
  (assoc.reverse.find? (fun p => p.1 == file)).map (fun p => p.2)

/-- An activation candidate (`app.py` 1045-1074). -/
structure ActCand where
  ts : ℚ
  text : String
  kind : String
  index : Nat
  deriving DecidableEq, Repr

/-- Classify a timeline row as an activation kind (`app.py` 1056-1064). -/
def classify_activation (row : TEntry) : Option String :=
  let entry_type := pyLowerStr row.type
  let src := pyLowerStr row.source
  if hasSub "user_interaction" entry_type || strStarts "recent_user" entry_type then
    some "user_request"
  else if hasSub "assistant_interaction" entry_type then some "agent_request"
  else if strStarts "cron_" entry_type || src == "cron-run" || src == "cron" then
    some "cron_trigger"
  else if entry_type == "message" && (src == "session" || src == "interaction") then
    some "conversation"
  else none

/-- The raw activation candidates with their timeline indices. -/
def activation_candidates (timeline : List TEntry) : List ActCand :=
  (withIdx 0 timeline).filterMap (fun p =>
    let text := pyStrip p.2.text
    let tsv := parse_any_ts p.2.ts
    if tsv ≤ 0 ∨ text = "" then none
    else (classify_activation p.2).map
      (fun k => { ts := tsv, text := text, kind := k, index := p.1 }))

/-- `sort(key=lambda item: (-item['ts'], item['index']))`: ascending in the
lexicographic key, i.e. timestamp descending with the index as tiebreak. -/
def actLE (a b : ActCand) : Prop :=
  a.ts > b.ts ∨ (a.ts = b.ts ∧ a.index ≤ b.index)

instance : DecidableRel actLE := fun a b =>
  inferInstanceAs (Decidable (a.ts > b.ts ∨ (a.ts = b.ts ∧ a.index ≤ b.index)))

/-- Dedup by `(kind, lower-cased text)` with the running cap (`app.py`
1077-1086): stop as soon as `cap` activations are kept. -/
def pickActs (cap : Nat) (seen : List (String × String)) :
    List ActCand → List ActCand
  | [] => []
  | c :: cs =>
    let k := (c.kind, pyLowerStr c.text)
    if k ∈ seen then pickActs cap seen cs
    else if cap ≤ 1 then [c]
    else c :: pickActs (cap - 1) (k :: seen) cs

/-- The activation rows that become nodes, in rank order. -/
def chosen_activations (timeline : List TEntry) (cap : Nat) : List ActCand :=
  pickActs cap [] ((activation_candidates timeline).insertionSort actLE)

/-- The kind-dependent activation label. -/
def activation_label (kind text : String) : String :=
  if kind = "user_request" then "User asks: " ++ text
  else if kind = "agent_request" then "Agent request: " ++ text
  else if kind = "cron_trigger" then "Cron trigger: " ++ text
  else "Activation: " ++ text

/-- The weight of the rank-`idx` activation node (`app.py` 1101). -/
def activation_weight_at (idx : Nat) : ℚ :=
  clamp_weight (0.54 + max 0 (0.18 - (idx : ℚ) * 0.02))

/-- One iteration of the activation loop (`app.py` 1088-1111). -/
def actStep (agentId : NodeId) (acc : GBState × List (NodeId × ℚ × String))
    (p : Nat × ActCand) : GBState × List (NodeId × ℚ × String) :=
  let nid := NodeId.activation p.1
  let w := activation_weight_at p.1
  let st2 := add_node acc.1 nid (activation_label p.2.kind p.2.text) "activation" w
  let st3 := add_edge st2 nid agentId "activates" w
  (st3, acc.2 ++ [(nid, p.2.ts, p.2.kind)])

/-- Activation-node phase (`app.py` 1088-1111). -/
def phase_activations (st : GBState) (agentId : NodeId) (acts : List ActCand) :
    GBState × List (NodeId × ℚ × String) :=
  (withIdx 0 acts).foldl (actStep agentId) (st, [])

/-- The weight of the rank-`idx` decision node (`app.py` 1115-1124). -/
def decision_weight_at (d : Decision) (idx : Nat) : ℚ :=
  let confidence := pyLowerStr (pyStrip d.confidence)
  let evidence_count := (d.evidence.filter (fun x => pyStrip x ≠ "")).length
  let root_count := d.root_causes.length
  let recency := max 0 (0.2 - (idx : ℚ) * 0.016)
  clamp_weight (confidence_weight confidence
    + ((min evidence_count 4 : Nat) : ℚ) * 0.07
    + ((min root_count 4 : Nat) : ℚ) * 0.05
    + recency)

/-- The `initiates` edges from linked activations (`app.py` 1138-1148). -/
def decision_initiates (abi : List (NodeId × ℚ × String)) (nid : NodeId)
    (dts dw : ℚ) (st : GBState) : GBState :=
  (if abi.isEmpty then []
   else (if dts > 0 then abi.filter (fun e => e.2.1 ≤ dts) else abi).take 2).foldl
    (fun st e =>
      add_edge st e.1 nid "initiates"
        (clamp_weight ((clamp_weight (node_weight st e.1 0.45) + dw) / 2))) st

/-- The `evolves` edge chaining consecutive decisions (`app.py` 1150-1155). -/
def decision_evolves (dns : List NodeId) (nid : NodeId) (dw : ℚ)
    (st : GBState) : GBState :=
  match dns.getLast? with
  | some prevId =>
    add_edge st prevId nid "evolves"
      (clamp_weight ((clamp_weight (node_weight st prevId 0.45) + dw) / 2))
  | none => st

/-- Up to two reason satellites (`app.py` 1157-1168). -/
def decision_reasons (why_items : List String) (idx : Nat) (nid : NodeId)
    (dw : ℚ) (st : GBState) : GBState :=
  (withIdx 0 (why_items.take 2)).foldl (fun st q =>
    add_edge (add_node st (NodeId.reason idx q.1) q.2 "reason"
        (clamp_weight (dw * (0.84 - (q.1 : ℚ) * 0.08))))
      (NodeId.reason idx q.1) nid "motivates"
      (clamp_weight (dw * (0.84 - (q.1 : ℚ) * 0.08)))) st

/-- The signal satellite from the first evidence snippet (`app.py`
1170-1181). -/
def decision_signal (evidence_items : List String) (idx : Nat) (nid : NodeId)
    (dw : ℚ) (st : GBState) : GBState :=
  match evidence_items with
  | [] => st
  | e0 :: _ =>
    add_edge (add_node st (NodeId.signal idx) e0 "signal" (clamp_weight (dw * 0.78)))
      (NodeId.signal idx) nid "supports" (clamp_weight (dw * 0.78))

/-- The `constrains` edges from matching root nodes (`app.py` 1183-1190). -/
def decision_constrains (root_causes : List RootCause)
    (rootAssoc : List (String × NodeId)) (nid : NodeId) (dw : ℚ)
    (st : GBState) : GBState :=
  (root_causes.take 3).foldl (fun st rc =>
    match lookup_root rootAssoc rc.file with
    | some rid =>
      add_edge st rid nid "constrains"
        (clamp_weight ((clamp_weight (node_weight st rid 0.4) + dw) / 2))
    | none => st) st

/-- One iteration of the decision loop (`app.py` 1113-1191). -/
def addDecision (agentId : NodeId) (abi : List (NodeId × ℚ × String))
    (rootAssoc : List (String × NodeId)) (acc : GBState × List NodeId)
    (p : Nat × Decision) : GBState × List NodeId :=
  let idx := p.1
  let d := p.2
  let dw := decision_weight_at d idx
  let nid := NodeId.decision idx
  let st1 := add_node acc.1 nid d.decision "decision" dw
  let st2 := add_edge st1 agentId nid "decides" (max 0.52 (dw - 0.15))
  let st3 := decision_initiates abi nid (parse_any_ts d.ts) dw st2
  let st4 := decision_evolves acc.2 nid dw st3
  let st5 := decision_reasons ((d.why.map (fun x => pyStrip x)).filter (fun x => x ≠ ""))
    idx nid dw st4
  let st6 := decision_signal ((d.evidence.map (fun x => pyStrip x)).filter (fun x => x ≠ ""))
    idx nid dw st5
  let st7 := decision_constrains d.root_causes rootAssoc nid dw st6
  (st7, acc.2 ++ [nid])

/-- Decision-node phase: the first 12 decisions. -/
def phase_decisions (st : GBState) (agentId : NodeId)
    (abi : List (NodeId × ℚ × String)) (rootAssoc : List (String × NodeId))
    (decisions : List Decision) : GBState × List NodeId :=
  (withIdx 0 (decisions.take 12)).foldl (addDecision agentId abi rootAssoc) (st, [])

/-- `decision_times` (`app.py` 1193-1195). -/
def decision_times (decisions : List Decision) : List (Nat × ℚ) :=
  (withIdx 0 (decisions.take 12)).map (fun p => (p.1, parse_any_ts p.2.ts))

/-- Is a cron row an eligible action (`app.py` 1199-1203)? -/
def eligible_kind (row : CronTRow) : Bool :=
  let kind := row.kind.getD "event"
  kind == "finished" || kind == "next_run" || kind == "started" || kind == "run"

/-- The eligible rows with their absolute indices. -/
def eligible_actions (ct : List CronTRow) : List (Nat × CronTRow) :=
  (withIdx 0 ct).filter (fun p => eligible_kind p.2)

/-- The action-node weight (`app.py` 1210-1215): base, status bump, recency. -/
def action_weight_of (status : String) (eligLen absIdx : Nat) : ℚ :=
  let recency := max 0 (0.24 - ((eligLen : ℚ) - (absIdx : ℚ) - 1) * 0.012)
  clamp_weight (0.52
    + (if status = "ok" ∨ status = "success" ∨ status = "scheduled" then 0.18 else 0.32)
    + recency)

/-- The decision an action links to (`app.py` 1226-1233). -/
def linked_decision (dts : List (Nat × ℚ)) (action_ts : ℚ) (absIdx : Nat) : Option Nat :=
  if dts.isEmpty then none
  else
    let prior := dts.filter (fun it => it.2 ≤ action_ts ∧ it.2 > 0)
    match prior.getLast? with
    | some it => some it.1
    | none => some (min (dts.length - 1) absIdx)

/-- The per-action record the outcome/liveness passes consume. -/
abbrev ActionRec := NodeId × CronTRow × Nat × Option NodeId

/-- One iteration of the action loop (`app.py` 1205-1247). -/
def addAction (agentId : NodeId) (dts : List (Nat × ℚ)) (dns : List NodeId)
    (eligLen : Nat) (acc : GBState × List ActionRec) (p : Nat × CronTRow) :
    GBState × List ActionRec :=
  let absIdx := p.1
  let row := p.2
  let nid := NodeId.action absIdx
  let action_kind := row.kind.getD "event"
  let summary := pyOrStr row.summary (pyOrStr row.job action_kind)
  let status := pyLowerStr (pyStrip (row.status.getD "unknown"))
  let aw := action_weight_of status eligLen absIdx
  let st1 := add_node acc.1 nid summary "action" aw
  let action_ts := parse_any_ts (optTs row.ts)
  let ld := linked_decision dts action_ts absIdx
  match dns with
  | [] =>
    let st2 := add_edge st1 agentId nid "acts" aw
    (st2, acc.2 ++ [(nid, row, absIdx, none)])
  | _ =>
    let decision_index := match ld with
      | some i => i
      | none => min absIdx (dns.length - 1)
    let did := dns.getD decision_index (NodeId.decision 0)
    let dw := clamp_weight (node_weight st1 did 0.45)
    let st2 := add_edge st1 did nid "executes" (clamp_weight ((dw + aw) / 2))
    (st2, acc.2 ++ [(nid, row, absIdx, some did)])

/-- Action-node phase: the last 14 eligible rows. -/
def phase_actions (st : GBState) (agentId : NodeId) (dts : List (Nat × ℚ))
    (dns : List NodeId) (ct : List CronTRow) : GBState × List ActionRec :=
  let elig := eligible_actions ct
  (elig.drop (elig.length - 14)).foldl (addAction agentId dts dns elig.length) (st, [])

/-- The outcome status test (`status ∈ {ok, success, scheduled}`). -/
def outcome_ok_status (status : String) : Prop :=
  status = "ok" ∨ status = "success" ∨ status = "scheduled"

instance : DecidablePred outcome_ok_status := fun s =>
  inferInstanceAs (Decidable (s = "ok" ∨ s = "success" ∨ s = "scheduled"))

/-- One iteration of the outcome loop (`app.py` 1249-1271). -/
def addOutcome (acc : GBState) (ar : ActionRec) : GBState :=
  let nid := ar.1
  let row := ar.2.1
  let absIdx := ar.2.2.1
  let status := pyLowerStr (row.status.getD "unknown")
  let oid := NodeId.outcome absIdx
  let aw := clamp_weight (node_weight acc nid 0.45)
  let ok := outcome_ok_status status
  let ow := if ok then clamp_weight (aw * 0.92) else clamp_weight (aw * 1.06)
  let grp := if ok then "outcome_ok" else "outcome_bad"
  let label := "Outcome " ++ status ++ ": " ++ row.job.getD ""
  let st1 := add_node acc oid label grp ow
  add_edge st1 nid oid "produces" (clamp_weight ((aw + ow) / 2))

/-- Outcome phase: one outcome node per action node. -/
def phase_outcomes (st : GBState) (ans : List ActionRec) : GBState :=
  ans.foldl addOutcome st

/-- Flip the `live` flag of one node. -/
def set_live_in_nodes (nodes : List GNode) (id : NodeId) : List GNode :=
  nodes.map (fun n => if n.id == id then { n with live := true } else n)

/-- The live-window expiry time of `set_node_live` (`app.py` 1283-1286). -/
def set_live_expires (start_ts dur : ℚ) : ℚ :=
  let duration := max 0 dur
  let expires0 := min (start_ts + 5) (start_ts + duration + 5)
  if expires0 ≤ start_ts then start_ts + 0.25 else expires0

/-- `set_node_live` (`app.py` 1278-1297): only the `live` flag is modelled —
the Python version additionally stores window metadata, and never touches a
weight or group. -/
def set_node_live (st : GBState) (id : NodeId) (start_ts dur now : ℚ) :
    GBState × Bool :=
  if start_ts ≤ 0 then (st, false)
  else if now < start_ts ∨ now > set_live_expires start_ts dur then (st, false)
  else if st.nodes.any (fun n => n.id == id) then
    ({ st with nodes := set_live_in_nodes st.nodes id }, true)
  else (st, false)

/-- `set_node_live_window` (`app.py` 1299-1307). -/
def set_node_live_window (st : GBState) (id : NodeId)
    (start_ts end_ts min_dur now : ℚ) : GBState × Bool :=
  if start_ts ≤ 0 then (st, false)
  else if end_ts ≤ 0 then (st, false)
  else
    let eff := max end_ts (start_ts + min_dur)
    set_node_live st id start_ts (max 0 (eff - start_ts)) now

/-- Activation liveness pass (`app.py` 1309-1314). -/
def live_activations (st : GBState) (abi : List (NodeId × ℚ × String)) (now : ℚ) :
    GBState × List (NodeId × ℚ) :=
  abi.foldl (fun acc e =>
    if e.2.1 ≤ 0 then acc
    else if (set_node_live_window acc.1 e.1 e.2.1 (e.2.1 + 0.8) 0.6 now).2 then
      ((set_node_live_window acc.1 e.1 e.2.1 (e.2.1 + 0.8) 0.6 now).1,
       acc.2 ++ [(e.1, e.2.1)])
    else ((set_node_live_window acc.1 e.1 e.2.1 (e.2.1 + 0.8) 0.6 now).1, acc.2))
    (st, [])

/-- `decision_ts_by_idx.get(i, 0.0)`. -/
def dts_get (dts : List (Nat × ℚ)) (i : Nat) : ℚ :=
  ((dts.find? (fun p => p.1 == i)).map (fun p => p.2)).getD 0

/-- The end of a decision's live window (`app.py` 1325-1332). -/
def live_decision_end (dts : List (Nat × ℚ)) (lastSeenTs now : ℚ) (idx : Nat) : ℚ :=
  if 0 < idx then
    (if dts_get dts (idx - 1) > dts_get dts idx then dts_get dts (idx - 1)
     else dts_get dts idx + 1.2)
  else if lastSeenTs > 0 ∧ lastSeenTs ≥ dts_get dts idx then min lastSeenTs now
  else min now (dts_get dts idx + 1.8)

/-- Light up a live decision's reason/signal satellites (`app.py`
1336-1342). -/
def decision_satellites_live (st : GBState) (idx : Nat)
    (start_ts end_ts now : ℚ) : GBState :=
  (st.nodes.filterMap (fun n =>
    match n.id with
    | NodeId.reason i _ => if i = idx then some n.id else none
    | NodeId.signal i => if i = idx then some n.id else none
    | _ => none)).foldl (fun st nid =>
      (set_node_live_window st nid start_ts end_ts 0.8 now).1) st

/-- One iteration of the decision liveness pass (`app.py` 1320-1342),
including lighting up the decision's reason/signal satellites. -/
def live_decisions_step (dts : List (Nat × ℚ)) (lastSeenTs now : ℚ)
    (acc : GBState × List (NodeId × ℚ)) (p : Nat × NodeId) :
    GBState × List (NodeId × ℚ) :=
  if dts_get dts p.1 ≤ 0 then acc
  else if (set_node_live_window acc.1 p.2 (dts_get dts p.1)
      (live_decision_end dts lastSeenTs now p.1) 0.8 now).2 then
    (decision_satellites_live
      (set_node_live_window acc.1 p.2 (dts_get dts p.1)
        (live_decision_end dts lastSeenTs now p.1) 0.8 now).1
      p.1 (dts_get dts p.1) (live_decision_end dts lastSeenTs now p.1) now,
     acc.2 ++ [(p.2, dts_get dts p.1)])
  else
    ((set_node_live_window acc.1 p.2 (dts_get dts p.1)
        (live_decision_end dts lastSeenTs now p.1) 0.8 now).1,
     acc.2)

/-- Decision liveness pass. -/
def live_decisions (st : GBState) (dns : List NodeId) (dts : List (Nat × ℚ))
    (lastSeenTs now : ℚ) : GBState × List (NodeId × ℚ) :=
  (withIdx 0 dns).foldl (live_decisions_step dts lastSeenTs now) (st, [])

/-- The end of an action's live window (`app.py` 1353-1369). -/
def action_window_end (kind : String) (start_ts lastSeenTs now : ℚ)
    (duration_ms : Option ℚ) : ℚ :=
  match duration_ms with
  | some dms =>
    if dms > 0 then start_ts + dms / 1000
    else if kind = "started" ∨ kind = "run" then
      (if lastSeenTs > 0 ∧ lastSeenTs ≥ start_ts then min lastSeenTs now
       else min now (start_ts + 3))
    else if kind = "finished" then start_ts + 1.2
    else start_ts + 1
  | none =>
    if kind = "started" ∨ kind = "run" then
      (if lastSeenTs > 0 ∧ lastSeenTs ≥ start_ts then min lastSeenTs now
       else min now (start_ts + 3))
    else if kind = "finished" then start_ts + 1.2
    else start_ts + 1

/-- One iteration of the action liveness pass. -/
def live_action_step (lastSeenTs now : ℚ) (acc : GBState × List (NodeId × ℚ))
    (ar : ActionRec) : GBState × List (NodeId × ℚ) :=
  if parse_any_ts (optTs ar.2.1.ts) ≤ 0 then acc
  else if pyLowerStr (ar.2.1.kind.getD "") = "next_run" then acc
  else if (set_node_live_window acc.1 ar.1 (parse_any_ts (optTs ar.2.1.ts))
      (action_window_end (pyLowerStr (ar.2.1.kind.getD ""))
        (parse_any_ts (optTs ar.2.1.ts)) lastSeenTs now ar.2.1.duration_ms)
      1.0 now).2 then
    ((set_node_live_window acc.1 ar.1 (parse_any_ts (optTs ar.2.1.ts))
      (action_window_end (pyLowerStr (ar.2.1.kind.getD ""))
        (parse_any_ts (optTs ar.2.1.ts)) lastSeenTs now ar.2.1.duration_ms)
      1.0 now).1,
     acc.2 ++ [(ar.1, parse_any_ts (optTs ar.2.1.ts))])
  else
    ((set_node_live_window acc.1 ar.1 (parse_any_ts (optTs ar.2.1.ts))
      (action_window_end (pyLowerStr (ar.2.1.kind.getD ""))
        (parse_any_ts (optTs ar.2.1.ts)) lastSeenTs now ar.2.1.duration_ms)
      1.0 now).1,
     acc.2)

/-- Action liveness pass (`app.py` 1344-1372). -/
def live_actions (st : GBState) (ans : List ActionRec) (lastSeenTs now : ℚ) :
    GBState × List (NodeId × ℚ) :=
  ans.foldl (live_action_step lastSeenTs now) (st, [])

/-- The end of an outcome's live window (`app.py` 1383-1389). -/
def outcome_window_end (start_ts : ℚ) (duration_ms : Option ℚ) : ℚ :=
  match duration_ms with
  | some dms => if dms > 0 then start_ts + dms / 1000 else start_ts + 1.2
  | none => start_ts + 1.2

/-- Outcome liveness pass (`app.py` 1374-1390). -/
def live_outcomes_step (now : ℚ) (st : GBState) (ar : ActionRec) : GBState :=
  if parse_any_ts (optTs ar.2.1.ts) ≤ 0 then st
  else if pyLowerStr (ar.2.1.kind.getD "") = "next_run" then st
  else
    (set_node_live_window st (NodeId.outcome ar.2.2.1)
      (parse_any_ts (optTs ar.2.1.ts))
      (outcome_window_end (parse_any_ts (optTs ar.2.1.ts)) ar.2.1.duration_ms)
      0.9 now).1

/-- Python `max(l, key=lambda item: item[1])`: the first maximal element. -/
def max_by_ts (l : List (NodeId × ℚ)) : Option (NodeId × ℚ) :=
  l.foldl (fun acc x =>
    match acc with
    | none => some x
    | some a => if x.2 > a.2 then some x else some a) none

/-- Mark the unique trigger-source node. -/
def mark_trigger (st : GBState) (id : NodeId) : GBState :=
  { st with nodes := st.nodes.map (fun n =>
      if n.id == id then { n with trigger_source := true } else n) }

/-- Edge liveness (`app.py` 1410-1418): an edge is live when both endpoints
are live, or the source is the trigger and the target is live. -/
def finalize_edges (st : GBState) : GBState :=
  let liveIds := (st.nodes.filter (fun n => n.live)).map (fun n => n.id)
  { st with edges := st.edges.map (fun e =>
      let source_live := liveIds.contains e.source
      let target_live := liveIds.contains e.target
      let source_trigger := match st.nodes.find? (fun n => n.id == e.source) with
        | some n => n.trigger_source
        | none => false
      { e with live := (source_live && target_live) || (source_trigger && target_live) }) }

/-- The effective activation cap (`app.py` 1040-1043 plus the module-level
clamp of `GRAPH_MAX_ACTIVATIONS` at lines 59-68): a caller-supplied integer is
clamped into `[1, 24]`, otherwise the already-clamped module default is
used. -/
def effective_cap (gma : Nat) (max_activations : Option Int) : Nat :=
  match max_activations with
  | some m => (max 1 (min m 24)).toNat
  | none => max 1 (min gma 24)

/-- The returned graph payload. -/
structure Graph where
  nodes : List GNode
  edges : List GEdge
  generated_at_ts : ℚ
  max_activations : Nat
  activations_shown : Nat
  outcomes_shown : Nat
  deriving Repr

/-- The agent node identifier (`app.py` 1014-1015). -/
def bcg_agentId (snapshot : Snapshot) : NodeId :=
  NodeId.agent (normalize_agent_name (some (snapshot.agent.getD "Agent")))

/-- State after the agent node (`app.py` 1016-1020). -/
def bcg_st1 (snapshot : Snapshot) : GBState :=
  add_node {} (bcg_agentId snapshot) (snapshot.agent.getD "Agent") "agent" 0.8

/-- State and root map after the root phase. -/
def bcg_roots (snapshot : Snapshot) (context_roots : List ContextRoot) :
    GBState × List (String × NodeId) :=
  phase_roots (bcg_st1 snapshot) (bcg_agentId snapshot) context_roots

/-- State and activation list after the activation phase. -/
def bcg_act (snapshot : Snapshot) (context_roots : List ContextRoot)
    (timeline : List TEntry) (gma : Nat) (ma : Option Int) :
    GBState × List (NodeId × ℚ × String) :=
  phase_activations (bcg_roots snapshot context_roots).1 (bcg_agentId snapshot)
    (chosen_activations timeline (effective_cap gma ma))

/-- State and decision-node list after the decision phase. -/
def bcg_dec (snapshot : Snapshot) (decisions : List Decision)
    (context_roots : List ContextRoot) (timeline : List TEntry)
    (gma : Nat) (ma : Option Int) : GBState × List NodeId :=
  phase_decisions (bcg_act snapshot context_roots timeline gma ma).1
    (bcg_agentId snapshot) (bcg_act snapshot context_roots timeline gma ma).2
    (bcg_roots snapshot context_roots).2 decisions

/-- State and action records after the action phase. -/
def bcg_action (snapshot : Snapshot) (decisions : List Decision)
    (cron_timeline : List CronTRow) (context_roots : List ContextRoot)
    (timeline : List TEntry) (gma : Nat) (ma : Option Int) :
    GBState × List ActionRec :=
  phase_actions (bcg_dec snapshot decisions context_roots timeline gma ma).1
    (bcg_agentId snapshot) (decision_times decisions)
    (bcg_dec snapshot decisions context_roots timeline gma ma).2 cron_timeline

/-- State after the outcome phase. -/
def bcg_out (snapshot : Snapshot) (decisions : List Decision)
    (cron_timeline : List CronTRow) (context_roots : List ContextRoot)
    (timeline : List TEntry) (gma : Nat) (ma : Option Int) : GBState :=
  phase_outcomes
    (bcg_action snapshot decisions cron_timeline context_roots timeline gma ma).1
    (bcg_action snapshot decisions cron_timeline context_roots timeline gma ma).2

/-- State and live lists after the whole liveness pass (activations,
decisions, actions, outcomes), `app.py` 1309-1390. -/
def bcg_live (now : ℚ) (gma : Nat) (snapshot : Snapshot)
    (decisions : List Decision) (cron_timeline : List CronTRow)
    (context_roots : List ContextRoot) (timeline : List TEntry)
    (ma : Option Int) :
    GBState × List (NodeId × ℚ) × List (NodeId × ℚ) × List (NodeId × ℚ) :=
  let lastSeenTs := parse_any_ts (optTs snapshot.last_seen)
  let la := live_activations
    (bcg_out snapshot decisions cron_timeline context_roots timeline gma ma)
    (bcg_act snapshot context_roots timeline gma ma).2 now
  let ldec := live_decisions la.1
    (bcg_dec snapshot decisions context_roots timeline gma ma).2
    (decision_times decisions) lastSeenTs now
  let lact := live_actions ldec.1
    (bcg_action snapshot decisions cron_timeline context_roots timeline gma ma).2
    lastSeenTs now
  let st10 :=
    (bcg_action snapshot decisions cron_timeline context_roots timeline gma ma).2.foldl
      (live_outcomes_step now) lact.1
  (st10, la.2, ldec.2, lact.2)

/-- The agent-node fallback of the trigger selection (`app.py`
1401-1405). -/
def bcg_trig_fallback (now : ℚ) (snapshot : Snapshot) (st : GBState) :
    GBState × Option NodeId :=
  if parse_any_ts (optTs snapshot.last_seen) > 0 ∧
      now - parse_any_ts (optTs snapshot.last_seen) ≤ 5 then
    ((set_node_live st (bcg_agentId snapshot)
        (parse_any_ts (optTs snapshot.last_seen)) 0.8 now).1,
     if (set_node_live st (bcg_agentId snapshot)
        (parse_any_ts (optTs snapshot.last_seen)) 0.8 now).2 then
       some (bcg_agentId snapshot)
     else none)
  else (st, none)

/-- Trigger selection over the live lists (`app.py` 1392-1408). -/
def trig_select (now : ℚ) (snapshot : Snapshot)
    (l : GBState × List (NodeId × ℚ) × List (NodeId × ℚ) × List (NodeId × ℚ)) :
    GBState × Option NodeId :=
  match max_by_ts l.2.2.2 with
  | some a => (l.1, some a.1)
  | none =>
    match max_by_ts l.2.2.1 with
    | some a => (l.1, some a.1)
    | none =>
      match max_by_ts l.2.1 with
      | some a => (l.1, some a.1)
      | none => bcg_trig_fallback now snapshot l.1

/-- State and trigger after trigger selection. -/
def bcg_trig (now : ℚ) (gma : Nat) (snapshot : Snapshot)
    (decisions : List Decision) (cron_timeline : List CronTRow)
    (context_roots : List ContextRoot) (timeline : List TEntry)
    (ma : Option Int) : GBState × Option NodeId :=
  trig_select now snapshot
    (bcg_live now gma snapshot decisions cron_timeline context_roots timeline ma)

/-- The final builder state, after trigger marking and edge liveness. -/
def bcg_final (now : ℚ) (gma : Nat) (snapshot : Snapshot)
    (decisions : List Decision) (cron_timeline : List CronTRow)
    (context_roots : List ContextRoot) (timeline : List TEntry)
    (ma : Option Int) : GBState :=
  finalize_edges
    (match (bcg_trig now gma snapshot decisions cron_timeline context_roots
        timeline ma).2 with
     | some t =>
       mark_trigger (bcg_trig now gma snapshot decisions cron_timeline
         context_roots timeline ma).1 t
     | none => (bcg_trig now gma snapshot decisions cron_timeline context_roots
         timeline ma).1)

/-- `build_causal_graph` (`app.py` 966-1429), assembled from the named stages
above.  `now` is `time.time()` at the call; `gma` is the module-level
`GRAPH_MAX_ACTIVATIONS` before its load-time `max(1, min(_, 24))` clamp,
which `effective_cap` applies. -/
def build_causal_graph (now : ℚ) (gma : Nat) (snapshot : Snapshot)
    (decisions : List Decision) (cron_timeline : List CronTRow)
    (context_roots : List ContextRoot) (timeline : List TEntry)
    (max_activations : Option Int) : Graph :=
  let stF := bcg_final now gma snapshot decisions cron_timeline context_roots
    timeline max_activations
  { nodes := stF.nodes, edges := stF.edges, generated_at_ts := now,
    max_activations := effective_cap gma max_activations,
    activations_shown :=
      (bcg_act snapshot context_roots timeline gma max_activations).2.length,
    outcomes_shown :=
      (bcg_action snapshot decisions cron_timeline context_roots timeline gma
        max_activations).2.length }

/-! ### Verification scaffolding: invariants and concrete instances -/

/-- The weight-range invariant of a graph-builder state: every admitted node
and edge weight lies in `[0.1, 1.9]`. -/
def GBWF (st : GBState) : Prop :=
  (∀ n ∈ st.nodes, (0.1 : ℚ) ≤ n.weight ∧ n.weight ≤ 1.9) ∧
  (∀ e ∈ st.edges, (0.1 : ℚ) ≤ e.weight ∧ e.weight ≤ 1.9)

/-- Node identifiers are unique within a builder state. -/
def GBNodupIds (st : GBState) : Prop := (st.nodes.map GNode.id).Nodup

/-- The well-formedness invariant of the interaction dedup cache: the FIFO is
duplicate-free, the seen-set is exactly its contents, and it respects the
deque capacity. -/
def CacheInv (c : DedupCache) : Prop :=
  c.order.Nodup ∧ c.seen.Nodup ∧ (∀ x ∈ c.seen, x ∈ c.order) ∧
    (∀ x ∈ c.order, x ∈ c.seen) ∧ c.order.length ≤ 4000

instance : DecidablePred CacheInv := fun c => by
  unfold CacheInv; infer_instance

/-- Concrete accepted event with no `ts`/`time` field (for C3). -/
def c3Event : RawEvent := { agent := some "mercurio", status := some "Active" }

/-- Concrete stored snapshot carrying a status and a task (for C2). -/
def c2Prev : Snapshot := { agent := some "europa", status := some "Active", task := some "Deploy" }

/-- Concrete accepted event that omits `status` and `task` (for C2). -/
def c2Event : RawEvent := { agent := some "europa" }

/-- Concrete accepted event carrying a `cron_jobs` value (for the C2
witness). -/
def c2EventB : RawEvent := { agent := some "europa", cron_jobs := some 7 }

/-- Concrete one-entry timeline (for the C5 witness). -/
def c5Timeline : List TEntry :=
  [{ ts := .str "100", source := "session", type := "message", text := "deploy gateway" }]

/-- Concrete context root lexically overlapping the entry (for the C5
witness). -/
def c5Roots : List ContextRoot :=
  [{ file := "soul.md", anchors := ["deploy gateway now"] }]

/-- The decision the inferencer produces from `c5Timeline`/`c5Roots`. -/
def c5Dec : Decision :=
  { ts := .str "100", agent := "Europa", decision := "deploy gateway",
    why := ["Continuous operational context", constraintsReason],
    evidence := [], confidence := "medium", source := "session", type := "message",
    root_causes := [{ file := "soul.md", anchors := ["deploy gateway now"] }] }

/-- The raw `(source, type, text)` triple of a timeline entry. -/
def rawTimelineKey (e : TEntry) : String × String × String := (e.source, e.type, e.text)

instance : IsTotal TEntry tsGE :=
  ⟨fun a b => le_total (parse_any_ts b.ts) (parse_any_ts a.ts)⟩

instance : IsTrans TEntry tsGE :=
  ⟨fun _ _ _ h1 h2 => le_trans h2 h1⟩

/-- The agent node of the minimal concrete graph (for the C1 witness). -/
def c1Node : GNode :=
  { id := .agent "x", label := "x", group := "agent", weight := 0.8 }

/-- Concrete snapshot whose history mixes an unresolvable timestamp with a
pre-epoch ISO timestamp (for C6). -/
def c6Snap : Snapshot :=
  { agent := some "x",
    message_history := some [{ ts := "", text := "alpha" },
                             { ts := "1950-01-01T00:00:00Z", text := "beta" }] }

/-- The node the activation loop admits for the rank-`p.1` candidate `p.2`
(for C4). -/
def mkActNode (p : Nat × ActCand) : GNode :=
  { id := NodeId.activation p.1,
    label := clip_text (activation_label p.2.kind p.2.text) 120,
    group := "activation",
    weight := clamp_weight (activation_weight_at p.1) }

/-- The weights of the activation-group nodes of a builder state, in node
order (for C4). -/
def actWeights (st : GBState) : List ℚ :=
  (st.nodes.filter (fun n => n.group == "activation")).map (fun n => n.weight)

/-- Concrete one-entry timeline whose single classifiable row becomes the
rank-0 activation (for the C4 counterexample). -/
def c4Timeline : List TEntry :=
  [{ ts := .str "100", source := "interaction", type := "message", text := "ping" }]

/-- The action record the action loop appends for the indexed row `p` — a
pure function of the row, the decision times and the decision nodes (for
C7). -/
def actionRec (dts : List (Nat × ℚ)) (dns : List NodeId) (p : Nat × CronTRow) :
    ActionRec :=
  match dns with
  | [] => (NodeId.action p.1, p.2, p.1, none)
  | _ =>
    (NodeId.action p.1, p.2, p.1,
     some (dns.getD
       (match linked_decision dts (parse_any_ts (optTs p.2.ts)) p.1 with
        | some i => i
        | none => min p.1 (dns.length - 1)) (NodeId.decision 0)))

/-- The node the action loop admits for the indexed eligible row `p` (for
C7). -/
def mkActionNode (eligLen : Nat) (p : Nat × CronTRow) : GNode :=
  { id := NodeId.action p.1,
    label := clip_text (pyOrStr p.2.summary (pyOrStr p.2.job (p.2.kind.getD "event"))) 120,
    group := "action",
    weight := clamp_weight (action_weight_of
      (pyLowerStr (pyStrip (p.2.status.getD "unknown"))) eligLen p.1) }

/-- The node the outcome loop admits for the action record `ar`, reading the
action weight off the state `st` (for C7). -/
def outNodeOf (st : GBState) (ar : ActionRec) : GNode :=
  { id := NodeId.outcome ar.2.2.1,
    label := clip_text ("Outcome " ++ pyLowerStr (ar.2.1.status.getD "unknown")
      ++ ": " ++ ar.2.1.job.getD "") 120,
    group := if outcome_ok_status (pyLowerStr (ar.2.1.status.getD "unknown"))
      then "outcome_ok" else "outcome_bad",
    weight := clamp_weight (if outcome_ok_status (pyLowerStr (ar.2.1.status.getD "unknown"))
      then clamp_weight (clamp_weight (node_weight st ar.1 0.45) * 0.92)
      else clamp_weight (clamp_weight (node_weight st ar.1 0.45) * 1.06)) }

/-- State refinement along the liveness passes: every node of `st` survives
into `st'` with its identifier, group and weight intact (for C7). -/
def nodesPres (st st' : GBState) : Prop :=
  ∀ n ∈ st.nodes, ∃ m ∈ st'.nodes,
    m.id = n.id ∧ m.group = n.group ∧ m.weight = n.weight

/-- Concrete eligible cron row with no status (for the C7 witness). -/
def c7Row : CronTRow := { ts := some "100", kind := some "run", job := some "job-a" }

/-- A builder state holding no action and no outcome identifiers (the
pre-action-phase shape, for C7). -/
def GBNoAO (st : GBState) : Prop :=
  ∀ n ∈ st.nodes,
    (∀ k, n.id ≠ NodeId.action k) ∧ (∀ k, n.id ≠ NodeId.outcome k)

/-! ## Theorems

The rational operations of Batteries are `@[irreducible]`, which blocks
`decide`-based evaluation of the executable definitions at concrete inputs;
restore the ordinary reducibility of their (pure, computable) definitions. -/

set_option allowUnsafeReducibility true in
attribute [semireducible] Rat.mul Rat.add Rat.div Rat.sub Rat.inv Rat.ofScientific

/-- C9: `decode_json_stream` applied to the input string
`'{"a":1} garbage {"b":2}'` returns exactly two objects, `{"a": 1}` followed
by `{"b": 2}`, skipping the unparsable middle span. -/
theorem c9_decode_json_stream_concrete :
    decode_json_stream "\x7b\"a\":1\x7d garbage \x7b\"b\":2\x7d" =
      [JVal.jobj [("a", JVal.jnum 1)], JVal.jobj [("b", JVal.jnum 2)]] := rfl

/-- C10: `parse_any_ts` maps every non-positive numeric timestamp — whether
given as a number or as a full match of the numeric-string regex — to `0.0`,
exactly like unparsable input. -/
theorem c10_parse_any_ts_nonpositive :
    (∀ q : ℚ, q ≤ 0 → parse_any_ts (.num q) = 0) ∧
    (∀ s : String, matchesNumeric (pyStrip s) = true → decVal (pyStrip s) ≤ 0 →
      parse_any_ts (.str s) = 0) := by
  constructor
  · intro q hq
    simp [parse_any_ts, normalize_epoch, hq]
  · intro s hm hv
    simp only [parse_any_ts]
    by_cases he : pyStrip s = ""
    · simp [he]
    · simp [he, hm, normalize_epoch, hv]

/-- Witness for C10 at the concrete inputs `-5` and `"-12"`. -/
theorem c10_witness :
    ((-5 : ℚ) ≤ 0 ∧ parse_any_ts (.num (-5)) = 0) ∧
    (matchesNumeric (pyStrip "-12") = true ∧ decVal (pyStrip "-12") ≤ 0 ∧
      parse_any_ts (.str "-12") = 0) :=
  ⟨⟨by norm_num, c10_parse_any_ts_nonpositive.1 (-5) (by norm_num)⟩,
   ⟨by decide, by decide,
    c10_parse_any_ts_nonpositive.2 "-12" (by decide) (by decide)⟩⟩

/-- C3 counterexample: `normalize_event` is not a pure function of the
accepted event alone — the event `{agent: "mercurio", status: "Active"}` has
no `ts`/`time`, so `last_seen` picks up the wall-clock argument and two runs
at different times disagree. -/
theorem c3_counterexample :
    should_skip_event c3Event = false ∧
    normalize_event "2026-02-12T12:00:00Z" c3Event ≠
      normalize_event "2026-02-12T12:00:01Z" c3Event := by decide

/-- C3 amended: normalization is pure for every accepted event that carries a
truthy `ts` or `time` value (only `last_seen` ever reads the clock), and the
optional fields always pass through unchanged — in particular a field absent
from the input stays the explicit absent marker. -/
theorem c3_amended :
    (∀ (e : RawEvent) (now1 now2 : String), should_skip_event e = false →
      (truthyStr e.ts || truthyStr e.time) = true →
      normalize_event now1 e = normalize_event now2 e) ∧
    (∀ (e : RawEvent) (now : String),
      (normalize_event now e).cron_jobs = e.cron_jobs ∧
      (normalize_event now e).active_missions = e.active_missions ∧
      (normalize_event now e).cpu = e.cpu ∧
      (normalize_event now e).mem = e.mem ∧
      (normalize_event now e).recent_messages = e.recent_messages ∧
      (normalize_event now e).recent_thoughts = e.recent_thoughts ∧
      (normalize_event now e).current_thought = e.current_thought) := by
  constructor
  · intro e now1 now2 _hsk htr
    have hls : pyOrStr e.ts (pyOrStr e.time now1) = pyOrStr e.ts (pyOrStr e.time now2) := by
      rcases hts : e.ts with _ | s <;> rcases htt : e.time with _ | t <;>
        rw [hts, htt] at htr
      · simp [truthyStr] at htr
      · have ht : ¬(t = "") := by simpa [truthyStr] using htr
        simp [pyOrStr, ht]
      · have hs : ¬(s = "") := by simpa [truthyStr] using htr
        simp [pyOrStr, hs]
      · by_cases hs : s = ""
        · subst hs
          have ht : ¬(t = "") := by simpa [truthyStr] using htr
          simp [pyOrStr, ht]
        · simp [pyOrStr, hs]
    simp [normalize_event, hls]
  · intro e now
    exact ⟨rfl, rfl, rfl, rfl, rfl, rfl, rfl⟩

/-- Witness for C3 amended at a concrete event carrying a `ts`. -/
theorem c3_amended_witness :
    should_skip_event { agent := some "m", ts := some "2026-02-12T12:00:00Z" } = false ∧
    (truthyStr ({ agent := some "m", ts := some "2026-02-12T12:00:00Z" } : RawEvent).ts ||
      truthyStr ({ agent := some "m", ts := some "2026-02-12T12:00:00Z" } : RawEvent).time) = true ∧
    normalize_event "A" { agent := some "m", ts := some "2026-02-12T12:00:00Z" } =
      normalize_event "B" { agent := some "m", ts := some "2026-02-12T12:00:00Z" } :=
  ⟨by decide, by decide,
   c3_amended.1 { agent := some "m", ts := some "2026-02-12T12:00:00Z" } "A" "B"
     (by decide) (by decide)⟩

/-- C2 counterexample: an accepted event that omits `status` and `task` does
not preserve the stored values — the merge resets them to the normalizer's
defaults `'unknown'` and `''`. -/
theorem c2_counterexample :
    should_skip_event c2Event = false ∧
    c2Event.status = none ∧ c2Event.task = none ∧
    (merge_bus_event "2026-02-12T12:00:00Z" c2Prev c2Event).status ≠ c2Prev.status ∧
    (merge_bus_event "2026-02-12T12:00:00Z" c2Prev c2Event).task ≠ c2Prev.task := by
  decide

/-- C2 amended: every field present in the new event overwrites the stored
value; of the fields absent from the event, the optional `None`-marked fields
(`cron_jobs`, `active_missions`, `cpu`, `mem`, `recent_messages`,
`recent_thoughts`, `current_thought`) preserve the previously stored value,
while `status` and `task` are overwritten with the defaults `'unknown'` and
`''`. -/
theorem c2_amended (prev : Snapshot) (e : RawEvent) (now : String) :
    ((∀ v, e.cron_jobs = some v → (merge_bus_event now prev e).cron_jobs = some v) ∧
     (e.cron_jobs = none → ∀ v, prev.cron_jobs = some v →
        (merge_bus_event now prev e).cron_jobs = some v)) ∧
    ((∀ v, e.active_missions = some v → (merge_bus_event now prev e).active_missions = some v) ∧
     (e.active_missions = none → ∀ v, prev.active_missions = some v →
        (merge_bus_event now prev e).active_missions = some v)) ∧
    ((∀ v, e.cpu = some v → (merge_bus_event now prev e).cpu = some v) ∧
     (e.cpu = none → ∀ v, prev.cpu = some v → (merge_bus_event now prev e).cpu = some v)) ∧
    ((∀ v, e.mem = some v → (merge_bus_event now prev e).mem = some v) ∧
     (e.mem = none → ∀ v, prev.mem = some v → (merge_bus_event now prev e).mem = some v)) ∧
    ((∀ v, e.recent_messages = some v → (merge_bus_event now prev e).recent_messages = some v) ∧
     (e.recent_messages = none → ∀ v, prev.recent_messages = some v →
        (merge_bus_event now prev e).recent_messages = some v)) ∧
    ((∀ v, e.recent_thoughts = some v → (merge_bus_event now prev e).recent_thoughts = some v) ∧
     (e.recent_thoughts = none → ∀ v, prev.recent_thoughts = some v →
        (merge_bus_event now prev e).recent_thoughts = some v)) ∧
    ((∀ v, e.current_thought = some v → (merge_bus_event now prev e).current_thought = some v) ∧
     (e.current_thought = none → ∀ v, prev.current_thought = some v →
        (merge_bus_event now prev e).current_thought = some v)) ∧
    ((∀ s, e.status = some s → (merge_bus_event now prev e).status = some s) ∧
     (e.status = none → (merge_bus_event now prev e).status = some "unknown")) ∧
    ((∀ s, e.task = some s → (merge_bus_event now prev e).task = some s) ∧
     (e.task = none → (merge_bus_event now prev e).task = some "")) := by
  refine ⟨⟨?_, ?_⟩, ⟨?_, ?_⟩, ⟨?_, ?_⟩, ⟨?_, ?_⟩, ⟨?_, ?_⟩, ⟨?_, ?_⟩, ⟨?_, ?_⟩,
    ⟨?_, ?_⟩, ⟨?_, ?_⟩⟩ <;>
  · first
    | (intro v hv
       simp [merge_bus_event, normalize_event, hv])
    | (intro hv v hpv
       simp [merge_bus_event, normalize_event, hv, hpv])
    | (intro hv
       simp [merge_bus_event, normalize_event, hv])

/-- Witness for C2 amended: a present `cron_jobs` overwrites, an absent
`status` resets to `'unknown'`. -/
theorem c2_amended_witness :
    (c2EventB.cron_jobs = some 7 ∧
      (merge_bus_event "T" c2Prev c2EventB).cron_jobs = some 7) ∧
    (c2Event.status = none ∧
      (merge_bus_event "T" c2Prev c2Event).status = some "unknown") :=
  ⟨⟨rfl, (c2_amended c2Prev c2EventB "T").1.1 7 rfl⟩,
   ⟨rfl, (c2_amended c2Prev c2Event "T").2.2.2.2.2.2.2.1.2 rfl⟩⟩

/-- The result of `remember_interaction_key` on a fresh non-empty key: the
key is accepted, evicting the oldest entry exactly when the FIFO is at
capacity. -/
theorem remember_fresh (k : String) (c : DedupCache) (hk : ¬(k = ""))
    (hks : ¬(k ∈ c.seen)) :
    remember_interaction_key k c =
      (true,
       { order := (if 4000 ≤ c.order.length then c.order.tail else c.order) ++ [k],
         seen := k :: (if 4000 ≤ c.order.length then c.seen.erase c.order.headI
                       else c.seen) }) := by
  unfold remember_interaction_key
  rw [if_neg hk, if_neg hks]
  by_cases hlen : 4000 ≤ c.order.length
  · cases ho : c.order with
    | nil => rw [ho] at hlen; simp at hlen
    | cons o rest =>
      rw [ho] at hlen
      have hlen' : 3999 ≤ rest.length := by
        simp only [List.length_cons] at hlen
        omega
      simp [hlen']
  · simp [hlen]

/-- `remember_interaction_key` preserves the cache invariant. -/
theorem cacheInv_remember (k : String) (c : DedupCache) (h : CacheInv c) :
    CacheInv (remember_interaction_key k c).2 := by
  obtain ⟨h1, h2, h3, h4, h5⟩ := h
  by_cases hk : k = ""
  · unfold remember_interaction_key
    rw [if_pos hk]
    exact ⟨h1, h2, h3, h4, h5⟩
  by_cases hks : k ∈ c.seen
  · unfold remember_interaction_key
    rw [if_neg hk, if_pos hks]
    exact ⟨h1, h2, h3, h4, h5⟩
  rw [remember_fresh k c hk hks]
  have hko : k ∉ c.order := fun hmem => hks (h4 k hmem)
  by_cases hlen : 4000 ≤ c.order.length
  · obtain ⟨o, rest, ho⟩ : ∃ o rest, c.order = o :: rest := by
      cases hc : c.order with
      | nil => rw [hc] at hlen; simp at hlen
      | cons o rest => exact ⟨o, rest, rfl⟩
    · rw [if_pos hlen, if_pos hlen, ho, List.tail_cons, List.headI_cons]
      rw [ho] at h1 h3 h4 h5 hko
      obtain ⟨honr, hrest⟩ := List.nodup_cons.mp h1
      refine ⟨?_, ?_, ?_, ?_, ?_⟩
      · refine hrest.append (List.nodup_singleton k) ?_
        intro x hx1 hx2
        rw [List.mem_singleton] at hx2
        subst hx2
        exact hko (List.mem_cons_of_mem _ hx1)
      · refine List.nodup_cons.mpr ⟨?_, h2.erase o⟩
        intro hmm
        exact hks (List.mem_of_mem_erase hmm)
      · intro x hx
        rcases List.mem_cons.mp hx with rfl | hx
        · exact List.mem_append_right _ (List.mem_singleton_self _)
        · obtain ⟨hxno, hxs⟩ := h2.mem_erase_iff.mp hx
          rcases List.mem_cons.mp (h3 x hxs) with rfl | hxr
          · exact absurd rfl hxno
          · exact List.mem_append_left _ hxr
      · intro x hx
        rcases List.mem_append.mp hx with hxr | hxk
        · have hxs := h4 x (List.mem_cons_of_mem _ hxr)
          have hxno : x ≠ o := fun he => honr (he ▸ hxr)
          exact List.mem_cons_of_mem _ (h2.mem_erase_iff.mpr ⟨hxno, hxs⟩)
        · rw [List.mem_singleton] at hxk
          subst hxk
          exact List.mem_cons_self _ _
      · simp only [List.length_append, List.length_singleton]
        simp only [List.length_cons] at h5
        omega
  · rw [if_neg hlen, if_neg hlen]
    refine ⟨?_, List.nodup_cons.mpr ⟨hks, h2⟩, ?_, ?_, ?_⟩
    · refine h1.append (List.nodup_singleton k) ?_
      intro x hx1 hx2
      rw [List.mem_singleton] at hx2
      subst hx2
      exact hko hx1
    · intro x hx
      rcases List.mem_cons.mp hx with rfl | hx
      · exact List.mem_append_right _ (List.mem_singleton_self _)
      · exact List.mem_append_left _ (h3 x hx)
    · intro x hx
      rcases List.mem_append.mp hx with hx | hxk
      · exact List.mem_cons_of_mem _ (h4 x hx)
      · rw [List.mem_singleton] at hxk
        subst hxk
        exact List.mem_cons_self _ _
    · simp only [List.length_append, List.length_singleton]
      omega

/-- The cache invariant holds after any run of insertions from any valid
start state. -/
theorem cacheInv_foldl (keys : List String) (c : DedupCache) (h : CacheInv c) :
    CacheInv (keys.foldl (fun c k => (remember_interaction_key k c).2) c) := by
  induction keys generalizing c with
  | nil => exact h
  | cons k rest ih => exact ih _ (cacheInv_remember k c h)

/-- The cache invariant holds after any run of insertions from empty. -/
theorem cacheInv_runKeys (keys : List String) : CacheInv (runKeys keys) :=
  cacheInv_foldl keys {} (by decide)

/-- C8: the interaction dedup cache never accepts a key that is still within
the capacity window (a second call returns `False`), holds at most 4000 keys
after any insertion sequence, and evicts oldest-first: a fresh accepted key
lands at the back, dropping the front entry exactly when the FIFO is full. -/
theorem c8_interaction_dedup (keys : List String) (c : DedupCache) (k : String)
    (hc : CacheInv c) :
    (CacheInv (runKeys keys) ∧ (runKeys keys).order.length ≤ 4000) ∧
    (k ∈ c.order → (remember_interaction_key k c).1 = false) ∧
    (¬(k = "") → k ∉ c.order →
      (remember_interaction_key k c).2.order =
        (if 4000 ≤ c.order.length then c.order.tail else c.order) ++ [k]) := by
  refine ⟨⟨cacheInv_runKeys keys, (cacheInv_runKeys keys).2.2.2.2⟩, ?_, ?_⟩
  · intro hmem
    unfold remember_interaction_key
    by_cases hk : k = ""
    · rw [if_pos hk]
    · rw [if_neg hk, if_pos (hc.2.2.2.1 k hmem)]
  · intro hk hmem
    have hks : ¬(k ∈ c.seen) := fun hs => hmem (hc.2.2.1 k hs)
    rw [remember_fresh k c hk hks]

/-- `clamp_weight` always lands in `[0.1, 1.9]`. -/
theorem clamp_weight_mem (x : ℚ) :
    (0.1 : ℚ) ≤ clamp_weight x ∧ clamp_weight x ≤ 1.9 := by
  unfold clamp_weight
  split_ifs with h1 h2
  · norm_num
  · norm_num
  · push_neg at h1 h2
    exact ⟨h1, h2⟩

/-- `clamp_weight` is the identity on values already in range. -/
theorem clamp_weight_id (x : ℚ) (h1 : (0.1 : ℚ) ≤ x) (h2 : x ≤ 1.9) :
    clamp_weight x = x := by
  unfold clamp_weight
  rw [if_neg (by linarith), if_neg (by linarith)]

/-- A fold preserves any invariant its step preserves. -/
theorem foldl_preserves {β γ : Type*} {P : γ → Prop} {step : γ → β → γ}
    (hstep : ∀ s b, P s → P (step s b)) :
    ∀ (l : List β) (s : γ), P s → P (l.foldl step s) := by
  intro l
  induction l with
  | nil => intro s h; exact h
  | cons b bs ih => intro s h; exact ih _ (hstep s b h)

/-- `add_node` preserves the weight-range invariant. -/
theorem gbwf_add_node (st : GBState) (id : NodeId) (label group : String)
    (w : ℚ) (h : GBWF st) : GBWF (add_node st id label group w) := by
  unfold add_node
  split
  · exact h
  · refine ⟨?_, h.2⟩
    intro n hn
    rcases List.mem_append.mp hn with hn | hn
    · exact h.1 n hn
    · rw [List.mem_singleton] at hn
      subst hn
      exact clamp_weight_mem w

/-- `add_edge` preserves the weight-range invariant. -/
theorem gbwf_add_edge (st : GBState) (s t : NodeId) (label : String)
    (w : ℚ) (h : GBWF st) : GBWF (add_edge st s t label w) := by
  unfold add_edge
  refine ⟨h.1, ?_⟩
  intro e he
  rcases List.mem_append.mp he with he | he
  · exact h.2 e he
  · rw [List.mem_singleton] at he
    subst he
    exact clamp_weight_mem w

/-- Mapping the node list with a weight-preserving function keeps the
invariant. -/
theorem gbwf_map_nodes (st : GBState) (f : GNode → GNode)
    (hf : ∀ n, (f n).weight = n.weight) (h : GBWF st) :
    GBWF { st with nodes := st.nodes.map f } := by
  refine ⟨?_, h.2⟩
  intro n hn
  rw [List.mem_map] at hn
  obtain ⟨m, hm, rfl⟩ := hn
  rw [hf m]
  exact h.1 m hm

/-- Mapping the edge list with a weight-preserving function keeps the
invariant. -/
theorem gbwf_map_edges (st : GBState) (f : GEdge → GEdge)
    (hf : ∀ e, (f e).weight = e.weight) (h : GBWF st) :
    GBWF { st with edges := st.edges.map f } := by
  refine ⟨h.1, ?_⟩
  intro e he
  rw [List.mem_map] at he
  obtain ⟨m, hm, rfl⟩ := he
  rw [hf m]
  exact h.2 m hm

/-- `set_node_live` preserves the weight-range invariant. -/
theorem gbwf_set_node_live (st : GBState) (id : NodeId) (a b now : ℚ)
    (h : GBWF st) : GBWF (set_node_live st id a b now).1 := by
  have hmap : GBWF { st with nodes := set_live_in_nodes st.nodes id } := by
    unfold set_live_in_nodes
    exact gbwf_map_nodes st (fun n => if n.id == id then { n with live := true } else n)
      (fun n => by by_cases hn : (n.id == id) = true <;> simp [hn]) h
  unfold set_node_live
  split_ifs <;> first | exact h | exact hmap

/-- `set_node_live_window` preserves the weight-range invariant. -/
theorem gbwf_set_node_live_window (st : GBState) (id : NodeId)
    (a b c now : ℚ) (h : GBWF st) :
    GBWF (set_node_live_window st id a b c now).1 := by
  unfold set_node_live_window
  split_ifs <;> first | exact h | exact gbwf_set_node_live _ _ _ _ _ h

/-- `mark_trigger` preserves the weight-range invariant. -/
theorem gbwf_mark_trigger (st : GBState) (id : NodeId) (h : GBWF st) :
    GBWF (mark_trigger st id) :=
  gbwf_map_nodes st
    (fun n => if n.id == id then { n with trigger_source := true } else n)
    (fun n => by by_cases hn : (n.id == id) = true <;> simp [hn]) h

/-- `finalize_edges` preserves the weight-range invariant. -/
theorem gbwf_finalize_edges (st : GBState) (h : GBWF st) :
    GBWF (finalize_edges st) :=
  gbwf_map_edges st _ (fun _ => rfl) h

/-- The root phase preserves the weight-range invariant. -/
theorem gbwf_phase_roots (st : GBState) (agentId : NodeId)
    (roots : List ContextRoot) (h : GBWF st) :
    GBWF (phase_roots st agentId roots).1 := by
  unfold phase_roots
  exact foldl_preserves
    (P := fun p : GBState × List (String × NodeId) => GBWF p.1)
    (fun s b hs => gbwf_add_edge _ _ _ _ _ (gbwf_add_node _ _ _ _ _ hs))
    _ _ h

/-- The activation phase preserves the weight-range invariant. -/
theorem gbwf_phase_activations (st : GBState) (agentId : NodeId)
    (acts : List ActCand) (h : GBWF st) :
    GBWF (phase_activations st agentId acts).1 := by
  unfold phase_activations
  exact foldl_preserves
    (P := fun p : GBState × List (NodeId × ℚ × String) => GBWF p.1)
    (fun s b hs => gbwf_add_edge _ _ _ _ _ (gbwf_add_node _ _ _ _ _ hs))
    _ _ h

/-- The decision sub-passes preserve the weight-range invariant. -/
theorem gbwf_decision_initiates (abi : List (NodeId × ℚ × String))
    (nid : NodeId) (dts dw : ℚ) (st : GBState) (h : GBWF st) :
    GBWF (decision_initiates abi nid dts dw st) :=
  foldl_preserves (fun _s _b hs => gbwf_add_edge _ _ _ _ _ hs) _ st h

/-- The `evolves` pass preserves the weight-range invariant. -/
theorem gbwf_decision_evolves (dns : List NodeId) (nid : NodeId) (dw : ℚ)
    (st : GBState) (h : GBWF st) : GBWF (decision_evolves dns nid dw st) := by
  unfold decision_evolves
  cases dns.getLast?
  · exact h
  · exact gbwf_add_edge _ _ _ _ _ h

/-- The reason pass preserves the weight-range invariant. -/
theorem gbwf_decision_reasons (why_items : List String) (idx : Nat)
    (nid : NodeId) (dw : ℚ) (st : GBState) (h : GBWF st) :
    GBWF (decision_reasons why_items idx nid dw st) :=
  foldl_preserves
    (fun _s _b hs => gbwf_add_edge _ _ _ _ _ (gbwf_add_node _ _ _ _ _ hs)) _ st h

/-- The signal pass preserves the weight-range invariant. -/
theorem gbwf_decision_signal (evidence_items : List String) (idx : Nat)
    (nid : NodeId) (dw : ℚ) (st : GBState) (h : GBWF st) :
    GBWF (decision_signal evidence_items idx nid dw st) := by
  unfold decision_signal
  cases evidence_items
  · exact h
  · exact gbwf_add_edge _ _ _ _ _ (gbwf_add_node _ _ _ _ _ h)

/-- The constrains pass preserves the weight-range invariant. -/
theorem gbwf_decision_constrains (root_causes : List RootCause)
    (rootAssoc : List (String × NodeId)) (nid : NodeId) (dw : ℚ)
    (st : GBState) (h : GBWF st) :
    GBWF (decision_constrains root_causes rootAssoc nid dw st) := by
  refine foldl_preserves ?_ _ st h
  intro s rc hs
  cases lookup_root rootAssoc rc.file
  · exact hs
  · exact gbwf_add_edge _ _ _ _ _ hs

/-- One decision iteration preserves the weight-range invariant. -/
theorem gbwf_addDecision (agentId : NodeId) (abi : List (NodeId × ℚ × String))
    (rootAssoc : List (String × NodeId)) (acc : GBState × List NodeId)
    (p : Nat × Decision) (h : GBWF acc.1) :
    GBWF (addDecision agentId abi rootAssoc acc p).1 :=
  gbwf_decision_constrains _ _ _ _ _
    (gbwf_decision_signal _ _ _ _ _
      (gbwf_decision_reasons _ _ _ _ _
        (gbwf_decision_evolves _ _ _ _
          (gbwf_decision_initiates _ _ _ _ _
            (gbwf_add_edge _ _ _ _ _ (gbwf_add_node _ _ _ _ _ h))))))

/-- The decision phase preserves the weight-range invariant. -/
theorem gbwf_phase_decisions (st : GBState) (agentId : NodeId)
    (abi : List (NodeId × ℚ × String)) (rootAssoc : List (String × NodeId))
    (decisions : List Decision) (h : GBWF st) :
    GBWF (phase_decisions st agentId abi rootAssoc decisions).1 := by
  unfold phase_decisions
  exact foldl_preserves
    (P := fun p : GBState × List NodeId => GBWF p.1)
    (fun s b hs => gbwf_addDecision agentId abi rootAssoc s b hs) _ _ h

/-- One action iteration preserves the weight-range invariant. -/
theorem gbwf_addAction (agentId : NodeId) (dts : List (Nat × ℚ))
    (dns : List NodeId) (eligLen : Nat) (acc : GBState × List ActionRec)
    (p : Nat × CronTRow) (h : GBWF acc.1) :
    GBWF (addAction agentId dts dns eligLen acc p).1 := by
  unfold addAction
  cases dns with
  | nil => exact gbwf_add_edge _ _ _ _ _ (gbwf_add_node _ _ _ _ _ h)
  | cons d ds => exact gbwf_add_edge _ _ _ _ _ (gbwf_add_node _ _ _ _ _ h)

/-- The action phase preserves the weight-range invariant. -/
theorem gbwf_phase_actions (st : GBState) (agentId : NodeId)
    (dts : List (Nat × ℚ)) (dns : List NodeId) (ct : List CronTRow)
    (h : GBWF st) : GBWF (phase_actions st agentId dts dns ct).1 := by
  unfold phase_actions
  exact foldl_preserves
    (P := fun p : GBState × List ActionRec => GBWF p.1)
    (fun s b hs => gbwf_addAction agentId dts dns _ s b hs) _ _ h

/-- One outcome iteration preserves the weight-range invariant. -/
theorem gbwf_addOutcome (acc : GBState) (ar : ActionRec) (h : GBWF acc) :
    GBWF (addOutcome acc ar) := by
  unfold addOutcome
  exact gbwf_add_edge _ _ _ _ _ (gbwf_add_node _ _ _ _ _ h)

/-- The outcome phase preserves the weight-range invariant. -/
theorem gbwf_phase_outcomes (st : GBState) (ans : List ActionRec)
    (h : GBWF st) : GBWF (phase_outcomes st ans) :=
  foldl_preserves gbwf_addOutcome ans st h

/-- The activation liveness pass preserves the weight-range invariant. -/
theorem gbwf_live_activations (st : GBState)
    (abi : List (NodeId × ℚ × String)) (now : ℚ) (h : GBWF st) :
    GBWF (live_activations st abi now).1 := by
  unfold live_activations
  refine foldl_preserves
    (P := fun p : GBState × List (NodeId × ℚ) => GBWF p.1) ?_ _ _ h
  intro s b hs
  split_ifs
  · exact hs
  · exact gbwf_set_node_live_window _ _ _ _ _ _ hs
  · exact gbwf_set_node_live_window _ _ _ _ _ _ hs

/-- The satellite pass preserves the weight-range invariant. -/
theorem gbwf_decision_satellites_live (st : GBState) (idx : Nat)
    (a b now : ℚ) (h : GBWF st) :
    GBWF (decision_satellites_live st idx a b now) := by
  unfold decision_satellites_live
  refine foldl_preserves ?_ _ _ h
  intro s nid hs
  exact gbwf_set_node_live_window _ _ _ _ _ _ hs

/-- One decision liveness step preserves the weight-range invariant. -/
theorem gbwf_live_decisions_step (dts : List (Nat × ℚ)) (lastSeenTs now : ℚ)
    (acc : GBState × List (NodeId × ℚ)) (p : Nat × NodeId) (h : GBWF acc.1) :
    GBWF (live_decisions_step dts lastSeenTs now acc p).1 := by
  unfold live_decisions_step
  split_ifs
  · exact h
  · exact gbwf_decision_satellites_live _ _ _ _ _
      (gbwf_set_node_live_window _ _ _ _ _ _ h)
  · exact gbwf_set_node_live_window _ _ _ _ _ _ h

/-- The decision liveness pass preserves the weight-range invariant. -/
theorem gbwf_live_decisions (st : GBState) (dns : List NodeId)
    (dts : List (Nat × ℚ)) (lastSeenTs now : ℚ) (h : GBWF st) :
    GBWF (live_decisions st dns dts lastSeenTs now).1 := by
  unfold live_decisions
  exact foldl_preserves
    (P := fun p : GBState × List (NodeId × ℚ) => GBWF p.1)
    (fun s b hs => gbwf_live_decisions_step dts lastSeenTs now s b hs) _ _ h

/-- The action liveness pass preserves the weight-range invariant. -/
theorem gbwf_live_actions (st : GBState) (ans : List ActionRec)
    (lastSeenTs now : ℚ) (h : GBWF st) :
    GBWF (live_actions st ans lastSeenTs now).1 := by
  unfold live_actions
  refine foldl_preserves
    (P := fun p : GBState × List (NodeId × ℚ) => GBWF p.1) ?_ _ _ h
  intro s b hs
  unfold live_action_step
  split_ifs
  · exact hs
  · exact hs
  · exact gbwf_set_node_live_window _ _ _ _ _ _ hs
  · exact gbwf_set_node_live_window _ _ _ _ _ _ hs

/-- The outcome liveness step preserves the weight-range invariant. -/
theorem gbwf_live_outcomes_step (now : ℚ) (st : GBState) (ar : ActionRec)
    (h : GBWF st) : GBWF (live_outcomes_step now st ar) := by
  unfold live_outcomes_step
  split_ifs
  · exact h
  · exact h
  · exact gbwf_set_node_live_window _ _ _ _ _ _ h

/-- The assembled liveness state satisfies the weight-range invariant. -/
theorem gbwf_bcg_live (now : ℚ) (gma : Nat) (snapshot : Snapshot)
    (decisions : List Decision) (ct : List CronTRow)
    (roots : List ContextRoot) (timeline : List TEntry) (ma : Option Int) :
    GBWF (bcg_live now gma snapshot decisions ct roots timeline ma).1 := by
  have h0 : GBWF ({} : GBState) := ⟨by simp, by simp⟩
  have h1 : GBWF (bcg_st1 snapshot) := gbwf_add_node _ _ _ _ _ h0
  have h2 : GBWF (bcg_roots snapshot roots).1 := gbwf_phase_roots _ _ _ h1
  have h3 : GBWF (bcg_act snapshot roots timeline gma ma).1 :=
    gbwf_phase_activations _ _ _ h2
  have h4 : GBWF (bcg_dec snapshot decisions roots timeline gma ma).1 :=
    gbwf_phase_decisions _ _ _ _ _ h3
  have h5 : GBWF (bcg_action snapshot decisions ct roots timeline gma ma).1 :=
    gbwf_phase_actions _ _ _ _ _ h4
  have h6 : GBWF (bcg_out snapshot decisions ct roots timeline gma ma) :=
    gbwf_phase_outcomes _ _ h5
  unfold bcg_live
  exact foldl_preserves (fun s b hs => gbwf_live_outcomes_step now s b hs) _ _
    (gbwf_live_actions _ _ _ _ (gbwf_live_decisions _ _ _ _ _
      (gbwf_live_activations _ _ _ h6)))

/-- The final builder state satisfies the weight-range invariant. -/
theorem gbwf_bcg_final (now : ℚ) (gma : Nat) (snapshot : Snapshot)
    (decisions : List Decision) (ct : List CronTRow)
    (roots : List ContextRoot) (timeline : List TEntry) (ma : Option Int) :
    GBWF (bcg_final now gma snapshot decisions ct roots timeline ma) := by
  have hl := gbwf_bcg_live now gma snapshot decisions ct roots timeline ma
  have hts : ∀ (l : GBState × List (NodeId × ℚ) × List (NodeId × ℚ) ×
      List (NodeId × ℚ)), GBWF l.1 → GBWF (trig_select now snapshot l).1 := by
    intro l hwl
    unfold trig_select
    cases max_by_ts l.2.2.2
    case some a => exact hwl
    case none =>
      cases max_by_ts l.2.2.1
      case some a => exact hwl
      case none =>
        cases max_by_ts l.2.1
        case some a => exact hwl
        case none =>
          unfold bcg_trig_fallback
          split_ifs
          · exact gbwf_set_node_live _ _ _ _ _ hwl
          · exact gbwf_set_node_live _ _ _ _ _ hwl
          · exact hwl
  have htr : GBWF (bcg_trig now gma snapshot decisions ct roots timeline ma).1 :=
    hts _ hl
  unfold bcg_final
  cases (bcg_trig now gma snapshot decisions ct roots timeline ma).2
  case some t => exact gbwf_finalize_edges _ (gbwf_mark_trigger _ _ htr)
  case none => exact gbwf_finalize_edges _ htr

/-- C1: for every input to the causal graph builder, every node and every
edge of the returned graph carries a weight in `[0.1, 1.9]` — including
degenerate and empty decision or action lists. -/
theorem c1_graph_weights (now : ℚ) (gma : Nat) (snapshot : Snapshot)
    (decisions : List Decision) (ct : List CronTRow)
    (roots : List ContextRoot) (timeline : List TEntry) (ma : Option Int) :
    (∀ n ∈ (build_causal_graph now gma snapshot decisions ct roots timeline ma).nodes,
      (0.1 : ℚ) ≤ n.weight ∧ n.weight ≤ 1.9) ∧
    (∀ e ∈ (build_causal_graph now gma snapshot decisions ct roots timeline ma).edges,
      (0.1 : ℚ) ≤ e.weight ∧ e.weight ≤ 1.9) :=
  gbwf_bcg_final now gma snapshot decisions ct roots timeline ma

/-- Witness for C1 at a minimal concrete graph. -/
theorem c1_witness :
    c1Node ∈ (build_causal_graph 0 5 { agent := some "x" } [] [] [] [] none).nodes ∧
    ((0.1 : ℚ) ≤ c1Node.weight ∧ c1Node.weight ≤ 1.9) :=
  ⟨by decide,
   (c1_graph_weights 0 5 { agent := some "x" } [] [] [] [] none).1 c1Node (by decide)⟩

/-- Stability of one ordered insertion, by resolved-timestamp class: the
entries resolving to any fixed `c` keep their relative order, with the new
entry after the existing ones of its class. -/
theorem filter_orderedInsert_tsGE (c : ℚ) (a : TEntry) :
    ∀ l : List TEntry,
      (List.orderedInsert tsGE a l).filter (fun e => parse_any_ts e.ts == c) =
        (if parse_any_ts a.ts = c
         then a :: l.filter (fun e => parse_any_ts e.ts == c)
         else l.filter (fun e => parse_any_ts e.ts == c))
  | [] => by
    by_cases hc : parse_any_ts a.ts = c <;>
      simp [List.orderedInsert, List.filter_cons, beq_iff_eq, hc]
  | b :: bs => by
    by_cases hab : tsGE a b
    · rw [List.orderedInsert_of_le tsGE bs hab]
      by_cases hac : parse_any_ts a.ts = c <;>
        by_cases hbc : parse_any_ts b.ts = c <;>
          simp [List.filter_cons, beq_iff_eq, hac, hbc]
    · have hoi : List.orderedInsert tsGE a (b :: bs) =
          b :: List.orderedInsert tsGE a bs := by
        simp [List.orderedInsert, hab]
      rw [hoi, List.filter_cons]
      by_cases hbc : parse_any_ts b.ts = c
      · by_cases hac : parse_any_ts a.ts = c
        · exact absurd (show tsGE a b from by unfold tsGE; rw [hbc, hac]) hab
        · simp [beq_iff_eq, hbc, hac, filter_orderedInsert_tsGE c a bs,
            List.filter_cons]
      · by_cases hac : parse_any_ts a.ts = c <;>
          simp [beq_iff_eq, hbc, hac, filter_orderedInsert_tsGE c a bs,
            List.filter_cons]

/-- Stability of the timeline sort: each resolved-timestamp class of the
sorted list equals that class of the input, in order. -/
theorem filter_insertionSort_tsGE (c : ℚ) :
    ∀ l : List TEntry,
      (List.insertionSort tsGE l).filter (fun e => parse_any_ts e.ts == c) =
        l.filter (fun e => parse_any_ts e.ts == c)
  | [] => rfl
  | b :: bs => by
    rw [List.insertionSort, filter_orderedInsert_tsGE c b (List.insertionSort tsGE bs),
      filter_insertionSort_tsGE c bs, List.filter_cons]
    by_cases hc : parse_any_ts b.ts = c <;> simp [hc, beq_iff_eq]

/-- The dedup pass keeps pairwise-distinct normalized keys, none of them in
the seen set it started from. -/
theorem dedupGo_keys (l : List TEntry) :
    ∀ seen, ((dedupGo seen l).map timelineKey).Nodup ∧
      ∀ k ∈ (dedupGo seen l).map timelineKey, k ∉ seen := by
  induction l with
  | nil =>
    intro seen
    exact ⟨by simp [dedupGo], by simp [dedupGo]⟩
  | cons e rest ih =>
    intro seen
    by_cases hk : timelineKey e ∈ seen
    · rw [show dedupGo seen (e :: rest) = dedupGo seen rest from by
        simp [dedupGo, hk]]
      exact ih seen
    · rw [show dedupGo seen (e :: rest) = e :: dedupGo (timelineKey e :: seen) rest from by
        simp [dedupGo, hk]]
      obtain ⟨ih1, ih2⟩ := ih (timelineKey e :: seen)
      refine ⟨?_, ?_⟩
      · rw [List.map_cons]
        refine List.nodup_cons.mpr ⟨?_, ih1⟩
        intro hmem
        exact (ih2 _ hmem) (List.mem_cons_self ..)
      · intro k hkm
        rw [List.map_cons] at hkm
        rcases List.mem_cons.mp hkm with rfl | hkm'
        · exact hk
        · exact fun hs => (ih2 k hkm') (List.mem_cons_of_mem _ hs)

/-- C6 amended: the unified timeline has no two entries with an equal
`(source, type, text)` triple and is sorted by resolved timestamp descending;
the sort is stable on every resolved-timestamp class (in particular the
zero-resolved entries keep their pre-sort relative order).  Entries resolving
to a negative time — pre-epoch ISO timestamps — sort after the zero-resolved
ones, which is why "zero-resolved last" does not hold in general. -/
theorem c6_amended (fmt : ℚ → String) (ua : List InterRow) (snap : Snapshot) :
    ((build_agent_timeline fmt ua snap).map rawTimelineKey).Nodup ∧
    List.Sorted tsGE (build_agent_timeline fmt ua snap) ∧
    ∀ c : ℚ,
      (build_agent_timeline fmt ua snap).filter (fun e => parse_any_ts e.ts == c) =
        (dedup_timeline (collect_timeline fmt ua snap)).filter
          (fun e => parse_any_ts e.ts == c) := by
  refine ⟨?_, List.sorted_insertionSort tsGE _, fun c => filter_insertionSort_tsGE c _⟩
  have hdk := (dedupGo_keys (collect_timeline fmt ua snap) []).1
  have hperm : List.Perm
      (List.insertionSort tsGE (dedup_timeline (collect_timeline fmt ua snap)))
      (dedup_timeline (collect_timeline fmt ua snap)) := List.perm_insertionSort _ _
  have hnk : ((build_agent_timeline fmt ua snap).map timelineKey).Nodup :=
    ((hperm.map timelineKey).nodup_iff).mpr hdk
  have hmm : (build_agent_timeline fmt ua snap).map timelineKey =
      ((build_agent_timeline fmt ua snap).map rawTimelineKey).map
        (fun p => (pyLowerStr (pyStrip p.1), pyLowerStr (pyStrip p.2.1),
                   pyLowerStr (pyStrip p.2.2))) := by
    rw [List.map_map]
    rfl
  rw [hmm] at hnk
  exact hnk.of_map _

/-- C6 counterexample: with an unresolvable timestamp and a pre-epoch ISO
timestamp in the history, the zero-resolved entry sorts first, not last — the
pre-epoch entry resolves to a negative epoch and lands after it. -/
theorem c6_counterexample :
    (build_agent_timeline (fun _ => "") [] c6Snap).map (fun e => parse_any_ts e.ts) =
      [0, -631152000] := by decide

/-- Any reason produced by the evidence scan is one of the three fixed
evidence reasons. -/
theorem scanEvidence_reasons :
    ∀ (l : List TEntry) (r e : String), scanEvidence l = some (r, e) →
      r = "Recent user request" ∨ r = "Triggered by cron execution" ∨
        r = "Recent reasoning chain" := by
  intro l
  induction l with
  | nil => intro r e h; simp [scanEvidence] at h
  | cons p rest ih =>
    intro r e h
    simp only [scanEvidence] at h
    split_ifs at h with h1 h2 h3 h4
    · exact ih r e h
    · obtain ⟨hr, _⟩ := Prod.mk.injEq .. ▸ Option.some.injEq .. ▸ h
      exact Or.inl hr.symm
    · obtain ⟨hr, _⟩ := Prod.mk.injEq .. ▸ Option.some.injEq .. ▸ h
      exact Or.inr (Or.inl hr.symm)
    · obtain ⟨hr, _⟩ := Prod.mk.injEq .. ▸ Option.some.injEq .. ▸ h
      exact Or.inr (Or.inr hr.symm)
    · exact ih r e h

/-- A non-empty anchor-match result exhibits an anchor with positive token
overlap with the reference text. -/
theorem best_anchor_matches_nonempty (anchors : List String) (ref : String)
    (m : Nat) (h : best_anchor_matches anchors ref m ≠ []) :
    ∃ anchor ∈ anchors,
      0 < tokenOverlap (tokenize_text anchor) (tokenize_text ref) := by
  unfold best_anchor_matches at h
  set g := fun anchor =>
    let tokens := tokenize_text anchor
    if tokens.isEmpty then none
    else
      let overlap := tokenOverlap tokens (tokenize_text ref)
      if 0 < overlap then some (overlap, anchor) else none with hg
  have hsc : anchors.filterMap g ≠ [] := by
    intro hnil
    apply h
    simp only [hnil]
    have : (List.insertionSort (fun x y : Nat × String => y.1 ≤ x.1) []) = [] := rfl
    simp [this]
  have : ¬∀ a ∈ anchors, g a = none := by
    intro hall
    exact hsc (List.filterMap_eq_nil_iff.mpr hall)
  push_neg at this
  obtain ⟨a, ha, hga⟩ := this
  refine ⟨a, ha, ?_⟩
  by_contra hov
  apply hga
  rw [hg]
  simp only []
  by_cases ht : (tokenize_text a).isEmpty
  · simp [ht]
  · simp only [ht, if_false, Bool.false_eq_true]
    rw [if_neg hov]

/-- The confidence of a built decision is `high` exactly when it carries
evidence, and `medium` otherwise. -/
theorem mkDecision_confidence (a : String) (roots : List ContextRoot)
    (row : TEntry) (older : List TEntry) :
    ((mkDecision a roots row older).confidence = "high" ↔
      (mkDecision a roots row older).evidence ≠ []) ∧
    ((mkDecision a roots row older).evidence = [] →
      (mkDecision a roots row older).confidence = "medium") := by
  unfold mkDecision
  cases h : scanEvidence (older.take 9) with
  | none => simp [h]
  | some pr => simp [h]

/-- The decision text of a built decision is the clipped stripped row text. -/
theorem mkDecision_text (a : String) (roots : List ContextRoot)
    (row : TEntry) (older : List TEntry) :
    (mkDecision a roots row older).decision = strTake (pyStrip row.text) 320 := rfl

/-- A built decision carries the workspace-constraints reason only when some
context root has an anchor with positive token overlap with the stripped row
text. -/
theorem mkDecision_constraints (a : String) (roots : List ContextRoot)
    (row : TEntry) (older : List TEntry)
    (h : constraintsReason ∈ (mkDecision a roots row older).why) :
    ∃ root ∈ roots, ∃ anchor ∈ root.anchors,
      0 < tokenOverlap (tokenize_text anchor) (tokenize_text (pyStrip row.text)) := by
  have hwhy : (mkDecision a roots row older).why =
      (match scanEvidence (older.take 9) with
        | some (r, _) => [r]
        | none => ["Continuous operational context"]) ++
      (if (decisionRootCauses roots (pyStrip row.text)).isEmpty
       then [] else [constraintsReason]) := rfl
  rw [hwhy] at h
  rcases List.mem_append.mp h with hl | hr
  · exfalso
    cases hse : scanEvidence (older.take 9) with
    | none =>
      rw [hse] at hl
      rw [List.mem_singleton] at hl
      exact absurd hl (by decide)
    | some pr =>
      rw [hse] at hl
      obtain ⟨r, e⟩ := pr
      rw [List.mem_singleton] at hl
      rcases scanEvidence_reasons _ r e hse with h3 | h3 | h3 <;>
        (rw [h3] at hl; exact absurd hl (by decide))
  · have hne : ¬(decisionRootCauses roots (pyStrip row.text)).isEmpty = true := by
      intro hemp
      rw [if_pos hemp] at hr
      simp at hr
    have hnil : decisionRootCauses roots (pyStrip row.text) ≠ [] := by
      intro hn
      exact hne (by simp [hn])
    have : ¬∀ root ∈ roots, (fun root =>
        let hits := best_anchor_matches root.anchors (pyStrip row.text) 3
        if hits.isEmpty then none
        else some ({ file := root.file, anchors := hits } : RootCause)) root = none := by
      intro hall
      exact hnil (List.filterMap_eq_nil_iff.mpr hall)
    push_neg at this
    obtain ⟨root, hroot, hg⟩ := this
    refine ⟨root, hroot, ?_⟩
    have hhits : best_anchor_matches root.anchors (pyStrip row.text) 3 ≠ [] := by
      intro hnil2
      apply hg
      simp only [hnil2]
      simp
    exact best_anchor_matches_nonempty _ _ _ hhits

/-- Every produced decision comes from a candidate row of the scanned list. -/
theorem inferGo_mem (a : String) (roots : List ContextRoot) :
    ∀ (l : List TEntry) (n : Nat) (d : Decision), d ∈ inferGo a roots n l →
      ∃ row ∈ l, ∃ older : List TEntry, d = mkDecision a roots row older := by
  intro l
  induction l with
  | nil => intro n d hd; simp [inferGo] at hd
  | cons row rest ih =>
    intro n d hd
    simp only [inferGo] at hd
    by_cases hc : decisionCandidate row ∧ pyStrip row.text ≠ ""
    · rw [if_pos hc] at hd
      by_cases h25 : 25 ≤ n + 1
      · rw [if_pos h25] at hd
        rw [List.mem_singleton] at hd
        exact ⟨row, List.mem_cons_self .., rest, hd⟩
      · rw [if_neg h25] at hd
        rcases List.mem_cons.mp hd with rfl | hd'
        · exact ⟨row, List.mem_cons_self .., rest, rfl⟩
        · obtain ⟨r, hr, older, ho⟩ := ih (n + 1) d hd'
          exact ⟨r, List.mem_cons_of_mem _ hr, older, ho⟩
    · rw [if_neg hc] at hd
      obtain ⟨r, hr, older, ho⟩ := ih n d hd
      exact ⟨r, List.mem_cons_of_mem _ hr, older, ho⟩

/-- The enumeration loop produces at most `25 - n` further decisions. -/
theorem inferGo_length (a : String) (roots : List ContextRoot) :
    ∀ (l : List TEntry) (n : Nat), n < 25 → (inferGo a roots n l).length ≤ 25 - n := by
  intro l
  induction l with
  | nil => intro n _; simp [inferGo]
  | cons row rest ih =>
    intro n hn
    simp only [inferGo]
    by_cases hc : decisionCandidate row ∧ pyStrip row.text ≠ ""
    · rw [if_pos hc]
      by_cases h25 : 25 ≤ n + 1
      · rw [if_pos h25]
        simp only [List.length_singleton]
        omega
      · rw [if_neg h25]
        simp only [List.length_cons]
        have := ih (n + 1) (by omega)
        omega
    · rw [if_neg hc]
      exact ih n hn

/-- C5: decision inference returns at most 25 decisions; a decision carries
the workspace-constraints reason only when some ContextRoot anchor lexically
overlaps the decision's (stripped) source text with token overlap at least
one; and confidence is `high` exactly when causal evidence was found, and
`medium` otherwise. -/
theorem c5_decision_trace (agent_name : String) (timeline : List TEntry)
    (roots : List ContextRoot) :
    (infer_decision_trace agent_name timeline roots).length ≤ 25 ∧
    ∀ d ∈ infer_decision_trace agent_name timeline roots,
      (constraintsReason ∈ d.why →
        ∃ row ∈ timeline, ∃ root ∈ roots, ∃ anchor ∈ root.anchors,
          d.decision = strTake (pyStrip row.text) 320 ∧
          0 < tokenOverlap (tokenize_text anchor) (tokenize_text (pyStrip row.text))) ∧
      (d.confidence = "high" ↔ d.evidence ≠ []) ∧
      (d.evidence = [] → d.confidence = "medium") := by
  constructor
  · have := inferGo_length agent_name roots (timeline.take 220) 0 (by omega)
    simpa [infer_decision_trace] using this
  · intro d hd
    obtain ⟨row, hrow, older, rfl⟩ :=
      inferGo_mem agent_name roots (timeline.take 220) 0 d hd
    have hrowt : row ∈ timeline := (List.take_subset 220 timeline) hrow
    refine ⟨?_, (mkDecision_confidence agent_name roots row older).1,
      (mkDecision_confidence agent_name roots row older).2⟩
    intro hcon
    obtain ⟨root, hroot, anchor, hanchor, hov⟩ :=
      mkDecision_constraints agent_name roots row older hcon
    exact ⟨row, hrowt, root, hroot, anchor, hanchor,
      mkDecision_text agent_name roots row older, hov⟩

/-- Witness for C5 at a concrete timeline and context root; the produced
decision has no evidence, so its confidence is `medium`. -/
theorem c5_witness :
    (infer_decision_trace "europa" c5Timeline c5Roots).length ≤ 25 ∧
    c5Dec ∈ infer_decision_trace "europa" c5Timeline c5Roots ∧
    constraintsReason ∈ c5Dec.why ∧
    (∃ row ∈ c5Timeline, ∃ root ∈ c5Roots, ∃ anchor ∈ root.anchors,
      c5Dec.decision = strTake (pyStrip row.text) 320 ∧
      0 < tokenOverlap (tokenize_text anchor) (tokenize_text (pyStrip row.text))) ∧
    (c5Dec.confidence = "high" ↔ c5Dec.evidence ≠ []) ∧
    (c5Dec.evidence = [] ∧ c5Dec.confidence = "medium") :=
  ⟨(c5_decision_trace "europa" c5Timeline c5Roots).1,
   by decide,
   by decide,
   ((c5_decision_trace "europa" c5Timeline c5Roots).2 c5Dec (by decide)).1 (by decide),
   ((c5_decision_trace "europa" c5Timeline c5Roots).2 c5Dec (by decide)).2.1,
   ⟨by decide,
    ((c5_decision_trace "europa" c5Timeline c5Roots).2 c5Dec (by decide)).2.2
      (by decide)⟩⟩

/-- Witness for C8 on a small concrete cache. -/
theorem c8_witness :
    CacheInv (runKeys ["a", "b"]) ∧
    ("a" ∈ (runKeys ["a", "b"]).order ∧
      (remember_interaction_key "a" (runKeys ["a", "b"])).1 = false) ∧
    ((remember_interaction_key "c" (runKeys ["a", "b"])).2.order =
      (if 4000 ≤ (runKeys ["a", "b"]).order.length then (runKeys ["a", "b"]).order.tail
       else (runKeys ["a", "b"]).order) ++ ["c"]) :=
  ⟨by decide,
   ⟨by decide, (c8_interaction_dedup [] (runKeys ["a", "b"]) "a" (by decide)).2.1 (by decide)⟩,
   (c8_interaction_dedup [] (runKeys ["a", "b"]) "c" (by decide)).2.2 (by decide) (by decide)⟩

/-! ### C4: activation-node weights -/

/-- Membership in an `add_node` result: an old node or the freshly admitted
one. -/
theorem mem_add_node {st : GBState} {id : NodeId} {label group : String}
    {w : ℚ} {n : GNode} (h : n ∈ (add_node st id label group w).nodes) :
    n ∈ st.nodes ∨
      n = { id := id, label := clip_text label 120, group := group,
            weight := clamp_weight w } := by
  unfold add_node at h
  split at h
  · exact Or.inl h
  · rcases List.mem_append.mp h with h | h
    · exact Or.inl h
    · exact Or.inr (List.mem_singleton.mp h)

/-- `add_edge` leaves the node list unchanged. -/
theorem nodes_add_edge (st : GBState) (s t : NodeId) (lb : String) (w : ℚ) :
    (add_edge st s t lb w).nodes = st.nodes := rfl

/-- A fresh identifier is appended by `add_node`. -/
theorem add_node_nodes_fresh {st : GBState} {id : NodeId} (label group : String)
    (w : ℚ) (h : ∀ n ∈ st.nodes, n.id ≠ id) :
    (add_node st id label group w).nodes = st.nodes ++
      [{ id := id, label := clip_text label 120, group := group,
         weight := clamp_weight w }] := by
  have hc : ¬(st.nodes.any (fun n => n.id == id)) = true := by
    simp only [List.any_eq_true, beq_iff_eq]
    push_neg
    exact h
  unfold add_node
  rw [if_neg hc]

/-- The indices attached by `withIdx` run from `n` upward. -/
theorem withIdx_map_fst : ∀ (l : List α) (n : Nat),
    (withIdx n l).map Prod.fst = List.range' n l.length
  | [], _ => rfl
  | a :: r, n => by
    simp only [withIdx, List.map_cons, List.length_cons, List.range'_succ]
    rw [withIdx_map_fst r (n + 1)]

/-- The indices attached by `withIdx` are mutually distinct. -/
theorem withIdx_fst_nodup (l : List α) (n : Nat) :
    ((withIdx n l).map Prod.fst).Nodup := by
  rw [withIdx_map_fst]
  exact List.nodup_range' _ _

/-- The activation fold appends exactly one activation node per candidate
when the candidate identifiers are fresh and mutually distinct. -/
theorem actFold_nodes (agentId : NodeId) (ps : List (Nat × ActCand)) :
    ∀ (acc : GBState × List (NodeId × ℚ × String)),
      (∀ n ∈ acc.1.nodes, ∀ q ∈ ps, n.id ≠ NodeId.activation q.1) →
      (ps.map Prod.fst).Nodup →
      (ps.foldl (actStep agentId) acc).1.nodes =
        acc.1.nodes ++ ps.map mkActNode := by
  induction ps with
  | nil => intro acc _ _; simp
  | cons q rest ih =>
    intro acc hfresh hnd
    have hq : ∀ n ∈ acc.1.nodes, n.id ≠ NodeId.activation q.1 :=
      fun n hn => hfresh n hn q (List.mem_cons_self q rest)
    have hnodes : (actStep agentId acc q).1.nodes =
        acc.1.nodes ++ [mkActNode q] :=
      (nodes_add_edge _ _ _ _ _).trans (add_node_nodes_fresh _ _ _ hq)
    have hq1 : q.1 ∉ rest.map Prod.fst := (List.nodup_cons.mp hnd).1
    have hfresh' : ∀ n ∈ (actStep agentId acc q).1.nodes, ∀ q' ∈ rest,
        n.id ≠ NodeId.activation q'.1 := by
      intro n hn q' hq'
      rw [hnodes] at hn
      rcases List.mem_append.mp hn with hn | hn
      · exact hfresh n hn q' (List.mem_cons_of_mem q hq')
      · rw [List.mem_singleton] at hn
        subst hn
        intro hcon
        apply hq1
        have he : q.1 = q'.1 :=
          NodeId.activation.inj (hcon : NodeId.activation q.1 = NodeId.activation q'.1)
        rw [he]
        exact List.mem_map_of_mem Prod.fst hq'
    rw [List.foldl_cons, ih _ hfresh' (List.nodup_cons.mp hnd).2, hnodes]
    simp

/-- Before the activation phase the builder holds only the agent node and the
root nodes; in particular no activation identifiers and no activation
group. -/
theorem bcg_roots_nodes (snapshot : Snapshot) (roots : List ContextRoot) :
    ∀ n ∈ (bcg_roots snapshot roots).1.nodes,
      (n.group = "agent" ∨ n.group = "root") ∧
        ∀ k, n.id ≠ NodeId.activation k := by
  unfold bcg_roots phase_roots
  refine foldl_preserves
    (P := fun p : GBState × List (String × NodeId) =>
      ∀ n ∈ p.1.nodes, (n.group = "agent" ∨ n.group = "root") ∧
        ∀ k, n.id ≠ NodeId.activation k) ?_ _ _ ?_
  · intro s b hs n hn
    have hn' : n ∈ (add_node s.1 (NodeId.root b.1) (root_label b.2.file b.1)
        "root" (clamp_weight (0.56 +
          ((min b.2.matched_anchors.length 4 : Nat) : ℚ) * 0.1))).nodes := hn
    rcases mem_add_node hn' with h | rfl
    · exact hs n h
    · exact ⟨Or.inr rfl, fun k hcon => NodeId.noConfusion hcon⟩
  · intro n hn
    rcases mem_add_node (hn : n ∈ (bcg_st1 snapshot).nodes) with h | rfl
    · cases h
    · exact ⟨Or.inl rfl, fun k hcon => NodeId.noConfusion hcon⟩

/-- After the activation phase the node list is the pre-phase node list
followed by exactly one node per chosen activation, in rank order. -/
theorem bcg_act_nodes (snapshot : Snapshot) (roots : List ContextRoot)
    (timeline : List TEntry) (gma : Nat) (ma : Option Int) :
    (bcg_act snapshot roots timeline gma ma).1.nodes =
      (bcg_roots snapshot roots).1.nodes ++
        (withIdx 0 (chosen_activations timeline (effective_cap gma ma))).map
          mkActNode := by
  unfold bcg_act phase_activations
  refine actFold_nodes _ _ _ ?_ (withIdx_fst_nodup _ _)
  intro n hn q _
  exact (bcg_roots_nodes snapshot roots n hn).2 q.1

/-- `actWeights` ignores edges. -/
theorem actWeights_add_edge (st : GBState) (s t : NodeId) (lb : String)
    (w : ℚ) : actWeights (add_edge st s t lb w) = actWeights st := rfl

/-- `add_node` with a non-activation group leaves `actWeights` unchanged. -/
theorem actWeights_add_node (st : GBState) (id : NodeId) (label : String)
    {group : String} (w : ℚ) (hg : (group == "activation") = false) :
    actWeights (add_node st id label group w) = actWeights st := by
  unfold actWeights add_node
  split
  · rfl
  · rw [List.filter_append]
    simp [hg]

/-- A generic fold-invariance principle for an observation of the
accumulator. -/
theorem foldl_fix {β γ : Type*} (g : γ → List ℚ) {step : γ → β → γ}
    (hstep : ∀ s b, g (step s b) = g s) :
    ∀ (l : List β) (s : γ), g (l.foldl step s) = g s := by
  intro l
  induction l with
  | nil => intro s; rfl
  | cons b bs ih => intro s; rw [List.foldl_cons, ih, hstep]

/-- The same fold-invariance principle for an arbitrary-typed observation. -/
theorem foldl_fix2 {β γ δ : Type*} (g : γ → δ) {step : γ → β → γ}
    (hstep : ∀ s b, g (step s b) = g s) :
    ∀ (l : List β) (s : γ), g (l.foldl step s) = g s := by
  intro l
  induction l with
  | nil => intro s; rfl
  | cons b bs ih => intro s; rw [List.foldl_cons, ih, hstep]

/-- The `initiates` pass leaves `actWeights` unchanged. -/
theorem actWeights_decision_initiates (abi : List (NodeId × ℚ × String))
    (nid : NodeId) (dts dw : ℚ) (st : GBState) :
    actWeights (decision_initiates abi nid dts dw st) = actWeights st := by
  unfold decision_initiates
  refine foldl_fix actWeights ?_ _ st
  intro s e
  rfl

/-- The `evolves` pass leaves `actWeights` unchanged. -/
theorem actWeights_decision_evolves (dns : List NodeId) (nid : NodeId)
    (dw : ℚ) (st : GBState) :
    actWeights (decision_evolves dns nid dw st) = actWeights st := by
  unfold decision_evolves
  cases dns.getLast? <;> rfl

/-- The reason pass leaves `actWeights` unchanged. -/
theorem actWeights_decision_reasons (why_items : List String) (idx : Nat)
    (nid : NodeId) (dw : ℚ) (st : GBState) :
    actWeights (decision_reasons why_items idx nid dw st) = actWeights st := by
  unfold decision_reasons
  refine foldl_fix actWeights ?_ _ st
  intro s q
  exact (actWeights_add_edge _ _ _ _ _).trans (actWeights_add_node _ _ _ _ rfl)

/-- The signal pass leaves `actWeights` unchanged. -/
theorem actWeights_decision_signal (evidence_items : List String) (idx : Nat)
    (nid : NodeId) (dw : ℚ) (st : GBState) :
    actWeights (decision_signal evidence_items idx nid dw st) = actWeights st := by
  unfold decision_signal
  cases evidence_items
  · rfl
  · exact (actWeights_add_edge _ _ _ _ _).trans (actWeights_add_node _ _ _ _ rfl)

/-- The constrains pass leaves `actWeights` unchanged. -/
theorem actWeights_decision_constrains (root_causes : List RootCause)
    (rootAssoc : List (String × NodeId)) (nid : NodeId) (dw : ℚ)
    (st : GBState) :
    actWeights (decision_constrains root_causes rootAssoc nid dw st) =
      actWeights st := by
  unfold decision_constrains
  refine foldl_fix actWeights ?_ _ st
  intro s rc
  cases lookup_root rootAssoc rc.file <;> rfl

/-- One decision iteration leaves `actWeights` unchanged. -/
theorem actWeights_addDecision (agentId : NodeId)
    (abi : List (NodeId × ℚ × String)) (rootAssoc : List (String × NodeId))
    (acc : GBState × List NodeId) (p : Nat × Decision) :
    actWeights (addDecision agentId abi rootAssoc acc p).1 =
      actWeights acc.1 :=
  (actWeights_decision_constrains _ _ _ _ _).trans
    ((actWeights_decision_signal _ _ _ _ _).trans
      ((actWeights_decision_reasons _ _ _ _ _).trans
        ((actWeights_decision_evolves _ _ _ _).trans
          ((actWeights_decision_initiates _ _ _ _ _).trans
            ((actWeights_add_edge _ _ _ _ _).trans
              (actWeights_add_node _ _ _ _ rfl))))))

/-- The decision phase leaves `actWeights` unchanged. -/
theorem actWeights_phase_decisions (st : GBState) (agentId : NodeId)
    (abi : List (NodeId × ℚ × String)) (rootAssoc : List (String × NodeId))
    (decisions : List Decision) :
    actWeights (phase_decisions st agentId abi rootAssoc decisions).1 =
      actWeights st := by
  unfold phase_decisions
  exact foldl_fix (fun p : GBState × List NodeId => actWeights p.1)
    (fun s b => actWeights_addDecision agentId abi rootAssoc s b) _ _

/-- One action iteration leaves `actWeights` unchanged. -/
theorem actWeights_addAction (agentId : NodeId) (dts : List (Nat × ℚ))
    (dns : List NodeId) (eligLen : Nat) (acc : GBState × List ActionRec)
    (p : Nat × CronTRow) :
    actWeights (addAction agentId dts dns eligLen acc p).1 =
      actWeights acc.1 := by
  unfold addAction
  cases dns with
  | nil =>
    exact (actWeights_add_edge _ _ _ _ _).trans (actWeights_add_node _ _ _ _ rfl)
  | cons d ds =>
    exact (actWeights_add_edge _ _ _ _ _).trans (actWeights_add_node _ _ _ _ rfl)

/-- The action phase leaves `actWeights` unchanged. -/
theorem actWeights_phase_actions (st : GBState) (agentId : NodeId)
    (dts : List (Nat × ℚ)) (dns : List NodeId) (ct : List CronTRow) :
    actWeights (phase_actions st agentId dts dns ct).1 = actWeights st := by
  unfold phase_actions
  exact foldl_fix (fun p : GBState × List ActionRec => actWeights p.1)
    (fun s b => actWeights_addAction agentId dts dns _ s b) _ _

/-- One outcome iteration leaves `actWeights` unchanged. -/
theorem actWeights_addOutcome (acc : GBState) (ar : ActionRec) :
    actWeights (addOutcome acc ar) = actWeights acc := by
  refine (actWeights_add_edge _ _ _ _ _).trans (actWeights_add_node _ _ _ _ ?_)
  split_ifs <;> rfl

/-- The outcome phase leaves `actWeights` unchanged. -/
theorem actWeights_phase_outcomes (st : GBState) (ans : List ActionRec) :
    actWeights (phase_outcomes st ans) = actWeights st :=
  foldl_fix actWeights actWeights_addOutcome ans st

/-- Mapping the node list with a group- and weight-preserving function keeps
`actWeights`. -/
theorem actWeights_map_nodes (st : GBState) (f : GNode → GNode)
    (hg : ∀ n, (f n).group = n.group) (hw : ∀ n, (f n).weight = n.weight) :
    actWeights { st with nodes := st.nodes.map f } = actWeights st := by
  unfold actWeights
  rw [List.filter_map, List.map_map]
  rw [List.filter_congr (fun a _ => by
    show ((f a).group == "activation") = (a.group == "activation")
    rw [hg a])]
  exact List.map_congr_left (fun a _ => hw a)

/-- `set_node_live` leaves `actWeights` unchanged. -/
theorem actWeights_set_node_live (st : GBState) (id : NodeId)
    (a b now : ℚ) : actWeights (set_node_live st id a b now).1 = actWeights st := by
  have hmap : actWeights { st with nodes := set_live_in_nodes st.nodes id } =
      actWeights st := by
    unfold set_live_in_nodes
    exact actWeights_map_nodes st
      (fun n => if n.id == id then { n with live := true } else n)
      (fun n => by by_cases hn : (n.id == id) = true <;> simp [hn])
      (fun n => by by_cases hn : (n.id == id) = true <;> simp [hn])
  unfold set_node_live
  split_ifs <;> first | rfl | exact hmap

/-- `set_node_live_window` leaves `actWeights` unchanged. -/
theorem actWeights_set_node_live_window (st : GBState) (id : NodeId)
    (a b c now : ℚ) :
    actWeights (set_node_live_window st id a b c now).1 = actWeights st := by
  unfold set_node_live_window
  split_ifs <;> first | rfl | exact actWeights_set_node_live _ _ _ _ _

/-- The activation liveness pass leaves `actWeights` unchanged. -/
theorem actWeights_live_activations (st : GBState)
    (abi : List (NodeId × ℚ × String)) (now : ℚ) :
    actWeights (live_activations st abi now).1 = actWeights st := by
  unfold live_activations
  refine foldl_fix (fun p : GBState × List (NodeId × ℚ) => actWeights p.1) ?_ _ _
  intro s b
  split_ifs
  · rfl
  · exact actWeights_set_node_live_window _ _ _ _ _ _
  · exact actWeights_set_node_live_window _ _ _ _ _ _

/-- The satellite pass leaves `actWeights` unchanged. -/
theorem actWeights_decision_satellites_live (st : GBState) (idx : Nat)
    (a b now : ℚ) :
    actWeights (decision_satellites_live st idx a b now) = actWeights st := by
  unfold decision_satellites_live
  refine foldl_fix actWeights ?_ _ _
  intro s nid
  exact actWeights_set_node_live_window _ _ _ _ _ _

/-- One decision liveness step leaves `actWeights` unchanged. -/
theorem actWeights_live_decisions_step (dts : List (Nat × ℚ))
    (lastSeenTs now : ℚ) (acc : GBState × List (NodeId × ℚ))
    (p : Nat × NodeId) :
    actWeights (live_decisions_step dts lastSeenTs now acc p).1 =
      actWeights acc.1 := by
  unfold live_decisions_step
  split_ifs
  · rfl
  · exact (actWeights_decision_satellites_live _ _ _ _ _).trans
      (actWeights_set_node_live_window _ _ _ _ _ _)
  · exact actWeights_set_node_live_window _ _ _ _ _ _

/-- The decision liveness pass leaves `actWeights` unchanged. -/
theorem actWeights_live_decisions (st : GBState) (dns : List NodeId)
    (dts : List (Nat × ℚ)) (lastSeenTs now : ℚ) :
    actWeights (live_decisions st dns dts lastSeenTs now).1 = actWeights st := by
  unfold live_decisions
  exact foldl_fix (fun p : GBState × List (NodeId × ℚ) => actWeights p.1)
    (fun s b => actWeights_live_decisions_step dts lastSeenTs now s b) _ _

/-- The action liveness pass leaves `actWeights` unchanged. -/
theorem actWeights_live_actions (st : GBState) (ans : List ActionRec)
    (lastSeenTs now : ℚ) :
    actWeights (live_actions st ans lastSeenTs now).1 = actWeights st := by
  unfold live_actions
  refine foldl_fix (fun p : GBState × List (NodeId × ℚ) => actWeights p.1) ?_ _ _
  intro s b
  unfold live_action_step
  split_ifs
  · rfl
  · rfl
  · exact actWeights_set_node_live_window _ _ _ _ _ _
  · exact actWeights_set_node_live_window _ _ _ _ _ _

/-- The outcome liveness step leaves `actWeights` unchanged. -/
theorem actWeights_live_outcomes_step (now : ℚ) (st : GBState)
    (ar : ActionRec) :
    actWeights (live_outcomes_step now st ar) = actWeights st := by
  unfold live_outcomes_step
  split_ifs
  · rfl
  · rfl
  · exact actWeights_set_node_live_window _ _ _ _ _ _

/-- The assembled liveness pass leaves `actWeights` unchanged. -/
theorem actWeights_bcg_live (now : ℚ) (gma : Nat) (snapshot : Snapshot)
    (decisions : List Decision) (ct : List CronTRow)
    (roots : List ContextRoot) (timeline : List TEntry) (ma : Option Int) :
    actWeights (bcg_live now gma snapshot decisions ct roots timeline ma).1 =
      actWeights (bcg_out snapshot decisions ct roots timeline gma ma) := by
  unfold bcg_live
  exact (foldl_fix actWeights (fun s b => actWeights_live_outcomes_step now s b)
      _ _).trans
    ((actWeights_live_actions _ _ _ _).trans
      ((actWeights_live_decisions _ _ _ _ _).trans
        (actWeights_live_activations _ _ _)))

/-- Trigger marking and edge finalization leave `actWeights` unchanged. -/
theorem actWeights_bcg_final (now : ℚ) (gma : Nat) (snapshot : Snapshot)
    (decisions : List Decision) (ct : List CronTRow)
    (roots : List ContextRoot) (timeline : List TEntry) (ma : Option Int) :
    actWeights (bcg_final now gma snapshot decisions ct roots timeline ma) =
      actWeights (bcg_out snapshot decisions ct roots timeline gma ma) := by
  have hts : ∀ (l : GBState × List (NodeId × ℚ) × List (NodeId × ℚ) ×
      List (NodeId × ℚ)),
      actWeights (trig_select now snapshot l).1 = actWeights l.1 := by
    intro l
    unfold trig_select
    cases max_by_ts l.2.2.2
    case some a => rfl
    case none =>
      cases max_by_ts l.2.2.1
      case some a => rfl
      case none =>
        cases max_by_ts l.2.1
        case some a => rfl
        case none =>
          unfold bcg_trig_fallback
          split_ifs
          · exact actWeights_set_node_live _ _ _ _ _
          · exact actWeights_set_node_live _ _ _ _ _
          · rfl
  have hmark : ∀ (st : GBState) (t : NodeId),
      actWeights (mark_trigger st t) = actWeights st := by
    intro st t
    unfold mark_trigger
    exact actWeights_map_nodes st
      (fun n => if n.id == t then { n with trigger_source := true } else n)
      (fun n => by by_cases hn : (n.id == t) = true <;> simp [hn])
      (fun n => by by_cases hn : (n.id == t) = true <;> simp [hn])
  have hfin : ∀ st : GBState, actWeights (finalize_edges st) = actWeights st :=
    fun st => rfl
  unfold bcg_final
  cases (bcg_trig now gma snapshot decisions ct roots timeline ma).2
  case none =>
    rw [hfin]
    exact (hts _).trans
      (actWeights_bcg_live now gma snapshot decisions ct roots timeline ma)
  case some t =>
    rw [hfin, hmark]
    exact (hts _).trans
      (actWeights_bcg_live now gma snapshot decisions ct roots timeline ma)

/-- The stored per-rank activation weight in closed form. -/
theorem activation_weight_closed (k : Nat) :
    clamp_weight (activation_weight_at k) =
      0.54 + max 0 (0.18 - (k : ℚ) * 0.02) := by
  have h0 : (0 : ℚ) ≤ max 0 (0.18 - (k : ℚ) * 0.02) := le_max_left _ _
  have h1 : max 0 (0.18 - (k : ℚ) * 0.02) ≤ 0.18 := by
    refine max_le (by norm_num) ?_
    have hk : (0 : ℚ) ≤ (k : ℚ) * 0.02 := by positivity
    linarith
  unfold activation_weight_at
  rw [clamp_weight_id (0.54 + max 0 (0.18 - (k : ℚ) * 0.02))
      (by linarith) (by linarith)]
  rw [clamp_weight_id (0.54 + max 0 (0.18 - (k : ℚ) * 0.02))
      (by linarith) (by linarith)]

/-- C4 (amended): for every input, the activation-group nodes of the returned
graph carry, in rank order, exactly the weights
`0.54 + max(0, 0.18 − 0.02·k)` for `k = 0, 1, …` — a `0.72` base decaying by
`0.02` per rank down to a `0.54` floor, not a `0.54` base. -/
theorem c4_amended (now : ℚ) (gma : Nat) (snapshot : Snapshot)
    (decisions : List Decision) (ct : List CronTRow)
    (roots : List ContextRoot) (timeline : List TEntry) (ma : Option Int) :
    ((build_causal_graph now gma snapshot decisions ct roots timeline
        ma).nodes.filter (fun n => n.group == "activation")).map
        (fun n => n.weight) =
      (List.range (chosen_activations timeline
          (effective_cap gma ma)).length).map
        (fun k : Nat => (0.54 : ℚ) + max 0 (0.18 - (k : ℚ) * 0.02)) := by
  have h6 : actWeights (bcg_out snapshot decisions ct roots timeline gma ma) =
      actWeights (bcg_action snapshot decisions ct roots timeline gma ma).1 := by
    unfold bcg_out
    exact actWeights_phase_outcomes _ _
  have h5 : actWeights (bcg_action snapshot decisions ct roots timeline gma
        ma).1 = actWeights (bcg_dec snapshot decisions roots timeline gma ma).1 := by
    unfold bcg_action
    exact actWeights_phase_actions _ _ _ _ _
  have h4 : actWeights (bcg_dec snapshot decisions roots timeline gma ma).1 =
      actWeights (bcg_act snapshot roots timeline gma ma).1 := by
    unfold bcg_dec
    exact actWeights_phase_decisions _ _ _ _ _
  have hpre : (bcg_roots snapshot roots).1.nodes.filter
      (fun n => n.group == "activation") = [] := by
    rw [List.filter_eq_nil_iff]
    intro n hn
    rcases (bcg_roots_nodes snapshot roots n hn).1 with hg | hg <;> simp [hg]
  have hall : ((withIdx 0 (chosen_activations timeline
        (effective_cap gma ma))).map mkActNode).filter
      (fun n => n.group == "activation") =
      (withIdx 0 (chosen_activations timeline (effective_cap gma ma))).map
        mkActNode := by
    rw [List.filter_eq_self]
    intro n hn
    rw [List.mem_map] at hn
    obtain ⟨q, _, rfl⟩ := hn
    rfl
  have hL : ((build_causal_graph now gma snapshot decisions ct roots timeline
      ma).nodes.filter (fun n => n.group == "activation")).map
      (fun n => n.weight) =
      actWeights (bcg_final now gma snapshot decisions ct roots timeline ma) := rfl
  rw [hL, actWeights_bcg_final, h6, h5, h4]
  show actWeights (bcg_act snapshot roots timeline gma ma).1 = _
  unfold actWeights
  rw [bcg_act_nodes, List.filter_append, hpre, hall, List.nil_append,
    List.map_map]
  have hw : ∀ q ∈ withIdx 0 (chosen_activations timeline
      (effective_cap gma ma)),
      ((fun n => n.weight) ∘ mkActNode) q =
        ((fun k : Nat => clamp_weight (activation_weight_at k)) ∘ Prod.fst) q :=
    fun q _ => rfl
  rw [List.map_congr_left hw, ← List.map_map, withIdx_map_fst,
    ← List.range_eq_range']
  exact List.map_congr_left (fun k _ => activation_weight_closed k)

/-- C4 counterexample: a single classifiable timeline row yields a rank-0
activation node stored with weight `0.72`, not the claimed
`0.54 − 0.02·0 = 0.54`. -/
theorem c4_counterexample :
    ((build_causal_graph 0 5 { agent := some "a" } [] [] []
        c4Timeline none).nodes.filter (fun n => n.group == "activation")).map
        (fun n => n.weight) = [(0.72 : ℚ)] ∧
      ((0.72 : ℚ) ≠ 0.54 - 0.02 * 0) := by
  constructor
  · decide
  · norm_num

/-! ### C7: outcome-node weights -/

/-- `withIdx` distributes over append, shifting the start index. -/
theorem withIdx_append : ∀ (l1 l2 : List α) (n : Nat),
    withIdx n (l1 ++ l2) = withIdx n l1 ++ withIdx (n + l1.length) l2
  | [], l2, n => by simp [withIdx]
  | a :: r, l2, n => by
    show (n, a) :: withIdx (n + 1) (r ++ l2) =
      (n, a) :: (withIdx (n + 1) r ++ withIdx (n + (r.length + 1)) l2)
    rw [withIdx_append r l2 (n + 1)]
    have he : n + 1 + r.length = n + (r.length + 1) := by omega
    rw [he]

/-- Index bounds of `withIdx` members. -/
theorem withIdx_mem_bounds : ∀ (l : List α) (n : Nat) (q : Nat × α),
    q ∈ withIdx n l → n ≤ q.1 ∧ q.1 < n + l.length
  | [], _, q => by intro h; cases h
  | a :: r, n, q => by
    intro h
    simp only [withIdx, List.mem_cons] at h
    rcases h with rfl | h
    · simp only [List.length_cons]
      omega
    · obtain ⟨h1, h2⟩ := withIdx_mem_bounds r (n + 1) q h
      simp only [List.length_cons]
      omega

/-- Filtering by a property of the payload commutes with `withIdx` in
length. -/
theorem withIdx_filter_length (p : α → Bool) :
    ∀ (l : List α) (n : Nat),
      ((withIdx n l).filter (fun q => p q.2)).length = (l.filter p).length
  | [], _ => rfl
  | a :: r, n => by
    by_cases h : p a = true <;>
      simp [withIdx, List.filter_cons, h, withIdx_filter_length p r (n + 1)]

/-- The eligible-action list of a split cron timeline, when the middle row is
eligible. -/
theorem eligible_actions_split (pre post : List CronTRow) (row : CronTRow)
    (helig : eligible_kind row = true) :
    eligible_actions (pre ++ row :: post) =
      eligible_actions pre ++ (pre.length, row) ::
        (withIdx (pre.length + 1) post).filter (fun q => eligible_kind q.2) := by
  unfold eligible_actions
  rw [withIdx_append, List.filter_append]
  simp only [Nat.zero_add, withIdx, List.filter_cons, helig, if_true]

/-- One action iteration appends exactly its record. -/
theorem addAction_snd (agentId : NodeId) (dts : List (Nat × ℚ))
    (dns : List NodeId) (eligLen : Nat) (acc : GBState × List ActionRec)
    (p : Nat × CronTRow) :
    (addAction agentId dts dns eligLen acc p).2 =
      acc.2 ++ [actionRec dts dns p] := by
  unfold addAction actionRec
  cases dns with
  | nil => rfl
  | cons d ds => rfl

/-- The action fold appends exactly one record per row. -/
theorem actionFold_recs (agentId : NodeId) (dts : List (Nat × ℚ))
    (dns : List NodeId) (eligLen : Nat) (ps : List (Nat × CronTRow)) :
    ∀ (acc : GBState × List ActionRec),
      (ps.foldl (addAction agentId dts dns eligLen) acc).2 =
        acc.2 ++ ps.map (actionRec dts dns) := by
  induction ps with
  | nil => intro acc; simp
  | cons q rest ih =>
    intro acc
    rw [List.foldl_cons, ih, addAction_snd]
    simp

/-- The first component of an action record is its action identifier. -/
theorem actionRec_fst (dts : List (Nat × ℚ)) (dns : List NodeId)
    (p : Nat × CronTRow) : (actionRec dts dns p).1 = NodeId.action p.1 := by
  unfold actionRec
  cases dns <;> rfl

/-- The row stored in an action record. -/
theorem actionRec_row (dts : List (Nat × ℚ)) (dns : List NodeId)
    (p : Nat × CronTRow) : (actionRec dts dns p).2.1 = p.2 := by
  unfold actionRec
  cases dns <;> rfl

/-- The absolute index stored in an action record. -/
theorem actionRec_idx (dts : List (Nat × ℚ)) (dns : List NodeId)
    (p : Nat × CronTRow) : (actionRec dts dns p).2.2.1 = p.1 := by
  unfold actionRec
  cases dns <;> rfl

/-- The action fold appends exactly one action node per row when the row
identifiers are fresh and mutually distinct. -/
theorem actionFold_nodes (agentId : NodeId) (dts : List (Nat × ℚ))
    (dns : List NodeId) (eligLen : Nat) (ps : List (Nat × CronTRow)) :
    ∀ (acc : GBState × List ActionRec),
      (∀ n ∈ acc.1.nodes, ∀ q ∈ ps, n.id ≠ NodeId.action q.1) →
      (ps.map Prod.fst).Nodup →
      (ps.foldl (addAction agentId dts dns eligLen) acc).1.nodes =
        acc.1.nodes ++ ps.map (mkActionNode eligLen) := by
  induction ps with
  | nil => intro acc _ _; simp
  | cons q rest ih =>
    intro acc hfresh hnd
    have hq : ∀ n ∈ acc.1.nodes, n.id ≠ NodeId.action q.1 :=
      fun n hn => hfresh n hn q (List.mem_cons_self q rest)
    have hnodes : (addAction agentId dts dns eligLen acc q).1.nodes =
        acc.1.nodes ++ [mkActionNode eligLen q] := by
      unfold addAction
      cases dns with
      | nil => exact (nodes_add_edge _ _ _ _ _).trans (add_node_nodes_fresh _ _ _ hq)
      | cons d ds =>
        exact (nodes_add_edge _ _ _ _ _).trans (add_node_nodes_fresh _ _ _ hq)
    have hq1 : q.1 ∉ rest.map Prod.fst := (List.nodup_cons.mp hnd).1
    have hfresh' : ∀ n ∈ (addAction agentId dts dns eligLen acc q).1.nodes,
        ∀ q' ∈ rest, n.id ≠ NodeId.action q'.1 := by
      intro n hn q' hq'
      rw [hnodes] at hn
      rcases List.mem_append.mp hn with hn | hn
      · exact hfresh n hn q' (List.mem_cons_of_mem q hq')
      · rw [List.mem_singleton] at hn
        subst hn
        intro hcon
        apply hq1
        have he : q.1 = q'.1 :=
          NodeId.action.inj (hcon : NodeId.action q.1 = NodeId.action q'.1)
        rw [he]
        exact List.mem_map_of_mem Prod.fst hq'
    rw [List.foldl_cons, ih _ hfresh' (List.nodup_cons.mp hnd).2, hnodes]
    simp

/-- Before the root phase's additions, every identifier is an agent or root
identifier. -/
theorem bcg_roots_ids (snapshot : Snapshot) (roots : List ContextRoot) :
    ∀ n ∈ (bcg_roots snapshot roots).1.nodes,
      (∃ a, n.id = NodeId.agent a) ∨ (∃ k, n.id = NodeId.root k) := by
  unfold bcg_roots phase_roots
  refine foldl_preserves
    (P := fun p : GBState × List (String × NodeId) =>
      ∀ n ∈ p.1.nodes,
        (∃ a, n.id = NodeId.agent a) ∨ (∃ k, n.id = NodeId.root k)) ?_ _ _ ?_
  · intro s b hs n hn
    have hn' : n ∈ (add_node s.1 (NodeId.root b.1) (root_label b.2.file b.1)
        "root" (clamp_weight (0.56 +
          ((min b.2.matched_anchors.length 4 : Nat) : ℚ) * 0.1))).nodes := hn
    rcases mem_add_node hn' with h | rfl
    · exact hs n h
    · exact Or.inr ⟨b.1, rfl⟩
  · intro n hn
    rcases mem_add_node (hn : n ∈ (bcg_st1 snapshot).nodes) with h | rfl
    · cases h
    · exact Or.inl ⟨_, rfl⟩

/-- `add_edge` keeps `GBNoAO`. -/
theorem noao_add_edge (st : GBState) (s t : NodeId) (lb : String) (w : ℚ)
    (h : GBNoAO st) : GBNoAO (add_edge st s t lb w) := fun n hn => h n hn

/-- `add_node` with a non-action, non-outcome identifier keeps `GBNoAO`. -/
theorem noao_add_node (st : GBState) (id : NodeId) (label group : String)
    (w : ℚ) (ha : ∀ k, id ≠ NodeId.action k)
    (ho : ∀ k, id ≠ NodeId.outcome k) (h : GBNoAO st) :
    GBNoAO (add_node st id label group w) := by
  intro n hn
  rcases mem_add_node hn with hn | rfl
  · exact h n hn
  · exact ⟨ha, ho⟩

/-- The `initiates` pass leaves the node list unchanged. -/
theorem nodes_decision_initiates (abi : List (NodeId × ℚ × String))
    (nid : NodeId) (dts dw : ℚ) (st : GBState) :
    (decision_initiates abi nid dts dw st).nodes = st.nodes := by
  unfold decision_initiates
  refine foldl_fix2 GBState.nodes ?_ _ st
  intro s e
  rfl

/-- The `evolves` pass leaves the node list unchanged. -/
theorem nodes_decision_evolves (dns : List NodeId) (nid : NodeId) (dw : ℚ)
    (st : GBState) : (decision_evolves dns nid dw st).nodes = st.nodes := by
  unfold decision_evolves
  cases dns.getLast? <;> rfl

/-- The constrains pass leaves the node list unchanged. -/
theorem nodes_decision_constrains (root_causes : List RootCause)
    (rootAssoc : List (String × NodeId)) (nid : NodeId) (dw : ℚ)
    (st : GBState) :
    (decision_constrains root_causes rootAssoc nid dw st).nodes = st.nodes := by
  unfold decision_constrains
  refine foldl_fix2 GBState.nodes ?_ _ st
  intro s rc
  cases lookup_root rootAssoc rc.file <;> rfl

/-- The reason pass keeps `GBNoAO`. -/
theorem noao_decision_reasons (why_items : List String) (idx : Nat)
    (nid : NodeId) (dw : ℚ) (st : GBState) (h : GBNoAO st) :
    GBNoAO (decision_reasons why_items idx nid dw st) := by
  unfold decision_reasons
  refine foldl_preserves (P := GBNoAO) ?_ _ st h
  intro s q hs
  exact noao_add_edge _ _ _ _ _
    (noao_add_node _ _ _ _ _ (fun k hc => NodeId.noConfusion hc)
      (fun k hc => NodeId.noConfusion hc) hs)

/-- The signal pass keeps `GBNoAO`. -/
theorem noao_decision_signal (evidence_items : List String) (idx : Nat)
    (nid : NodeId) (dw : ℚ) (st : GBState) (h : GBNoAO st) :
    GBNoAO (decision_signal evidence_items idx nid dw st) := by
  unfold decision_signal
  cases evidence_items
  · exact h
  · exact noao_add_edge _ _ _ _ _
      (noao_add_node _ _ _ _ _ (fun k hc => NodeId.noConfusion hc)
        (fun k hc => NodeId.noConfusion hc) h)

/-- The `initiates` pass keeps `GBNoAO`. -/
theorem noao_decision_initiates (abi : List (NodeId × ℚ × String))
    (nid : NodeId) (dts dw : ℚ) (st : GBState) (h : GBNoAO st) :
    GBNoAO (decision_initiates abi nid dts dw st) := by
  intro n hn
  rw [nodes_decision_initiates] at hn
  exact h n hn

/-- The `evolves` pass keeps `GBNoAO`. -/
theorem noao_decision_evolves (dns : List NodeId) (nid : NodeId) (dw : ℚ)
    (st : GBState) (h : GBNoAO st) :
    GBNoAO (decision_evolves dns nid dw st) := by
  intro n hn
  rw [nodes_decision_evolves] at hn
  exact h n hn

/-- The constrains pass keeps `GBNoAO`. -/
theorem noao_decision_constrains (root_causes : List RootCause)
    (rootAssoc : List (String × NodeId)) (nid : NodeId) (dw : ℚ)
    (st : GBState) (h : GBNoAO st) :
    GBNoAO (decision_constrains root_causes rootAssoc nid dw st) := by
  intro n hn
  rw [nodes_decision_constrains] at hn
  exact h n hn

/-- One decision iteration keeps `GBNoAO`. -/
theorem noao_addDecision (agentId : NodeId) (abi : List (NodeId × ℚ × String))
    (rootAssoc : List (String × NodeId)) (acc : GBState × List NodeId)
    (p : Nat × Decision) (h : GBNoAO acc.1) :
    GBNoAO (addDecision agentId abi rootAssoc acc p).1 :=
  noao_decision_constrains _ _ _ _ _
    (noao_decision_signal _ _ _ _ _
      (noao_decision_reasons _ _ _ _ _
        (noao_decision_evolves _ _ _ _
          (noao_decision_initiates _ _ _ _ _
            (noao_add_edge _ _ _ _ _
              (noao_add_node _ _ _ _ _ (fun _k hc => NodeId.noConfusion hc)
                (fun _k hc => NodeId.noConfusion hc) h))))))

/-- The decision phase keeps `GBNoAO`. -/
theorem noao_phase_decisions (st : GBState) (agentId : NodeId)
    (abi : List (NodeId × ℚ × String)) (rootAssoc : List (String × NodeId))
    (decisions : List Decision) (h : GBNoAO st) :
    GBNoAO (phase_decisions st agentId abi rootAssoc decisions).1 := by
  unfold phase_decisions
  exact foldl_preserves
    (P := fun p : GBState × List NodeId => GBNoAO p.1)
    (fun s b hs => noao_addDecision agentId abi rootAssoc s b hs) _ _ h

/-- The pre-action builder state holds no action or outcome identifiers. -/
theorem noao_bcg_dec (snapshot : Snapshot) (decisions : List Decision)
    (roots : List ContextRoot) (timeline : List TEntry) (gma : Nat)
    (ma : Option Int) :
    GBNoAO (bcg_dec snapshot decisions roots timeline gma ma).1 := by
  have hact : GBNoAO (bcg_act snapshot roots timeline gma ma).1 := by
    intro n hn
    rw [bcg_act_nodes] at hn
    rcases List.mem_append.mp hn with hn | hn
    · rcases bcg_roots_ids snapshot roots n hn with ⟨a, ha⟩ | ⟨k, hk⟩
      · rw [ha]
        exact ⟨fun k hc => NodeId.noConfusion hc,
          fun k hc => NodeId.noConfusion hc⟩
      · rw [hk]
        exact ⟨fun j hc => NodeId.noConfusion hc,
          fun j hc => NodeId.noConfusion hc⟩
    · rw [List.mem_map] at hn
      obtain ⟨q, _, rfl⟩ := hn
      exact ⟨fun k hc => NodeId.noConfusion hc,
        fun k hc => NodeId.noConfusion hc⟩
  unfold bcg_dec
  exact noao_phase_decisions _ _ _ _ _ hact

/-- `find?` over an append whose left part matches. -/
theorem find?_append_left {p : α → Bool} :
    ∀ (l1 l2 : List α) {x : α}, l1.find? p = some x →
      (l1 ++ l2).find? p = some x
  | [], _, _, h => by cases h
  | a :: r, l2, x, h => by
    by_cases hp : p a = true
    · rw [List.find?_cons_of_pos _ hp] at h
      rw [List.cons_append, List.find?_cons_of_pos _ hp]
      exact h
    · rw [List.find?_cons_of_neg _ hp] at h
      rw [List.cons_append, List.find?_cons_of_neg _ hp]
      exact find?_append_left r l2 h

/-- `find?` over an append whose left part has no match. -/
theorem find?_append_right {p : α → Bool} :
    ∀ (l1 l2 : List α), l1.find? p = none →
      (l1 ++ l2).find? p = l2.find? p
  | [], _, _ => rfl
  | a :: r, l2, h => by
    by_cases hp : p a = true
    · rw [List.find?_cons_of_pos _ hp] at h
      cases h
    · rw [List.find?_cons_of_neg _ hp] at h
      rw [List.cons_append, List.find?_cons_of_neg _ hp]
      exact find?_append_right r l2 h

/-- `node_weight` ignores appended nodes carrying other identifiers. -/
theorem node_weight_append (st st' : GBState) (extra : List GNode)
    (id : NodeId) (d : ℚ) (h : st'.nodes = st.nodes ++ extra)
    (hx : ∀ n ∈ extra, (n.id == id) = false) :
    node_weight st' id d = node_weight st id d := by
  unfold node_weight
  rw [h]
  cases hf : st.nodes.find? (fun n => n.id == id) with
  | some x => rw [find?_append_left _ _ hf]
  | none =>
    have hnone : extra.find? (fun n => n.id == id) = none := by
      rw [List.find?_eq_none]
      intro n hn
      simp [hx n hn]
    rw [find?_append_right _ _ hf, hnone]

/-- In the post-action-phase node list the action node of index `i` is found
with its admitted weight. -/
theorem find?_action_node (eligLen i : Nat) (rowm : CronTRow)
    (preNodes : List GNode) (W1 W2 : List (Nat × CronTRow))
    (hpre : ∀ n ∈ preNodes, ∀ k, n.id ≠ NodeId.action k)
    (hW1 : ∀ q ∈ W1, q.1 ≠ i) :
    (preNodes ++ ((W1 ++ (i, rowm) :: W2).map (mkActionNode eligLen))).find?
        (fun n => n.id == NodeId.action i) =
      some (mkActionNode eligLen (i, rowm)) := by
  have h1 : preNodes.find? (fun n => n.id == NodeId.action i) = none := by
    rw [List.find?_eq_none]
    intro n hn
    simp [hpre n hn i]
  rw [find?_append_right _ _ h1, List.map_append]
  have h2 : (W1.map (mkActionNode eligLen)).find?
      (fun n => n.id == NodeId.action i) = none := by
    rw [List.find?_eq_none]
    intro n hn
    rw [List.mem_map] at hn
    obtain ⟨q, hq, rfl⟩ := hn
    simp [mkActionNode, hW1 q hq]
  rw [find?_append_right _ _ h2, List.map_cons,
    List.find?_cons_of_pos _ (by simp [mkActionNode])]

/-- Clamping is idempotent. -/
theorem clamp_idem (x : ℚ) : clamp_weight (clamp_weight x) = clamp_weight x :=
  clamp_weight_id _ (clamp_weight_mem x).1 (clamp_weight_mem x).2

/-- An action weight is already clamped. -/
theorem clamp_action_weight (s : String) (L i : Nat) :
    clamp_weight (action_weight_of s L i) = action_weight_of s L i := by
  unfold action_weight_of
  exact clamp_idem _

/-- The outcome fold appends exactly one outcome node per record, reading
each action weight off the initial state. -/
theorem outFold_nodes :
    ∀ (l : List ActionRec) (st : GBState),
      (∀ n ∈ st.nodes, ∀ ar ∈ l, n.id ≠ NodeId.outcome ar.2.2.1) →
      (∀ ar ∈ l, ∀ k, ar.1 ≠ NodeId.outcome k) →
      ((l.map (fun ar => ar.2.2.1)).Nodup) →
      (l.foldl addOutcome st).nodes = st.nodes ++ l.map (outNodeOf st)
  | [], st => by intro _ _ _; simp
  | ar :: rest, st => by
    intro h1 h2 hnd
    have hfr : ∀ n ∈ st.nodes, n.id ≠ NodeId.outcome ar.2.2.1 :=
      fun n hn => h1 n hn ar (List.mem_cons_self ar rest)
    have hstep : (addOutcome st ar).nodes = st.nodes ++ [outNodeOf st ar] :=
      (nodes_add_edge _ _ _ _ _).trans (add_node_nodes_fresh _ _ _ hfr)
    have hidx : ar.2.2.1 ∉ rest.map (fun a => a.2.2.1) :=
      (List.nodup_cons.mp hnd).1
    have h1' : ∀ n ∈ (addOutcome st ar).nodes, ∀ a ∈ rest,
        n.id ≠ NodeId.outcome a.2.2.1 := by
      intro n hn a ha
      rw [hstep] at hn
      rcases List.mem_append.mp hn with hn | hn
      · exact h1 n hn a (List.mem_cons_of_mem ar ha)
      · rw [List.mem_singleton] at hn
        subst hn
        intro hcon
        apply hidx
        have he : ar.2.2.1 = a.2.2.1 :=
          NodeId.outcome.inj
            (hcon : NodeId.outcome ar.2.2.1 = NodeId.outcome a.2.2.1)
        rw [he]
        exact List.mem_map_of_mem _ ha
    have hcong : ∀ a ∈ rest, outNodeOf (addOutcome st ar) a = outNodeOf st a := by
      intro a ha
      unfold outNodeOf
      rw [node_weight_append st (addOutcome st ar) [outNodeOf st ar] a.1 0.45
        hstep ?_]
      intro n hn
      rw [List.mem_singleton] at hn
      subst hn
      exact beq_eq_false_iff_ne.mpr
        (Ne.symm (h2 a (List.mem_cons_of_mem ar ha) ar.2.2.1))
    rw [List.foldl_cons,
      outFold_nodes rest (addOutcome st ar) h1'
        (fun a h => h2 a (List.mem_cons_of_mem ar h))
        (List.nodup_cons.mp hnd).2,
      hstep, List.map_congr_left hcong]
    simp

set_option maxHeartbeats 1000000 in
/-- The arithmetic core of C7: with the same recency bump `r ≥ 0`, the
outcome-bad weight (status bump 0.32, factor 1.06) strictly exceeds the
outcome-ok weight (status bump 0.18, factor 0.92), through all clamping
regimes. -/
theorem outcome_weight_lt (r : ℚ) (hr : 0 ≤ r) :
    clamp_weight (clamp_weight (0.52 + 0.18 + r) * 0.92) <
      clamp_weight (clamp_weight (0.52 + 0.32 + r) * 1.06) := by
  unfold clamp_weight
  split_ifs <;> linarith

/-- `phase_actions` as an explicit fold over the displayed window. -/
theorem phase_actions_eq (st : GBState) (agentId : NodeId)
    (dts : List (Nat × ℚ)) (dns : List NodeId) (ct : List CronTRow) :
    phase_actions st agentId dts dns ct =
      ((eligible_actions ct).drop ((eligible_actions ct).length - 14)).foldl
        (addAction agentId dts dns (eligible_actions ct).length) (st, []) := rfl

/-- Through the action and outcome folds, a displayed eligible row of
absolute index `i` yields an outcome node with the status-dependent group
and weight. -/
theorem fold_outcome_node (agentId : NodeId) (dts : List (Nat × ℚ))
    (dns : List NodeId) (preSt : GBState) (hpre : GBNoAO preSt)
    (eligLen i : Nat) (rowm : CronTRow) (W1 W2 : List (Nat × CronTRow))
    (hW1 : ∀ q ∈ W1, q.1 ≠ i)
    (hnd : ((W1 ++ (i, rowm) :: W2).map Prod.fst).Nodup) :
    ∃ m ∈ (phase_outcomes
      ((W1 ++ (i, rowm) :: W2).foldl (addAction agentId dts dns eligLen)
        (preSt, ([] : List ActionRec))).1
      ((W1 ++ (i, rowm) :: W2).foldl (addAction agentId dts dns eligLen)
        (preSt, ([] : List ActionRec))).2).nodes,
      m.id = NodeId.outcome i ∧
      m.group = (if outcome_ok_status (pyLowerStr (rowm.status.getD "unknown"))
        then "outcome_ok" else "outcome_bad") ∧
      m.weight = (if outcome_ok_status (pyLowerStr (rowm.status.getD "unknown"))
        then clamp_weight (action_weight_of
          (pyLowerStr (pyStrip (rowm.status.getD "unknown"))) eligLen i * 0.92)
        else clamp_weight (action_weight_of
          (pyLowerStr (pyStrip (rowm.status.getD "unknown"))) eligLen i * 1.06)) := by
  have h_nodes : ((W1 ++ (i, rowm) :: W2).foldl (addAction agentId dts dns eligLen)
      (preSt, ([] : List ActionRec))).1.nodes =
      preSt.nodes ++ (W1 ++ (i, rowm) :: W2).map (mkActionNode eligLen) :=
    actionFold_nodes agentId dts dns eligLen _ _
      (fun n hn q _ => (hpre n hn).1 q.1) hnd
  have h_recs : ((W1 ++ (i, rowm) :: W2).foldl (addAction agentId dts dns eligLen)
      (preSt, ([] : List ActionRec))).2 =
      (W1 ++ (i, rowm) :: W2).map (actionRec dts dns) :=
    (actionFold_recs agentId dts dns eligLen _ _).trans (List.nil_append _)
  have hfind : ((W1 ++ (i, rowm) :: W2).foldl (addAction agentId dts dns eligLen)
      (preSt, ([] : List ActionRec))).1.nodes.find?
        (fun n => n.id == NodeId.action i) =
      some (mkActionNode eligLen (i, rowm)) := by
    rw [h_nodes]
    exact find?_action_node eligLen i rowm preSt.nodes W1 W2
      (fun n hn => (hpre n hn).1) hW1
  have hnw : node_weight ((W1 ++ (i, rowm) :: W2).foldl
      (addAction agentId dts dns eligLen) (preSt, ([] : List ActionRec))).1
      (NodeId.action i) 0.45 = (mkActionNode eligLen (i, rowm)).weight := by
    unfold node_weight
    rw [hfind]
  have h_out : (phase_outcomes
      ((W1 ++ (i, rowm) :: W2).foldl (addAction agentId dts dns eligLen)
        (preSt, ([] : List ActionRec))).1
      ((W1 ++ (i, rowm) :: W2).foldl (addAction agentId dts dns eligLen)
        (preSt, ([] : List ActionRec))).2).nodes =
      ((W1 ++ (i, rowm) :: W2).foldl (addAction agentId dts dns eligLen)
        (preSt, ([] : List ActionRec))).1.nodes ++
      ((W1 ++ (i, rowm) :: W2).foldl (addAction agentId dts dns eligLen)
        (preSt, ([] : List ActionRec))).2.map
        (outNodeOf ((W1 ++ (i, rowm) :: W2).foldl
          (addAction agentId dts dns eligLen)
          (preSt, ([] : List ActionRec))).1) := by
    refine outFold_nodes _ _ ?_ ?_ ?_
    · intro n hn ar _
      rw [h_nodes] at hn
      rcases List.mem_append.mp hn with hn | hn
      · exact (hpre n hn).2 ar.2.2.1
      · rw [List.mem_map] at hn
        obtain ⟨q, _, rfl⟩ := hn
        simp [mkActionNode]
    · intro ar har k
      rw [h_recs, List.mem_map] at har
      obtain ⟨q, _, rfl⟩ := har
      rw [actionRec_fst]
      exact fun hc => NodeId.noConfusion hc
    · rw [h_recs, List.map_map]
      show (List.map (fun q => (actionRec dts dns q).2.2.1)
        (W1 ++ (i, rowm) :: W2)).Nodup
      rw [List.map_congr_left (fun q _ => actionRec_idx dts dns q)]
      exact hnd
  refine ⟨outNodeOf ((W1 ++ (i, rowm) :: W2).foldl
      (addAction agentId dts dns eligLen) (preSt, ([] : List ActionRec))).1
      (actionRec dts dns (i, rowm)), ?_, ?_, ?_, ?_⟩
  · rw [h_out]
    refine List.mem_append.mpr (Or.inr ?_)
    rw [h_recs]
    exact List.mem_map_of_mem _ (List.mem_map_of_mem _
      (List.mem_append.mpr (Or.inr (List.mem_cons_self _ _))))
  · show NodeId.outcome (actionRec dts dns (i, rowm)).2.2.1 = NodeId.outcome i
    rw [actionRec_idx]
  · show (if outcome_ok_status
        (pyLowerStr ((actionRec dts dns (i, rowm)).2.1.status.getD "unknown"))
      then "outcome_ok" else "outcome_bad") = _
    rw [actionRec_row]
  · have hmw : (mkActionNode eligLen (i, rowm)).weight =
        action_weight_of (pyLowerStr (pyStrip (rowm.status.getD "unknown")))
          eligLen i :=
      clamp_action_weight _ _ _
    show clamp_weight (if outcome_ok_status
        (pyLowerStr ((actionRec dts dns (i, rowm)).2.1.status.getD "unknown"))
      then clamp_weight (clamp_weight (node_weight
        ((W1 ++ (i, rowm) :: W2).foldl (addAction agentId dts dns eligLen)
          (preSt, ([] : List ActionRec))).1
        (actionRec dts dns (i, rowm)).1 0.45) * 0.92)
      else clamp_weight (clamp_weight (node_weight
        ((W1 ++ (i, rowm) :: W2).foldl (addAction agentId dts dns eligLen)
          (preSt, ([] : List ActionRec))).1
        (actionRec dts dns (i, rowm)).1 0.45) * 1.06)) = _
    rw [actionRec_row, actionRec_fst]
    show clamp_weight (if outcome_ok_status
        (pyLowerStr (rowm.status.getD "unknown"))
      then clamp_weight (clamp_weight (node_weight
        ((W1 ++ (i, rowm) :: W2).foldl (addAction agentId dts dns eligLen)
          (preSt, ([] : List ActionRec))).1 (NodeId.action i) 0.45) * 0.92)
      else clamp_weight (clamp_weight (node_weight
        ((W1 ++ (i, rowm) :: W2).foldl (addAction agentId dts dns eligLen)
          (preSt, ([] : List ActionRec))).1 (NodeId.action i) 0.45) * 1.06)) = _
    rw [hnw, hmw, clamp_action_weight]
    by_cases hok : outcome_ok_status (pyLowerStr (rowm.status.getD "unknown"))
    · rw [if_pos hok, clamp_idem]
    · rw [if_neg hok, clamp_idem]

/-- An eligible cron row among the displayed window (at most 13 eligible
rows after it) yields an outcome node in the post-outcome-phase builder
state, with the status-dependent group and weight. -/
theorem bcg_out_outcome_node (snapshot : Snapshot) (decisions : List Decision)
    (roots : List ContextRoot) (timeline : List TEntry) (gma : Nat)
    (ma : Option Int) (pre post : List CronTRow) (row : CronTRow)
    (helig : eligible_kind row = true)
    (hpost : (post.filter (fun r => eligible_kind r)).length ≤ 13) :
    ∃ m ∈ (bcg_out snapshot decisions (pre ++ row :: post) roots timeline gma
        ma).nodes,
      m.id = NodeId.outcome pre.length ∧
      m.group = (if outcome_ok_status (pyLowerStr (row.status.getD "unknown"))
        then "outcome_ok" else "outcome_bad") ∧
      m.weight = (if outcome_ok_status (pyLowerStr (row.status.getD "unknown"))
        then clamp_weight (action_weight_of
          (pyLowerStr (pyStrip (row.status.getD "unknown")))
          (eligible_actions (pre ++ row :: post)).length pre.length * 0.92)
        else clamp_weight (action_weight_of
          (pyLowerStr (pyStrip (row.status.getD "unknown")))
          (eligible_actions (pre ++ row :: post)).length pre.length * 1.06)) := by
  have hsplit := eligible_actions_split pre post row helig
  have hBlen : ((withIdx (pre.length + 1) post).filter
      (fun q => eligible_kind q.2)).length ≤ 13 := by
    rw [withIdx_filter_length]
    exact hpost
  have hk : (eligible_actions (pre ++ row :: post)).length - 14 ≤
      (eligible_actions pre).length := by
    rw [hsplit]
    simp only [List.length_append, List.length_cons]
    omega
  have hwin : (eligible_actions (pre ++ row :: post)).drop
      ((eligible_actions (pre ++ row :: post)).length - 14) =
      ((eligible_actions pre).drop
        ((eligible_actions (pre ++ row :: post)).length - 14)) ++
        (pre.length, row) ::
        (withIdx (pre.length + 1) post).filter (fun q => eligible_kind q.2) := by
    rw [hsplit] at hk ⊢
    exact List.drop_append_of_le_length hk
  have hnd0 : ((eligible_actions (pre ++ row :: post)).map Prod.fst).Nodup := by
    have hidx : ((withIdx 0 (pre ++ row :: post)).map Prod.fst).Nodup := by
      rw [withIdx_map_fst]
      exact List.nodup_range' _ _
    exact hidx.sublist ((List.filter_sublist _).map _)
  have hndw : (((eligible_actions (pre ++ row :: post)).drop
      ((eligible_actions (pre ++ row :: post)).length - 14)).map
        Prod.fst).Nodup :=
    hnd0.sublist ((List.drop_sublist _ _).map _)
  have hW1 : ∀ q ∈ (eligible_actions pre).drop
      ((eligible_actions (pre ++ row :: post)).length - 14),
      q.1 ≠ pre.length := by
    intro q hq
    have hqA : q ∈ eligible_actions pre := List.mem_of_mem_drop hq
    have hqb : q ∈ withIdx 0 pre := List.mem_of_mem_filter hqA
    have hb := withIdx_mem_bounds pre 0 q hqb
    omega
  have hndW : ((((eligible_actions pre).drop
      ((eligible_actions (pre ++ row :: post)).length - 14)) ++
      (pre.length, row) ::
      (withIdx (pre.length + 1) post).filter
        (fun q => eligible_kind q.2)).map Prod.fst).Nodup := by
    rw [← hwin]
    exact hndw
  have hkey := fold_outcome_node (bcg_agentId snapshot)
    (decision_times decisions)
    (bcg_dec snapshot decisions roots timeline gma ma).2
    (bcg_dec snapshot decisions roots timeline gma ma).1
    (noao_bcg_dec snapshot decisions roots timeline gma ma)
    (eligible_actions (pre ++ row :: post)).length pre.length row
    ((eligible_actions pre).drop
      ((eligible_actions (pre ++ row :: post)).length - 14))
    ((withIdx (pre.length + 1) post).filter (fun q => eligible_kind q.2))
    hW1 hndW
  show ∃ m ∈ (phase_outcomes
      (phase_actions (bcg_dec snapshot decisions roots timeline gma ma).1
        (bcg_agentId snapshot) (decision_times decisions)
        (bcg_dec snapshot decisions roots timeline gma ma).2
        (pre ++ row :: post)).1
      (phase_actions (bcg_dec snapshot decisions roots timeline gma ma).1
        (bcg_agentId snapshot) (decision_times decisions)
        (bcg_dec snapshot decisions roots timeline gma ma).2
        (pre ++ row :: post)).2).nodes,
    m.id = NodeId.outcome pre.length ∧
    m.group = (if outcome_ok_status (pyLowerStr (row.status.getD "unknown"))
      then "outcome_ok" else "outcome_bad") ∧
    m.weight = (if outcome_ok_status (pyLowerStr (row.status.getD "unknown"))
      then clamp_weight (action_weight_of
        (pyLowerStr (pyStrip (row.status.getD "unknown")))
        (eligible_actions (pre ++ row :: post)).length pre.length * 0.92)
      else clamp_weight (action_weight_of
        (pyLowerStr (pyStrip (row.status.getD "unknown")))
        (eligible_actions (pre ++ row :: post)).length pre.length * 1.06))
  rw [phase_actions_eq, hwin]
  exact hkey

/-- `nodesPres` is reflexive. -/
theorem nodesPres_refl (st : GBState) : nodesPres st st :=
  fun n hn => ⟨n, hn, rfl, rfl, rfl⟩

/-- `nodesPres` is transitive. -/
theorem nodesPres_trans {a b c : GBState} (h1 : nodesPres a b)
    (h2 : nodesPres b c) : nodesPres a c := by
  intro n hn
  obtain ⟨m, hm, hid, hg, hw⟩ := h1 n hn
  obtain ⟨o, ho, hid2, hg2, hw2⟩ := h2 m hm
  exact ⟨o, ho, hid2.trans hid, hg2.trans hg, hw2.trans hw⟩

/-- Mapping the node list with an id-, group- and weight-preserving function
refines the node set. -/
theorem nodesPres_map (st : GBState) (f : GNode → GNode)
    (hid : ∀ n, (f n).id = n.id) (hg : ∀ n, (f n).group = n.group)
    (hw : ∀ n, (f n).weight = n.weight) :
    nodesPres st { st with nodes := st.nodes.map f } :=
  fun n hn => ⟨f n, List.mem_map_of_mem f hn, hid n, hg n, hw n⟩

/-- `set_node_live` refines the node set. -/
theorem nodesPres_set_node_live (st : GBState) (id : NodeId) (a b now : ℚ) :
    nodesPres st (set_node_live st id a b now).1 := by
  have hmap : nodesPres st { st with nodes := set_live_in_nodes st.nodes id } := by
    unfold set_live_in_nodes
    exact nodesPres_map st
      (fun n => if n.id == id then { n with live := true } else n)
      (fun n => by by_cases hn : (n.id == id) = true <;> simp [hn])
      (fun n => by by_cases hn : (n.id == id) = true <;> simp [hn])
      (fun n => by by_cases hn : (n.id == id) = true <;> simp [hn])
  unfold set_node_live
  split_ifs <;> first | exact nodesPres_refl st | exact hmap

/-- `set_node_live_window` refines the node set. -/
theorem nodesPres_set_node_live_window (st : GBState) (id : NodeId)
    (a b c now : ℚ) : nodesPres st (set_node_live_window st id a b c now).1 := by
  unfold set_node_live_window
  split_ifs <;>
    first
      | exact nodesPres_refl st
      | exact nodesPres_set_node_live _ _ _ _ _

/-- The activation liveness pass refines the node set. -/
theorem nodesPres_live_activations (st : GBState)
    (abi : List (NodeId × ℚ × String)) (now : ℚ) :
    nodesPres st (live_activations st abi now).1 := by
  unfold live_activations
  refine foldl_preserves
    (P := fun p : GBState × List (NodeId × ℚ) => nodesPres st p.1) ?_ _ _
    (nodesPres_refl st)
  intro s b hs
  split_ifs
  · exact hs
  · exact nodesPres_trans hs (nodesPres_set_node_live_window _ _ _ _ _ _)
  · exact nodesPres_trans hs (nodesPres_set_node_live_window _ _ _ _ _ _)

/-- The satellite pass refines the node set. -/
theorem nodesPres_decision_satellites_live (st : GBState) (idx : Nat)
    (a b now : ℚ) : nodesPres st (decision_satellites_live st idx a b now) := by
  unfold decision_satellites_live
  refine foldl_preserves (P := fun s => nodesPres st s) ?_ _ _
    (nodesPres_refl st)
  intro s nid hs
  exact nodesPres_trans hs (nodesPres_set_node_live_window _ _ _ _ _ _)

/-- One decision liveness step refines the node set. -/
theorem nodesPres_live_decisions_step (dts : List (Nat × ℚ))
    (lastSeenTs now : ℚ) (acc : GBState × List (NodeId × ℚ))
    (p : Nat × NodeId) :
    nodesPres acc.1 (live_decisions_step dts lastSeenTs now acc p).1 := by
  unfold live_decisions_step
  split_ifs
  · exact nodesPres_refl _
  · exact nodesPres_trans (nodesPres_set_node_live_window _ _ _ _ _ _)
      (nodesPres_decision_satellites_live _ _ _ _ _)
  · exact nodesPres_set_node_live_window _ _ _ _ _ _

/-- The decision liveness pass refines the node set. -/
theorem nodesPres_live_decisions (st : GBState) (dns : List NodeId)
    (dts : List (Nat × ℚ)) (lastSeenTs now : ℚ) :
    nodesPres st (live_decisions st dns dts lastSeenTs now).1 := by
  unfold live_decisions
  refine foldl_preserves
    (P := fun p : GBState × List (NodeId × ℚ) => nodesPres st p.1) ?_ _ _
    (nodesPres_refl st)
  intro s b hs
  exact nodesPres_trans hs (nodesPres_live_decisions_step _ _ _ _ _)

/-- The action liveness pass refines the node set. -/
theorem nodesPres_live_actions (st : GBState) (ans : List ActionRec)
    (lastSeenTs now : ℚ) :
    nodesPres st (live_actions st ans lastSeenTs now).1 := by
  unfold live_actions
  refine foldl_preserves
    (P := fun p : GBState × List (NodeId × ℚ) => nodesPres st p.1) ?_ _ _
    (nodesPres_refl st)
  intro s b hs
  unfold live_action_step
  split_ifs
  · exact hs
  · exact hs
  · exact nodesPres_trans hs (nodesPres_set_node_live_window _ _ _ _ _ _)
  · exact nodesPres_trans hs (nodesPres_set_node_live_window _ _ _ _ _ _)

/-- One outcome liveness step refines the node set. -/
theorem nodesPres_live_outcomes_step (now : ℚ) (st : GBState)
    (ar : ActionRec) : nodesPres st (live_outcomes_step now st ar) := by
  unfold live_outcomes_step
  split_ifs
  · exact nodesPres_refl _
  · exact nodesPres_refl _
  · exact nodesPres_set_node_live_window _ _ _ _ _ _

/-- The outcome liveness fold refines the node set. -/
theorem nodesPres_foldl_outcomes (now : ℚ) (l : List ActionRec)
    (st : GBState) : nodesPres st (l.foldl (live_outcomes_step now) st) :=
  foldl_preserves (P := fun s => nodesPres st s)
    (fun s b hs => nodesPres_trans hs (nodesPres_live_outcomes_step now s b))
    l st (nodesPres_refl st)

/-- The assembled liveness pass refines the node set. -/
theorem nodesPres_bcg_live (now : ℚ) (gma : Nat) (snapshot : Snapshot)
    (decisions : List Decision) (ct : List CronTRow)
    (roots : List ContextRoot) (timeline : List TEntry) (ma : Option Int) :
    nodesPres (bcg_out snapshot decisions ct roots timeline gma ma)
      (bcg_live now gma snapshot decisions ct roots timeline ma).1 := by
  unfold bcg_live
  exact nodesPres_trans (nodesPres_live_activations _ _ _)
    (nodesPres_trans (nodesPres_live_decisions _ _ _ _ _)
      (nodesPres_trans (nodesPres_live_actions _ _ _ _)
        (nodesPres_foldl_outcomes _ _ _)))

/-- Trigger selection refines the node set. -/
theorem nodesPres_trig_select (now : ℚ) (snapshot : Snapshot)
    (l : GBState × List (NodeId × ℚ) × List (NodeId × ℚ) ×
      List (NodeId × ℚ)) :
    nodesPres l.1 (trig_select now snapshot l).1 := by
  unfold trig_select
  cases max_by_ts l.2.2.2
  case some a => exact nodesPres_refl _
  case none =>
    cases max_by_ts l.2.2.1
    case some a => exact nodesPres_refl _
    case none =>
      cases max_by_ts l.2.1
      case some a => exact nodesPres_refl _
      case none =>
        unfold bcg_trig_fallback
        split_ifs
        · exact nodesPres_set_node_live _ _ _ _ _
        · exact nodesPres_set_node_live _ _ _ _ _
        · exact nodesPres_refl _

/-- Trigger marking refines the node set. -/
theorem nodesPres_mark_trigger (st : GBState) (t : NodeId) :
    nodesPres st (mark_trigger st t) := by
  unfold mark_trigger
  exact nodesPres_map st
    (fun n => if n.id == t then { n with trigger_source := true } else n)
    (fun n => by by_cases hn : (n.id == t) = true <;> simp [hn])
    (fun n => by by_cases hn : (n.id == t) = true <;> simp [hn])
    (fun n => by by_cases hn : (n.id == t) = true <;> simp [hn])

/-- Edge finalization refines the node set. -/
theorem nodesPres_finalize_edges (st : GBState) :
    nodesPres st (finalize_edges st) :=
  fun n hn => ⟨n, hn, rfl, rfl, rfl⟩

/-- Every node of the post-outcome-phase state survives into the final
builder state with identifier, group and weight intact. -/
theorem nodesPres_bcg_final (now : ℚ) (gma : Nat) (snapshot : Snapshot)
    (decisions : List Decision) (ct : List CronTRow)
    (roots : List ContextRoot) (timeline : List TEntry) (ma : Option Int) :
    nodesPres (bcg_out snapshot decisions ct roots timeline gma ma)
      (bcg_final now gma snapshot decisions ct roots timeline ma) := by
  have htr : nodesPres (bcg_out snapshot decisions ct roots timeline gma ma)
      (bcg_trig now gma snapshot decisions ct roots timeline ma).1 :=
    nodesPres_trans
      (nodesPres_bcg_live now gma snapshot decisions ct roots timeline ma)
      (nodesPres_trig_select now snapshot _)
  unfold bcg_final
  cases (bcg_trig now gma snapshot decisions ct roots timeline ma).2
  case some t =>
    exact nodesPres_trans htr (nodesPres_trans (nodesPres_mark_trigger _ _)
      (nodesPres_finalize_edges _))
  case none =>
    exact nodesPres_trans htr (nodesPres_finalize_edges _)

/-- The action weight of an `"ok"` row: base 0.52, bump 0.18, recency. -/
theorem action_weight_ok_eq (L i : Nat) :
    action_weight_of "ok" L i =
      clamp_weight (0.52 + 0.18 +
        max 0 (0.24 - ((L : ℚ) - (i : ℚ) - 1) * 0.012)) := by
  show clamp_weight (0.52 +
      (if ("ok" = "ok" ∨ "ok" = "success" ∨ "ok" = "scheduled")
        then (0.18 : ℚ) else 0.32) +
      max 0 (0.24 - ((L : ℚ) - (i : ℚ) - 1) * 0.012)) = _
  rw [if_pos (Or.inl rfl)]

/-- The action weight of a `"failed"` row: base 0.52, bump 0.32, recency. -/
theorem action_weight_failed_eq (L i : Nat) :
    action_weight_of "failed" L i =
      clamp_weight (0.52 + 0.32 +
        max 0 (0.24 - ((L : ℚ) - (i : ℚ) - 1) * 0.012)) := by
  show clamp_weight (0.52 +
      (if ("failed" = "ok" ∨ "failed" = "success" ∨ "failed" = "scheduled")
        then (0.18 : ℚ) else 0.32) +
      max 0 (0.24 - ((L : ℚ) - (i : ℚ) - 1) * 0.012)) = _
  rw [if_neg (by decide)]

/-- C7: for otherwise-identical eligible cron rows in the displayed window
differing only in status (`failed` versus `ok`), the failed run's graph holds
an `outcome_bad` node at that index whose weight strictly exceeds the weight
of the `outcome_ok` node the ok run produces there. -/
theorem c7_outcome_weights (now : ℚ) (gma : Nat) (snapshot : Snapshot)
    (decisions : List Decision) (roots : List ContextRoot)
    (timeline : List TEntry) (ma : Option Int)
    (pre post : List CronTRow) (row : CronTRow)
    (helig : eligible_kind row = true)
    (hpost : (post.filter (fun r => eligible_kind r)).length ≤ 13) :
    ∃ mb ∈ (build_causal_graph now gma snapshot decisions
        (pre ++ { row with status := some "failed" } :: post) roots timeline
        ma).nodes,
      ∃ mo ∈ (build_causal_graph now gma snapshot decisions
        (pre ++ { row with status := some "ok" } :: post) roots timeline
        ma).nodes,
      mb.id = NodeId.outcome pre.length ∧ mo.id = NodeId.outcome pre.length ∧
      mb.group = "outcome_bad" ∧ mo.group = "outcome_ok" ∧
      mo.weight < mb.weight := by
  have heligF : eligible_kind { row with status := some "failed" } = true :=
    helig
  have heligO : eligible_kind { row with status := some "ok" } = true := helig
  obtain ⟨mF, hmF, hidF, hgF, hwF⟩ := bcg_out_outcome_node snapshot decisions
    roots timeline gma ma pre post { row with status := some "failed" }
    heligF hpost
  obtain ⟨mO, hmO, hidO, hgO, hwO⟩ := bcg_out_outcome_node snapshot decisions
    roots timeline gma ma pre post { row with status := some "ok" }
    heligO hpost
  obtain ⟨nb, hnb, hnbid, hnbg, hnbw⟩ := nodesPres_bcg_final now gma snapshot
    decisions (pre ++ { row with status := some "failed" } :: post) roots
    timeline ma mF hmF
  obtain ⟨no2, hno, hnoid, hnog, hnow⟩ := nodesPres_bcg_final now gma snapshot
    decisions (pre ++ { row with status := some "ok" } :: post) roots
    timeline ma mO hmO
  have hsF : pyLowerStr
      (({ row with status := some "failed" } : CronTRow).status.getD
        "unknown") = "failed" := rfl
  have hsO : pyLowerStr
      (({ row with status := some "ok" } : CronTRow).status.getD
        "unknown") = "ok" := rfl
  have hsF2 : pyLowerStr (pyStrip
      (({ row with status := some "failed" } : CronTRow).status.getD
        "unknown")) = "failed" := rfl
  have hsO2 : pyLowerStr (pyStrip
      (({ row with status := some "ok" } : CronTRow).status.getD
        "unknown")) = "ok" := rfl
  have hokF : ¬ outcome_ok_status "failed" := by decide
  have hokO : outcome_ok_status "ok" := by decide
  have hLen : (eligible_actions
      (pre ++ { row with status := some "ok" } :: post)).length =
      (eligible_actions
        (pre ++ { row with status := some "failed" } :: post)).length := by
    rw [eligible_actions_split pre post _ heligO,
      eligible_actions_split pre post _ heligF]
    simp [List.length_append]
  rw [hsF] at hgF hwF
  rw [hsO] at hgO hwO
  rw [hsF2] at hwF
  rw [hsO2] at hwO
  rw [if_neg hokF] at hgF hwF
  rw [if_pos hokO] at hgO hwO
  refine ⟨nb, hnb, no2, hno, hnbid.trans hidF, hnoid.trans hidO,
    hnbg.trans hgF, hnog.trans hgO, ?_⟩
  rw [hnow, hnbw, hwF, hwO, hLen, action_weight_ok_eq,
    action_weight_failed_eq]
  exact outcome_weight_lt _ (le_max_left _ _)

/-- Witness for C7: the single eligible row `c7Row` with status `failed`
versus `ok`. -/
theorem c7_witness :
    eligible_kind c7Row = true ∧
    ((([] : List CronTRow).filter (fun r => eligible_kind r)).length ≤ 13) ∧
    (∃ mb ∈ (build_causal_graph 0 5 { agent := some "x" } []
        ([] ++ { c7Row with status := some "failed" } :: ([] : List CronTRow))
        [] [] none).nodes,
      ∃ mo ∈ (build_causal_graph 0 5 { agent := some "x" } []
        ([] ++ { c7Row with status := some "ok" } :: ([] : List CronTRow))
        [] [] none).nodes,
      mb.id = NodeId.outcome ([] : List CronTRow).length ∧
      mo.id = NodeId.outcome ([] : List CronTRow).length ∧
      mb.group = "outcome_bad" ∧ mo.group = "outcome_ok" ∧
      mo.weight < mb.weight) :=
  ⟨by decide, by decide,
   c7_outcome_weights 0 5 { agent := some "x" } [] [] [] none [] [] c7Row
     (by decide) (by decide)⟩

end Observatory
